import Mathlib

/-!
# Scheduling- and thread-state reconstruction: `SwitchesStatesNamesVisitor`

A shallow embedding of `src/LinuxTracing/SwitchesStatesNamesVisitor.cpp`.

* `pid_t` values are `Int` (they are only compared, never computed with),
  `uint64_t` timestamps and state masks and the cpu index are `Nat`.
* The visitor is a record of its member variables; every member function is a
  function from the visitor to an `Outcome`: the visitor afterwards, the
  observable effects of the call in program order (calls into the two
  managers, calls of the listener, `ERROR` reports) and the fault that ended
  the call early, if any (`CHECK` failure, null listener).
* `ContextSwitchManager` and `ThreadStateManager`, whose sources are not part
  of `SwitchesStatesNamesVisitor.cpp`, are parameters: a state type and one
  function per member function the visitor calls.
-/

namespace orbit_linux_tracing

/-! ## Data model -/

/-- The values of `ThreadStateSlice::ThreadState` that the visitor produces. -/
inductive ThreadState
  | kRunnable
  | kInterruptibleSleep
  | kUninterruptibleSleep
  | kStopped
  | kTraced
  | kDead
  | kZombie
  | kParked
  | kIdle
  deriving DecidableEq, Repr

/-- The arguments of the `ERROR(...)` reports of the visitor, one constructor per
call site. -/
inductive ErrorReport
  /-- Message "Overwriting previous pid for tid %d with initial pid %d". -/
  | OverwritingWithInitialPid (tid pid : Int)
  /-- Message "Overwriting previous pid for tid %d with pid %d from PERF_RECORD_FORK". -/
  | OverwritingWithForkPid (tid pid : Int)
  /-- Message "Parsing thread state char '%c' for tid %d". -/
  | ParsingThreadStateChar (state_char : Char) (tid : Int)
  /-- Message "SchedulingSlice with unknown pid". -/
  | SchedulingSliceWithUnknownPid
  /-- Message "The thread state mask %#lx is a combination of states, reporting only the
  first". -/
  | CombinationOfStates (mask : Nat)
  deriving DecidableEq, Repr

/-! ## Thread-state decoder -/

/-- Associates a thread state to a thread state character
(`SwitchesStatesNamesVisitor::GetThreadStateFromChar`). -/
def GetThreadStateFromChar (c : Char) : Option ThreadState :=
  match c with
  | 'R' => some ThreadState.kRunnable
  | 'S' => some ThreadState.kInterruptibleSleep
  | 'D' => some ThreadState.kUninterruptibleSleep
  | 'T' => some ThreadState.kStopped
  | 't' => some ThreadState.kTraced
  | 'X' => some ThreadState.kDead
  | 'Z' => some ThreadState.kZombie
  | 'P' => some ThreadState.kParked
  | 'I' => some ThreadState.kIdle
  | _ => none

/-- Number of set bits of an `unsigned long` (`__builtin_popcountl`). -/
def popcountl (x : Nat) : Nat :=
  ((List.range 64).filter (fun i => x.testBit i)).length

/-- Associates a thread state to the bits of the `prev_state` field of the
`sched:sched_switch` tracepoint (`SwitchesStatesNamesVisitor::GetThreadStateFromBits`).
The second component holds the `ERROR` report of the call, if it makes one. -/
def GetThreadStateFromBits (bits : Nat) : ThreadState × List ErrorReport :=
  let reports :=
    if popcountl (bits &&& 0xFF) > 1 then [ErrorReport.CombinationOfStates (bits &&& 0xFF)]
    else []
  if bits &&& 0x01 ≠ 0 then (ThreadState.kInterruptibleSleep, reports)
  else if bits &&& 0x02 ≠ 0 then (ThreadState.kUninterruptibleSleep, reports)
  else if bits &&& 0x04 ≠ 0 then (ThreadState.kStopped, reports)
  else if bits &&& 0x08 ≠ 0 then (ThreadState.kTraced, reports)
  else if bits &&& 0x10 ≠ 0 then (ThreadState.kDead, reports)
  else if bits &&& 0x20 ≠ 0 then (ThreadState.kZombie, reports)
  else if bits &&& 0x40 ≠ 0 then (ThreadState.kParked, reports)
  else if bits &&& 0x80 ≠ 0 then (ThreadState.kIdle, reports)
  else (ThreadState.kRunnable, reports)

/-- The state that the specification assigns to bit `i` of the mask (bit 0
InterruptibleSleep, ..., bit 7 Idle); written from the specification's table,
to be compared with `GetThreadStateFromBits`. -/
def stateOfBit : Nat → ThreadState
  | 0 => ThreadState.kInterruptibleSleep
  | 1 => ThreadState.kUninterruptibleSleep
  | 2 => ThreadState.kStopped
  | 3 => ThreadState.kTraced
  | 4 => ThreadState.kDead
  | 5 => ThreadState.kZombie
  | 6 => ThreadState.kParked
  | 7 => ThreadState.kIdle
  | _ => ThreadState.kRunnable

/-! ## Messages, events, effects -/

/-- Modelled from the spec: the message `SchedulingSlice` is declared outside
the sources at hand; its fields are those of section 3 of the specification.
The visitor reads only `pid`. -/
structure SchedulingSlice where
  pid : Int
  tid : Int
  core : Nat
  start_timestamp_ns : Nat
  duration_ns : Nat
  deriving DecidableEq, Repr

/-- Modelled from the spec: the message `ThreadStateSlice` is declared outside
the sources at hand; its fields are those of section 3 of the specification.
The visitor reads none of them. -/
structure ThreadStateSlice where
  tid : Int
  thread_state : ThreadState
  begin_timestamp_ns : Nat
  end_timestamp_ns : Nat
  deriving DecidableEq, Repr

/-- The message `ThreadName`, with the four fields the visitor sets. -/
structure ThreadName where
  pid : Int
  tid : Int
  name : String
  timestamp_ns : Nat
  deriving DecidableEq, Repr

/-- What the visitor reads of a `ForkPerfEvent`. -/
structure ForkPerfEvent where
  GetPid : Int
  GetTid : Int
  deriving DecidableEq, Repr

/-- What the visitor reads of an `ExitPerfEvent`. -/
structure ExitPerfEvent where
  GetPid : Int
  GetTid : Int
  deriving DecidableEq, Repr

/-- What the visitor reads of a `TaskNewtaskPerfEvent`. -/
structure TaskNewtaskPerfEvent where
  GetNewTid : Int
  GetComm : String
  GetTimestamp : Nat
  deriving DecidableEq, Repr

/-- What the visitor reads of a `TaskRenamePerfEvent`. -/
structure TaskRenamePerfEvent where
  GetRenamedTid : Int
  GetNewComm : String
  GetTimestamp : Nat
  deriving DecidableEq, Repr

/-- What the visitor reads of a `SchedSwitchPerfEvent`; `GetPrevState` is the
value that reaches `GetThreadStateFromBits` as its `uint64_t` argument. -/
structure SchedSwitchPerfEvent where
  GetPrevTid : Int
  GetPrevPidOrMinusOne : Int
  GetPrevState : Nat
  GetNextTid : Int
  GetCpu : Nat
  GetTimestamp : Nat
  deriving DecidableEq, Repr

/-- What the visitor reads of a `SchedWakeupPerfEvent`. -/
structure SchedWakeupPerfEvent where
  GetWokenTid : Int
  GetTimestamp : Nat
  deriving DecidableEq, Repr

/-- The observable effects of the visitor, in program order: an `ERROR` report,
a call into `switch_manager_` or `state_manager_` with its arguments, or a call
of the listener with the message handed over. -/
inductive Effect
  | ERROR (report : ErrorReport)
  | ProcessContextSwitchOut (pid tid : Int) (cpu timestamp_ns : Nat)
  | ProcessContextSwitchIn (pid : Option Int) (tid : Int) (cpu timestamp_ns : Nat)
  | OnInitialState (timestamp_ns : Nat) (tid : Int) (state : ThreadState)
  | OnNewTask (timestamp_ns : Nat) (tid : Int)
  | OnSchedSwitchOut (timestamp_ns : Nat) (tid : Int) (new_state : ThreadState)
  | OnSchedSwitchIn (timestamp_ns : Nat) (tid : Int)
  | OnSchedWakeup (timestamp_ns : Nat) (tid : Int)
  | OnCaptureFinished (timestamp_ns : Nat)
  | OnSchedulingSlice (slice : SchedulingSlice)
  | OnThreadStateSlice (slice : ThreadStateSlice)
  | OnThreadName (thread_name : ThreadName)
  deriving DecidableEq, Repr

/-- How a member function can end early. -/
inductive Fault
  /-- `CHECK(listener_ != nullptr)` failed. -/
  | CheckFailed
  /-- `listener_->OnThreadName(...)` was reached with `listener_ == nullptr`. -/
  | NullListener
  deriving DecidableEq, Repr

/-! ## The parts declared outside the sources at hand -/

/-- Constants that the visitor uses and that are declared in headers outside the
sources at hand (`SwitchesStatesNamesVisitor.h`, `OrbitBase/ThreadUtils.h`);
the embedding takes their values as a parameter. -/
structure Constants where
  kPidFilterNoThreadState : Int
  kInvalidProcessId : Int
  deriving DecidableEq, Repr

/-- The member functions of `ContextSwitchManager` that the visitor calls, over a
manager state `σ`; the class is outside the sources at hand and is a parameter
of the embedding. Each function takes the manager state first and returns the
state afterwards next to its result. -/
structure ContextSwitchManager (σ : Type) where
  ProcessContextSwitchOut : σ → Int → Int → Nat → Nat → Option SchedulingSlice × σ
  ProcessContextSwitchIn : σ → Option Int → Int → Nat → Nat → σ

/-- The member functions of `ThreadStateManager` that the visitor calls, over a
manager state `τ`; the class is outside the sources at hand and is a parameter
of the embedding. -/
structure ThreadStateManager (τ : Type) where
  OnInitialState : τ → Nat → Int → ThreadState → τ
  OnNewTask : τ → Nat → Int → τ
  OnSchedSwitchOut : τ → Nat → Int → ThreadState → Option ThreadStateSlice × τ
  OnSchedSwitchIn : τ → Nat → Int → Option ThreadStateSlice × τ
  OnSchedWakeup : τ → Nat → Int → Option ThreadStateSlice × τ
  OnCaptureFinished : τ → Nat → List ThreadStateSlice × τ

/-! ## Hash maps with unique keys -/

/-- The value stored under `key` (`flat_hash_map::find`), none when there is no
entry. A map is a list of key-value pairs. -/
def find {κ ν : Type} [DecidableEq κ] : List (κ × ν) → κ → Option ν
  | [], _ => none
  | (k, v) :: rest, key => if k = key then some v else find rest key

/-- Stores `value` under `key`, replacing the value of an existing entry
(`flat_hash_map::insert_or_assign`); the second component is true when a new
entry was inserted and false when an existing one was assigned. -/
def insert_or_assign {κ ν : Type} [DecidableEq κ] :
    List (κ × ν) → κ → ν → List (κ × ν) × Bool
  | [], key, value => ([(key, value)], true)
  | (k, v) :: rest, key, value =>
    if k = key then ((key, value) :: rest, false)
    else ((k, v) :: (insert_or_assign rest key value).1, (insert_or_assign rest key value).2)

/-- Removes the entry of `key`, if there is one (`flat_hash_map::erase`). -/
def erase {κ ν : Type} [DecidableEq κ] : List (κ × ν) → κ → List (κ × ν)
  | [], _ => []
  | (k, v) :: rest, key => if k = key then erase rest key else (k, v) :: erase rest key

/-! ## The two managers, from the specification -/

/-- Modelled from the spec: the class `ContextSwitchManager` is outside the
sources at hand. This is the scheduling-slice manager of section 4.3 of the
specification: the state holds the occupant of each cpu as (pid, tid, start
timestamp), an absent pid stored as -1; a switch-out emits the slice of the
recorded occupant, if there is one, and clears the record of the cpu; a
switch-in records the new occupant. -/
def specContextSwitchManager : ContextSwitchManager (List (Nat × (Int × Int × Nat))) where
  ProcessContextSwitchOut := fun open_switches _ _ cpu timestamp_ns =>
    match find open_switches cpu with
    | some (open_pid, open_tid, open_timestamp_ns) =>
      (some ⟨open_pid, open_tid, cpu, open_timestamp_ns, timestamp_ns - open_timestamp_ns⟩,
        erase open_switches cpu)
    | none => (none, erase open_switches cpu)
  ProcessContextSwitchIn := fun open_switches pid tid cpu timestamp_ns =>
    (insert_or_assign open_switches cpu (pid.getD (-1), tid, timestamp_ns)).1

/-- Modelled from the spec: the class `ThreadStateManager` is outside the
sources at hand. This is the thread-state manager of section 4.4 of the
specification: the state holds the open state of each thread as (state, begin
timestamp). -/
def specThreadStateManager : ThreadStateManager (List (Int × (ThreadState × Nat))) where
  OnInitialState := fun open_states timestamp_ns tid state =>
    match find open_states tid with
    | some _ => open_states
    | none => (insert_or_assign open_states tid (state, timestamp_ns)).1
  OnNewTask := fun open_states timestamp_ns tid =>
    match find open_states tid with
    | some _ => open_states
    | none => (insert_or_assign open_states tid (ThreadState.kRunnable, timestamp_ns)).1
  OnSchedSwitchOut := fun open_states timestamp_ns tid new_state =>
    ((find open_states tid).map (fun open_state =>
        (⟨tid, open_state.1, open_state.2, timestamp_ns⟩ : ThreadStateSlice)),
      (insert_or_assign open_states tid (new_state, timestamp_ns)).1)
  OnSchedSwitchIn := fun open_states timestamp_ns tid =>
    match find open_states tid with
    | some (state, begin_timestamp_ns) =>
      if state = ThreadState.kRunnable then (none, open_states)
      else
        (some ⟨tid, state, begin_timestamp_ns, timestamp_ns⟩,
          (insert_or_assign open_states tid (ThreadState.kRunnable, timestamp_ns)).1)
    | none =>
      (none, (insert_or_assign open_states tid (ThreadState.kRunnable, timestamp_ns)).1)
  OnSchedWakeup := fun open_states timestamp_ns tid =>
    match find open_states tid with
    | some (state, begin_timestamp_ns) =>
      if state = ThreadState.kRunnable then (none, open_states)
      else
        (some ⟨tid, state, begin_timestamp_ns, timestamp_ns⟩,
          (insert_or_assign open_states tid (ThreadState.kRunnable, timestamp_ns)).1)
    | none => (none, open_states)
  OnCaptureFinished := fun open_states timestamp_ns =>
    (open_states.map (fun entry =>
        (⟨entry.1, entry.2.1, entry.2.2, timestamp_ns⟩ : ThreadStateSlice)), [])

/-! ## The visitor -/

/-- The member variables of `SwitchesStatesNamesVisitor`. `listener_` is true
when the pointer is not null; `thread_state_counter_` is none for a null
pointer and otherwise the value of the `uint64_t` counter pointed to. -/
structure SwitchesStatesNamesVisitor (σ τ : Type) where
  listener_ : Bool
  thread_state_counter_ : Option Nat
  produce_scheduling_slices_ : Bool
  thread_state_pid_filter_ : Int
  tid_to_pid_association_ : List (Int × Int)
  switch_manager_ : σ
  state_manager_ : τ
  deriving DecidableEq, Repr

/-- The result of a member function: the visitor afterwards, the effects of
the call in program order, and the fault that ended it, if one did. -/
structure Outcome (σ τ : Type) where
  visitor : SwitchesStatesNamesVisitor σ τ
  effects : List Effect
  fault : Option Fault
  deriving DecidableEq, Repr

/-- Sequencing: `f` runs on the visitor that `o` left unless `o` ended in a
fault; the effects are concatenated. -/
def Outcome.andThen {σ τ : Type} (o : Outcome σ τ)
    (f : SwitchesStatesNamesVisitor σ τ → Outcome σ τ) : Outcome σ τ :=
  match o.fault with
  | some _ => o
  | none => ⟨(f o.visitor).visitor, o.effects ++ (f o.visitor).effects, (f o.visitor).fault⟩

namespace SwitchesStatesNamesVisitor

variable {σ τ : Type}

/-- `SwitchesStatesNamesVisitor::ProcessInitialTidToPidAssociation`. -/
def ProcessInitialTidToPidAssociation (tid pid : Int)
    (v : SwitchesStatesNamesVisitor σ τ) : Outcome σ τ :=
  let new_insertion := (insert_or_assign v.tid_to_pid_association_ tid pid).2
  ⟨{ v with tid_to_pid_association_ := (insert_or_assign v.tid_to_pid_association_ tid pid).1 },
    if ¬ new_insertion then [Effect.ERROR (ErrorReport.OverwritingWithInitialPid tid pid)] else [],
    none⟩

/-- `SwitchesStatesNamesVisitor::Visit(ForkPerfEvent*)`. -/
def VisitForkPerfEvent (event : ForkPerfEvent)
    (v : SwitchesStatesNamesVisitor σ τ) : Outcome σ τ :=
  let pid := event.GetPid
  let tid := event.GetTid
  let new_insertion := (insert_or_assign v.tid_to_pid_association_ tid pid).2
  ⟨{ v with tid_to_pid_association_ := (insert_or_assign v.tid_to_pid_association_ tid pid).1 },
    if ¬ new_insertion then [Effect.ERROR (ErrorReport.OverwritingWithForkPid tid pid)] else [],
    none⟩

/-- `SwitchesStatesNamesVisitor::Visit(ExitPerfEvent*)`. -/
def VisitExitPerfEvent (event : ExitPerfEvent)
    (v : SwitchesStatesNamesVisitor σ τ) : Outcome σ τ :=
  let pid := event.GetPid
  let tid := event.GetTid
  ⟨{ v with tid_to_pid_association_ := (insert_or_assign v.tid_to_pid_association_ tid pid).1 },
    [], none⟩

/-- `SwitchesStatesNamesVisitor::TidMatchesPidFilter`. -/
def TidMatchesPidFilter (K : Constants) (tid : Int)
    (v : SwitchesStatesNamesVisitor σ τ) : Bool :=
  if v.thread_state_pid_filter_ = K.kPidFilterNoThreadState then false
  else
    match find v.tid_to_pid_association_ tid with
    | none => false
    | some pid => decide (pid = v.thread_state_pid_filter_)

/-- `SwitchesStatesNamesVisitor::GetPidOfTid`. -/
def GetPidOfTid (tid : Int) (v : SwitchesStatesNamesVisitor σ τ) : Option Int :=
  match find v.tid_to_pid_association_ tid with
  | none => none
  | some pid => some pid

/-- `SwitchesStatesNamesVisitor::ProcessInitialState`. -/
def ProcessInitialState (K : Constants) (TM : ThreadStateManager τ)
    (timestamp_ns : Nat) (tid : Int) (state_char : Char)
    (v : SwitchesStatesNamesVisitor σ τ) : Outcome σ τ :=
  if ¬ TidMatchesPidFilter K tid v then ⟨v, [], none⟩
  else
    match GetThreadStateFromChar state_char with
    | none => ⟨v, [Effect.ERROR (ErrorReport.ParsingThreadStateChar state_char tid)], none⟩
    | some initial_state =>
      ⟨{ v with state_manager_ :=
            TM.OnInitialState v.state_manager_ timestamp_ns tid initial_state },
        [Effect.OnInitialState timestamp_ns tid initial_state], none⟩

/-- `SwitchesStatesNamesVisitor::Visit(TaskNewtaskPerfEvent*)`. The listener is
called without a preceding `CHECK`. -/
def VisitTaskNewtaskPerfEvent (K : Constants) (TM : ThreadStateManager τ)
    (event : TaskNewtaskPerfEvent) (v : SwitchesStatesNamesVisitor σ τ) : Outcome σ τ :=
  let new_pid := GetPidOfTid event.GetNewTid v
  let thread_name : ThreadName :=
    ⟨new_pid.getD (-1), event.GetNewTid, event.GetComm, event.GetTimestamp⟩
  if ¬ v.listener_ then ⟨v, [], some Fault.NullListener⟩
  else if ¬ TidMatchesPidFilter K event.GetNewTid v then
    ⟨v, [Effect.OnThreadName thread_name], none⟩
  else
    ⟨{ v with state_manager_ :=
          TM.OnNewTask v.state_manager_ event.GetTimestamp event.GetNewTid },
      [Effect.OnThreadName thread_name, Effect.OnNewTask event.GetTimestamp event.GetNewTid],
      none⟩

/-- The three statements that follow every `has_value()` test of a thread-state
slice: `CHECK(listener_ != nullptr)`, `listener_->OnThreadStateSlice(slice)` and,
when `thread_state_counter_` is not null, `++(*thread_state_counter_)` on the
64-bit counter. -/
def ForwardThreadStateSlice (slice : ThreadStateSlice)
    (v : SwitchesStatesNamesVisitor σ τ) : Outcome σ τ :=
  if ¬ v.listener_ then ⟨v, [], some Fault.CheckFailed⟩
  else
    ⟨{ v with thread_state_counter_ := v.thread_state_counter_.map (fun n => (n + 1) % 2 ^ 64) },
      [Effect.OnThreadStateSlice slice], none⟩

/-- `Visit(SchedSwitchPerfEvent*)`, first block: "Process the context switch out
for scheduling slices." -/
def SchedSwitchOutForSchedulingSlices (K : Constants) (SM : ContextSwitchManager σ)
    (event : SchedSwitchPerfEvent) (v : SwitchesStatesNamesVisitor σ τ) : Outcome σ τ :=
  if v.produce_scheduling_slices_ = true ∧ event.GetPrevTid ≠ 0 then
    let prev_pid :=
      if event.GetPrevPidOrMinusOne = -1 then
        match GetPidOfTid event.GetPrevTid v with
        | some fallback_prev_pid => fallback_prev_pid
        | none => event.GetPrevPidOrMinusOne
      else event.GetPrevPidOrMinusOne
    let r := SM.ProcessContextSwitchOut v.switch_manager_ prev_pid event.GetPrevTid
      event.GetCpu event.GetTimestamp
    let call := Effect.ProcessContextSwitchOut prev_pid event.GetPrevTid
      event.GetCpu event.GetTimestamp
    match r.1 with
    | none => ⟨{ v with switch_manager_ := r.2 }, [call], none⟩
    | some scheduling_slice =>
      if ¬ v.listener_ then ⟨{ v with switch_manager_ := r.2 }, [call], some Fault.CheckFailed⟩
      else
        ⟨{ v with switch_manager_ := r.2 },
          [call] ++
            (if scheduling_slice.pid = K.kInvalidProcessId then
              [Effect.ERROR ErrorReport.SchedulingSliceWithUnknownPid]
            else []) ++
            [Effect.OnSchedulingSlice scheduling_slice],
          none⟩
  else ⟨v, [], none⟩

/-- `Visit(SchedSwitchPerfEvent*)`, second block: "Process the context switch in
for scheduling slices." -/
def SchedSwitchInForSchedulingSlices (SM : ContextSwitchManager σ)
    (event : SchedSwitchPerfEvent) (v : SwitchesStatesNamesVisitor σ τ) : Outcome σ τ :=
  if v.produce_scheduling_slices_ = true ∧ event.GetNextTid ≠ 0 then
    let next_pid := GetPidOfTid event.GetNextTid v
    let manager := SM.ProcessContextSwitchIn v.switch_manager_ next_pid event.GetNextTid
      event.GetCpu event.GetTimestamp
    ⟨{ v with switch_manager_ := manager },
      [Effect.ProcessContextSwitchIn next_pid event.GetNextTid event.GetCpu event.GetTimestamp],
      none⟩
  else ⟨v, [], none⟩

/-- `Visit(SchedSwitchPerfEvent*)`, third block: "Process the context switch out
for thread state." -/
def SchedSwitchOutForThreadState (K : Constants) (TM : ThreadStateManager τ)
    (event : SchedSwitchPerfEvent) (v : SwitchesStatesNamesVisitor σ τ) : Outcome σ τ :=
  if event.GetPrevTid ≠ 0 ∧ TidMatchesPidFilter K event.GetPrevTid v = true then
    let new_state := GetThreadStateFromBits event.GetPrevState
    let r := TM.OnSchedSwitchOut v.state_manager_ event.GetTimestamp event.GetPrevTid new_state.1
    let called : Outcome σ τ :=
      ⟨{ v with state_manager_ := r.2 },
        new_state.2.map Effect.ERROR ++
          [Effect.OnSchedSwitchOut event.GetTimestamp event.GetPrevTid new_state.1],
        none⟩
    match r.1 with
    | none => called
    | some out_slice => called.andThen (ForwardThreadStateSlice out_slice)
  else ⟨v, [], none⟩

/-- `Visit(SchedSwitchPerfEvent*)`, fourth block: "Process the context switch in
for thread state." -/
def SchedSwitchInForThreadState (K : Constants) (TM : ThreadStateManager τ)
    (event : SchedSwitchPerfEvent) (v : SwitchesStatesNamesVisitor σ τ) : Outcome σ τ :=
  if event.GetNextTid ≠ 0 ∧ TidMatchesPidFilter K event.GetNextTid v = true then
    let r := TM.OnSchedSwitchIn v.state_manager_ event.GetTimestamp event.GetNextTid
    let called : Outcome σ τ :=
      ⟨{ v with state_manager_ := r.2 },
        [Effect.OnSchedSwitchIn event.GetTimestamp event.GetNextTid], none⟩
    match r.1 with
    | none => called
    | some in_slice => called.andThen (ForwardThreadStateSlice in_slice)
  else ⟨v, [], none⟩

/-- `SwitchesStatesNamesVisitor::Visit(SchedSwitchPerfEvent*)`: its four blocks
in program order. -/
def VisitSchedSwitchPerfEvent (K : Constants) (SM : ContextSwitchManager σ)
    (TM : ThreadStateManager τ) (event : SchedSwitchPerfEvent)
    (v : SwitchesStatesNamesVisitor σ τ) : Outcome σ τ :=
  (((SchedSwitchOutForSchedulingSlices K SM event v).andThen
    (SchedSwitchInForSchedulingSlices SM event)).andThen
    (SchedSwitchOutForThreadState K TM event)).andThen
    (SchedSwitchInForThreadState K TM event)

/-- `SwitchesStatesNamesVisitor::Visit(SchedWakeupPerfEvent*)`. -/
def VisitSchedWakeupPerfEvent (K : Constants) (TM : ThreadStateManager τ)
    (event : SchedWakeupPerfEvent) (v : SwitchesStatesNamesVisitor σ τ) : Outcome σ τ :=
  if ¬ TidMatchesPidFilter K event.GetWokenTid v then ⟨v, [], none⟩
  else
    let r := TM.OnSchedWakeup v.state_manager_ event.GetTimestamp event.GetWokenTid
    let called : Outcome σ τ :=
      ⟨{ v with state_manager_ := r.2 },
        [Effect.OnSchedWakeup event.GetTimestamp event.GetWokenTid], none⟩
    match r.1 with
    | none => called
    | some state_slice => called.andThen (ForwardThreadStateSlice state_slice)

/-- The loop of `ProcessRemainingOpenStates` over the returned slices. -/
def ForwardThreadStateSlices :
    List ThreadStateSlice → SwitchesStatesNamesVisitor σ τ → Outcome σ τ
  | [], v => ⟨v, [], none⟩
  | slice :: rest, v => (ForwardThreadStateSlice slice v).andThen (ForwardThreadStateSlices rest)

/-- `SwitchesStatesNamesVisitor::ProcessRemainingOpenStates`. -/
def ProcessRemainingOpenStates (TM : ThreadStateManager τ) (timestamp_ns : Nat)
    (v : SwitchesStatesNamesVisitor σ τ) : Outcome σ τ :=
  let r := TM.OnCaptureFinished v.state_manager_ timestamp_ns
  let called : Outcome σ τ :=
    ⟨{ v with state_manager_ := r.2 }, [Effect.OnCaptureFinished timestamp_ns], none⟩
  called.andThen (ForwardThreadStateSlices r.1)

/-- `SwitchesStatesNamesVisitor::Visit(TaskRenamePerfEvent*)`. The listener is
called without a preceding `CHECK`. -/
def VisitTaskRenamePerfEvent (event : TaskRenamePerfEvent)
    (v : SwitchesStatesNamesVisitor σ τ) : Outcome σ τ :=
  let renamed_pid := GetPidOfTid event.GetRenamedTid v
  let thread_name : ThreadName :=
    ⟨renamed_pid.getD (-1), event.GetRenamedTid, event.GetNewComm, event.GetTimestamp⟩
  if ¬ v.listener_ then ⟨v, [], some Fault.NullListener⟩
  else ⟨v, [Effect.OnThreadName thread_name], none⟩

end SwitchesStatesNamesVisitor

/-! ## Event streams -/

/-- One call of a public member function of the visitor. -/
inductive Operation
  | ProcessInitialTidToPidAssociation (tid pid : Int)
  | Fork (event : ForkPerfEvent)
  | Exit (event : ExitPerfEvent)
  | NewTask (event : TaskNewtaskPerfEvent)
  | Rename (event : TaskRenamePerfEvent)
  | SchedSwitch (event : SchedSwitchPerfEvent)
  | SchedWakeup (event : SchedWakeupPerfEvent)
  | ProcessInitialState (timestamp_ns : Nat) (tid : Int) (state_char : Char)
  | ProcessRemainingOpenStates (timestamp_ns : Nat)
  deriving DecidableEq, Repr

open SwitchesStatesNamesVisitor in
/-- The member function that an operation calls. -/
def step {σ τ : Type} (K : Constants) (SM : ContextSwitchManager σ) (TM : ThreadStateManager τ) :
    Operation → SwitchesStatesNamesVisitor σ τ → Outcome σ τ
  | Operation.ProcessInitialTidToPidAssociation tid pid, v =>
    ProcessInitialTidToPidAssociation tid pid v
  | Operation.Fork event, v => VisitForkPerfEvent event v
  | Operation.Exit event, v => VisitExitPerfEvent event v
  | Operation.NewTask event, v => VisitTaskNewtaskPerfEvent K TM event v
  | Operation.Rename event, v => VisitTaskRenamePerfEvent event v
  | Operation.SchedSwitch event, v => VisitSchedSwitchPerfEvent K SM TM event v
  | Operation.SchedWakeup event, v => VisitSchedWakeupPerfEvent K TM event v
  | Operation.ProcessInitialState timestamp_ns tid state_char, v =>
    ProcessInitialState K TM timestamp_ns tid state_char v
  | Operation.ProcessRemainingOpenStates timestamp_ns, v =>
    ProcessRemainingOpenStates TM timestamp_ns v

/-- A sequence of operations, one after the other; an operation that ends in
a fault ends the sequence. -/
def run {σ τ : Type} (K : Constants) (SM : ContextSwitchManager σ) (TM : ThreadStateManager τ) :
    List Operation → SwitchesStatesNamesVisitor σ τ → Outcome σ τ
  | [], v => ⟨v, [], none⟩
  | op :: ops, v => (step K SM TM op v).andThen (run K SM TM ops)

/-- True for the end-of-capture operation `ProcessRemainingOpenStates`. -/
def Operation.isProcessRemainingOpenStates : Operation → Bool
  | Operation.ProcessRemainingOpenStates _ => true
  | _ => false

/-- The pid written for `tid` by an operation that writes the association:
initial association, Fork and Exit; none for every other operation. -/
def Operation.writes (tid : Int) : Operation → Option Int
  | Operation.ProcessInitialTidToPidAssociation t pid => if t = tid then some pid else none
  | Operation.Fork event => if event.GetTid = tid then some event.GetPid else none
  | Operation.Exit event => if event.GetTid = tid then some event.GetPid else none
  | _ => none

/-- The pid of the most recent operation of the sequence that writes the
association of `tid`, none when the sequence has no such operation. -/
def lastWrite (tid : Int) : List Operation → Option Int
  | [] => none
  | op :: ops =>
    match lastWrite tid ops with
    | some pid => some pid
    | none => op.writes tid

/-- The arguments of the `ProcessContextSwitchOut` calls among the effects. -/
def callsOfProcessContextSwitchOut : List Effect → List (Int × Int × Nat × Nat)
  | [] => []
  | Effect.ProcessContextSwitchOut pid tid cpu timestamp_ns :: rest =>
    (pid, tid, cpu, timestamp_ns) :: callsOfProcessContextSwitchOut rest
  | _ :: rest => callsOfProcessContextSwitchOut rest

/-- True for an `ERROR` report. -/
def Effect.isError : Effect → Bool
  | Effect.ERROR _ => true
  | _ => false

/-- The visitor `w` has the configuration and the association of `v`: the
same listener, scheduling-slice flag, pid filter and tid-to-pid map. -/
def Frame {σ τ : Type} (v w : SwitchesStatesNamesVisitor σ τ) : Prop :=
  w.listener_ = v.listener_ ∧
  w.produce_scheduling_slices_ = v.produce_scheduling_slices_ ∧
  w.thread_state_pid_filter_ = v.thread_state_pid_filter_ ∧
  w.tid_to_pid_association_ = v.tid_to_pid_association_

/-- The visitor `w` has the configuration of `v`: the same listener,
scheduling-slice flag and pid filter. -/
def SameConfiguration {σ τ : Type} (v w : SwitchesStatesNamesVisitor σ τ) : Prop :=
  w.listener_ = v.listener_ ∧
  w.produce_scheduling_slices_ = v.produce_scheduling_slices_ ∧
  w.thread_state_pid_filter_ = v.thread_state_pid_filter_

/-! ## Observations on effects -/

/-- True for a call into `switch_manager_` or `state_manager_`. -/
def Effect.isManagerCall : Effect → Bool
  | Effect.ProcessContextSwitchOut _ _ _ _ => true
  | Effect.ProcessContextSwitchIn _ _ _ _ => true
  | Effect.OnInitialState _ _ _ => true
  | Effect.OnNewTask _ _ => true
  | Effect.OnSchedSwitchOut _ _ _ => true
  | Effect.OnSchedSwitchIn _ _ => true
  | Effect.OnSchedWakeup _ _ => true
  | Effect.OnCaptureFinished _ => true
  | _ => false

/-- True for a call into `state_manager_`. -/
def Effect.isThreadStateManagerCall : Effect → Bool
  | Effect.OnInitialState _ _ _ => true
  | Effect.OnNewTask _ _ => true
  | Effect.OnSchedSwitchOut _ _ _ => true
  | Effect.OnSchedSwitchIn _ _ => true
  | Effect.OnSchedWakeup _ _ => true
  | Effect.OnCaptureFinished _ => true
  | _ => false

/-- True for a thread-state slice handed to the listener. -/
def Effect.isThreadStateSlice : Effect → Bool
  | Effect.OnThreadStateSlice _ => true
  | _ => false

/-- True for the effects of the thread-state side of the visitor: a call into
`state_manager_` or a thread-state slice handed to the listener. -/
def Effect.isThreadStateEffect (e : Effect) : Bool :=
  e.isThreadStateManagerCall || e.isThreadStateSlice

/-- True for the effects of the scheduling-slice side of the visitor: a call
into `switch_manager_` or a scheduling slice handed to the listener. -/
def Effect.isSchedulingSliceEffect : Effect → Bool
  | Effect.ProcessContextSwitchOut _ _ _ _ => true
  | Effect.ProcessContextSwitchIn _ _ _ _ => true
  | Effect.OnSchedulingSlice _ => true
  | _ => false

/-- The calls into the two managers among the effects, in program order. -/
def managerCalls (effects : List Effect) : List Effect :=
  effects.filter Effect.isManagerCall

/-- The effects of the thread-state side among the effects, in program order. -/
def threadStateEffects (effects : List Effect) : List Effect :=
  effects.filter Effect.isThreadStateEffect

/-- The thread-state slices handed to the listener, in program order. -/
def forwardedThreadStateSlices : List Effect → List ThreadStateSlice
  | [] => []
  | Effect.OnThreadStateSlice slice :: rest => slice :: forwardedThreadStateSlices rest
  | _ :: rest => forwardedThreadStateSlices rest

/-- The number of thread-state slices handed to the listener. -/
def countThreadStateSlices (effects : List Effect) : Nat :=
  (forwardedThreadStateSlices effects).length

/-- True for the three operations that can hand thread-state slices to the
listener: a sched-switch event, a wakeup event and the end of the capture. -/
def Operation.forwardsThreadStateSlices : Operation → Bool
  | Operation.SchedSwitch _ => true
  | Operation.SchedWakeup _ => true
  | Operation.ProcessRemainingOpenStates _ => true
  | _ => false

/-- The counter of the outcome `o` is the counter of the visitor `v`
incremented, as a 64-bit unsigned integer, once for every thread-state slice
among the effects of `o`; a null counter stays null. -/
def CounterTracks {σ τ : Type} (v : SwitchesStatesNamesVisitor σ τ) (o : Outcome σ τ) : Prop :=
  o.visitor.thread_state_counter_ =
    v.thread_state_counter_.map
      (Nat.iterate (fun n => (n + 1) % 2 ^ 64) (countThreadStateSlices o.effects))

/-- The number of bits set among bits 0..7 of the mask. -/
def lowBitsSet (bits : Nat) : Nat :=
  ((List.range 8).filter (fun i => bits.testBit i)).length

/-- The two visitors agree on everything that the thread-state side reads or
writes: listener, counter, pid filter, tid-to-pid map and `state_manager_`
(they may differ in `produce_scheduling_slices_` and `switch_manager_`). -/
def SameThreadStateSide {σ τ : Type} (v w : SwitchesStatesNamesVisitor σ τ) : Prop :=
  w.listener_ = v.listener_ ∧
  w.thread_state_counter_ = v.thread_state_counter_ ∧
  w.thread_state_pid_filter_ = v.thread_state_pid_filter_ ∧
  w.tid_to_pid_association_ = v.tid_to_pid_association_ ∧
  w.state_manager_ = v.state_manager_

/-- The two outcomes agree on the thread-state side: the same thread-state
effects in the same order, the same fault, and visitors that agree on the
thread-state side. -/
def SameThreadStateOutcome {σ τ : Type} (o o' : Outcome σ τ) : Prop :=
  threadStateEffects o'.effects = threadStateEffects o.effects ∧
  o'.fault = o.fault ∧
  SameThreadStateSide o.visitor o'.visitor

/-- The manager calls that a sched-switch event makes, when none of its blocks
ends in a fault, for the visitor `v` before the event: one list per block,
empty when the condition of the block does not hold. -/
def expectedSchedSwitchCalls {σ τ : Type} (K : Constants) (event : SchedSwitchPerfEvent)
    (v : SwitchesStatesNamesVisitor σ τ) : List Effect :=
  (if v.produce_scheduling_slices_ = true ∧ event.GetPrevTid ≠ 0 then
    [Effect.ProcessContextSwitchOut
      (if event.GetPrevPidOrMinusOne = -1 then
        (SwitchesStatesNamesVisitor.GetPidOfTid event.GetPrevTid v).getD (-1)
      else event.GetPrevPidOrMinusOne)
      event.GetPrevTid event.GetCpu event.GetTimestamp]
  else []) ++
  (if v.produce_scheduling_slices_ = true ∧ event.GetNextTid ≠ 0 then
    [Effect.ProcessContextSwitchIn (SwitchesStatesNamesVisitor.GetPidOfTid event.GetNextTid v)
      event.GetNextTid event.GetCpu event.GetTimestamp]
  else []) ++
  (if event.GetPrevTid ≠ 0 ∧
      SwitchesStatesNamesVisitor.TidMatchesPidFilter K event.GetPrevTid v = true then
    [Effect.OnSchedSwitchOut event.GetTimestamp event.GetPrevTid
      (GetThreadStateFromBits event.GetPrevState).1]
  else []) ++
  (if event.GetNextTid ≠ 0 ∧
      SwitchesStatesNamesVisitor.TidMatchesPidFilter K event.GetNextTid v = true then
    [Effect.OnSchedSwitchIn event.GetTimestamp event.GetNextTid]
  else [])

/-! ## Concrete inputs -/

/-- A choice of the two constants: -1 for both. -/
def sampleConstants : Constants := ⟨-1, -1⟩

/-- A visitor in the middle of a capture: listener and counter set, scheduling
slices produced, thread states of pid 7 wanted; tid 5 belongs to pid 7 and tid 6
to pid 8; tid 5 runs on cpu 0 since timestamp 40 and its open state is
Runnable since 40. -/
def sampleVisitor :
    SwitchesStatesNamesVisitor (List (Nat × (Int × Int × Nat))) (List (Int × (ThreadState × Nat))) where
  listener_ := true
  thread_state_counter_ := some 0
  produce_scheduling_slices_ := true
  thread_state_pid_filter_ := 7
  tid_to_pid_association_ := [(5, 7), (6, 8)]
  switch_manager_ := [(0, (7, 5, 40))]
  state_manager_ := [(5, (ThreadState.kRunnable, 40))]

/-- A visitor at the start of a capture: like `sampleVisitor`, with no
association and empty managers. -/
def freshVisitor :
    SwitchesStatesNamesVisitor (List (Nat × (Int × Int × Nat))) (List (Int × (ThreadState × Nat))) where
  listener_ := true
  thread_state_counter_ := some 0
  produce_scheduling_slices_ := true
  thread_state_pid_filter_ := 7
  tid_to_pid_association_ := []
  switch_manager_ := []
  state_manager_ := []

/-- A visitor with the pid filter disabled (for `sampleConstants`), in which
tid 5 is associated with pid -1; otherwise like `sampleVisitor`. -/
def disabledFilterVisitor :
    SwitchesStatesNamesVisitor (List (Nat × (Int × Int × Nat))) (List (Int × (ThreadState × Nat))) where
  listener_ := true
  thread_state_counter_ := some 0
  produce_scheduling_slices_ := true
  thread_state_pid_filter_ := -1
  tid_to_pid_association_ := [(5, -1)]
  switch_manager_ := [(0, (7, 5, 40))]
  state_manager_ := [(5, (ThreadState.kRunnable, 40))]

end orbit_linux_tracing

/-! # ModuleData (`src/ClientData/ModuleData.cpp`) -/

namespace orbit_client_data

open orbit_linux_tracing (find)

/-- The fields of the message `orbit_grpc_protos::ModuleInfo` that `ModuleData`
reads; sizes and addresses are `uint64` values. -/
structure ModuleInfo where
  name : String
  file_path : String
  file_size : Nat
  build_id : String
  load_bias : Nat
  deriving DecidableEq, Repr

/-- The message `orbit_grpc_protos::SymbolInfo`, one symbol of a module. -/
structure SymbolInfo where
  name : String
  demangled_name : String
  address : Nat
  size : Nat
  deriving DecidableEq, Repr

/-- The message `orbit_client_protos::FunctionInfo`, one function of a module. -/
structure FunctionInfo where
  name : String
  pretty_name : String
  module_path : String
  module_build_id : String
  address : Nat
  size : Nat
  deriving DecidableEq, Repr

/-- The two functions of `function_utils` that `AddSymbols` calls; their code is
in `ClientData/FunctionUtils.h`, outside the sources at hand, so they are
parameters of the embedding. `CreateFunctionInfo` takes the symbol, the file
path and the build id of the module. -/
structure FunctionUtils where
  CreateFunctionInfo : SymbolInfo → String → String → FunctionInfo
  GetHash : FunctionInfo → Nat

/-- The state of a `ModuleData`. `functions_` is the ordered map from address to
function, held as the list of its entries in increasing key order; the two hash
maps hold pointers to the functions of `functions_` and are lists of entries
whose value is the function pointed to. The mutex is left out: calls are taken
one at a time. -/
structure ModuleData where
  module_info_ : ModuleInfo
  is_loaded_ : Bool
  functions_ : List (Nat × FunctionInfo)
  name_to_function_info_map_ : List (String × FunctionInfo)
  hash_to_function_map_ : List (Nat × FunctionInfo)
  deriving DecidableEq, Repr

/-- The module right after `ModuleData(info)`: no function, not loaded. -/
def ModuleData.create (info : ModuleInfo) : ModuleData := ⟨info, false, [], [], []⟩

namespace ModuleData

def name (md : ModuleData) : String := md.module_info_.name

def file_path (md : ModuleData) : String := md.module_info_.file_path

def file_size (md : ModuleData) : Nat := md.module_info_.file_size

def build_id (md : ModuleData) : String := md.module_info_.build_id

def load_bias (md : ModuleData) : Nat := md.module_info_.load_bias

def is_loaded (md : ModuleData) : Bool := md.is_loaded_

end ModuleData

/-- The entry stored under `key` in an ordered map if there is none yet
(`std::map::try_emplace`); the second component is true when the entry was
inserted. The entries stay in increasing key order. -/
def map_try_emplace {ν : Type} : List (Nat × ν) → Nat → ν → List (Nat × ν) × Bool
  | [], key, value => ([(key, value)], true)
  | (k, v) :: rest, key, value =>
    if key < k then ((key, value) :: (k, v) :: rest, true)
    else if key = k then ((k, v) :: rest, false)
    else ((k, v) :: (map_try_emplace rest key value).1, (map_try_emplace rest key value).2)

/-- Stores `value` under `key` in an ordered map, replacing the value of an
existing entry (`std::map::insert_or_assign`). -/
def map_insert_or_assign {ν : Type} : List (Nat × ν) → Nat → ν → List (Nat × ν)
  | [], key, value => [(key, value)]
  | (k, v) :: rest, key, value =>
    if key < k then (key, value) :: (k, v) :: rest
    else if key = k then (key, value) :: rest
    else (k, v) :: map_insert_or_assign rest key value

/-- The position of the first entry whose key is greater than `key`
(`std::map::upper_bound`), an iterator being the index of its entry and `end()`
the number of entries. -/
def upper_bound {ν : Type} (m : List (Nat × ν)) (key : Nat) : Nat :=
  (m.takeWhile (fun entry => decide (entry.1 ≤ key))).length

/-- Adds an entry to a hash map unless the key has one
(`flat_hash_map::try_emplace`); the second component is true when the entry was
inserted. -/
def try_emplace {κ ν : Type} [DecidableEq κ] (m : List (κ × ν)) (key : κ) (value : ν) :
    List (κ × ν) × Bool :=
  if (find m key).isSome then (m, false) else (m ++ [(key, value)], true)

namespace ModuleData

/-- `ModuleData::NeedsUpdate`. -/
def NeedsUpdate (md : ModuleData) (info : ModuleInfo) : Bool :=
  md.name != info.name || md.file_size != info.file_size || md.load_bias != info.load_bias

/-- `ModuleData::UpdateIfChangedAndUnload`: the module after the call and the
value returned; none when one of the three `CHECK`s fails. -/
def UpdateIfChangedAndUnload (md : ModuleData) (info : ModuleInfo) :
    Option (ModuleData × Bool) :=
  if md.file_path ≠ info.file_path then none
  else if md.build_id ≠ info.build_id then none
  else if ¬ md.NeedsUpdate info then some (md, false)
  else if md.build_id ≠ "" then none
  else if ¬ md.is_loaded_ then some ({ md with module_info_ := info }, false)
  else some (⟨info, false, [], md.name_to_function_info_map_, []⟩, true)

/-- `ModuleData::UpdateIfChangedAndNotLoaded`: the module after the call and the
value returned; none when one of the three `CHECK`s fails. -/
def UpdateIfChangedAndNotLoaded (md : ModuleData) (info : ModuleInfo) :
    Option (ModuleData × Bool) :=
  if md.file_path ≠ info.file_path then none
  else if md.build_id ≠ info.build_id then none
  else if ¬ md.NeedsUpdate info then some (md, true)
  else if md.build_id ≠ "" then none
  else if md.is_loaded_ then some (md, false)
  else some ({ md with module_info_ := info }, true)

/-- `ModuleData::FindFunctionByElfAddress`: `some none` is the null pointer,
`some (some function)` a function; the outer none is the failed
`CHECK(function->address() <= elf_address)`. The sum of address and size is a
`uint64` sum. -/
def FindFunctionByElfAddress (md : ModuleData) (elf_address : Nat) (is_exact : Bool) :
    Option (Option FunctionInfo) :=
  if md.functions_.isEmpty then some none
  else if is_exact then some (find md.functions_ elf_address)
  else
    let it := upper_bound md.functions_ elf_address
    if it = 0 then some none
    else
      match md.functions_.get? (it - 1) with
      | none => none
      | some (_, function) =>
        if ¬ function.address ≤ elf_address then none
        else if (function.address + function.size) % 2 ^ 64 < elf_address then some none
        else some (some function)

/-- `ModuleData::FindFunctionByOffset`; the elf address is a `uint64` sum. -/
def FindFunctionByOffset (md : ModuleData) (offset : Nat) (is_exact : Bool) :
    Option (Option FunctionInfo) :=
  FindFunctionByElfAddress md ((offset + md.load_bias) % 2 ^ 64) is_exact

/-- `ModuleData::AddFunctionInfoWithBuildId`; none when the `CHECK` that the
address is not stored yet fails. -/
def AddFunctionInfoWithBuildId (md : ModuleData) (function_info : FunctionInfo)
    (module_build_id : String) : Option ModuleData :=
  if (find md.functions_ function_info.address).isSome then none
  else
    let value : FunctionInfo := { function_info with module_build_id := module_build_id }
    some { md with functions_ := map_insert_or_assign md.functions_ function_info.address value, is_loaded_ := true }

/-- One turn of the loop of `ModuleData::AddSymbols`, for one symbol; none when
`CHECK(!function->pretty_name().empty())` fails. The two counters of the loop
only feed log lines and are left out. -/
def AddSymbol (U : FunctionUtils) (symbol_info : SymbolInfo) (md : ModuleData) :
    Option ModuleData :=
  let function := U.CreateFunctionInfo symbol_info md.file_path md.build_id
  let emplaced := map_try_emplace md.functions_ symbol_info.address function
  if emplaced.2 then
    if function.pretty_name = "" then none
    else
      let names := (try_emplace md.name_to_function_info_map_ function.pretty_name function).1
      let hashes := (try_emplace md.hash_to_function_map_ (U.GetHash function) function).1
      some ⟨md.module_info_, md.is_loaded_, emplaced.1, names, hashes⟩
  else some md

/-- The loop of `ModuleData::AddSymbols` over the symbols in list order. -/
def AddSymbolsLoop (U : FunctionUtils) : List SymbolInfo → ModuleData → Option ModuleData
  | [], md => some md
  | symbol_info :: rest, md => (AddSymbol U symbol_info md).bind (AddSymbolsLoop U rest)

/-- `ModuleData::AddSymbols`; none when `CHECK(!is_loaded_)` or the `CHECK` on a
pretty name fails. -/
def AddSymbols (U : FunctionUtils) (module_symbols : List SymbolInfo) (md : ModuleData) :
    Option ModuleData :=
  if md.is_loaded_ then none
  else (AddSymbolsLoop U module_symbols md).map (fun loaded => { loaded with is_loaded_ := true })

/-- `ModuleData::FindFunctionFromHash`; none is the null pointer. -/
def FindFunctionFromHash (md : ModuleData) (hash : Nat) : Option FunctionInfo :=
  if (find md.hash_to_function_map_ hash).isSome then find md.hash_to_function_map_ hash else none

/-- `ModuleData::FindFunctionFromPrettyName`; none is the null pointer. -/
def FindFunctionFromPrettyName (md : ModuleData) (pretty_name : String) : Option FunctionInfo :=
  find md.name_to_function_info_map_ pretty_name

/-- `ModuleData::GetFunctions`: the functions in the order of `functions_`. -/
def GetFunctions (md : ModuleData) : List FunctionInfo := md.functions_.map Prod.snd

end ModuleData

/-- One call of a member function that changes a `ModuleData`. -/
inductive ModuleOperation where
  | AddSymbols (module_symbols : List SymbolInfo)
  | AddFunctionInfoWithBuildId (function_info : FunctionInfo) (module_build_id : String)
  | UpdateIfChangedAndUnload (info : ModuleInfo)
  | UpdateIfChangedAndNotLoaded (info : ModuleInfo)
  deriving DecidableEq, Repr

/-- The module after one call; none when a `CHECK` of the call fails. -/
def ModuleOperation.apply (U : FunctionUtils) : ModuleOperation → ModuleData → Option ModuleData
  | ModuleOperation.AddSymbols module_symbols, md => md.AddSymbols U module_symbols
  | ModuleOperation.AddFunctionInfoWithBuildId function_info module_build_id, md =>
    md.AddFunctionInfoWithBuildId function_info module_build_id
  | ModuleOperation.UpdateIfChangedAndUnload info, md =>
    (md.UpdateIfChangedAndUnload info).map Prod.fst
  | ModuleOperation.UpdateIfChangedAndNotLoaded info, md =>
    (md.UpdateIfChangedAndNotLoaded info).map Prod.fst

/-- The module after a sequence of calls, every call under its `CHECK`s. -/
def applyAll (U : FunctionUtils) : List ModuleOperation → ModuleData → Option ModuleData
  | [], md => some md
  | op :: ops, md => (op.apply U md).bind (applyAll U ops)

/-- The first symbol of the list with the given address. -/
def firstSymbolAt (module_symbols : List SymbolInfo) (address : Nat) : Option SymbolInfo :=
  module_symbols.find? (fun symbol_info => decide (symbol_info.address = address))

/-- The symbols that are the first of the list with their address, in list
order. -/
def firstSymbols : List SymbolInfo → List SymbolInfo
  | [] => []
  | symbol_info :: rest =>
    symbol_info :: (firstSymbols rest).filter (fun later => decide (later.address ≠ symbol_info.address))

/-- A `FunctionUtils` for concrete inputs: the function takes over the fields of
the symbol, the demangled name as pretty name, and the hash is the sum of the
character codes of the pretty name. -/
def sampleFunctionUtils : FunctionUtils where
  CreateFunctionInfo := fun symbol_info module_path module_build_id =>
    ⟨symbol_info.name, symbol_info.demangled_name, module_path, module_build_id,
      symbol_info.address, symbol_info.size⟩
  GetHash := fun function => (function.pretty_name.data.map Char.toNat).sum

/-- A module info without build id. -/
def sampleModuleInfo : ModuleInfo := ⟨"libfoo.so", "/usr/lib/libfoo.so", 1000, "", 4096⟩

/-- The symbols `foo` at 0x100 (size 0x20), `bar` at 0x200 (size 0), and a second
symbol `foo_alias` at 0x100. -/
def sampleSymbols : List SymbolInfo :=
  [⟨"_Z3foov", "foo()", 0x100, 0x20⟩, ⟨"_Z3barv", "bar()", 0x200, 0⟩,
    ⟨"_Z9foo_aliasv", "foo_alias()", 0x100, 0x20⟩]

/-- The module of `sampleModuleInfo` after `AddSymbols(sampleSymbols)`. -/
def sampleLoadedModule : ModuleData :=
  ⟨sampleModuleInfo, true,
    [(0x100, ⟨"_Z3foov", "foo()", "/usr/lib/libfoo.so", "", 0x100, 0x20⟩),
      (0x200, ⟨"_Z3barv", "bar()", "/usr/lib/libfoo.so", "", 0x200, 0⟩)],
    [("foo()", ⟨"_Z3foov", "foo()", "/usr/lib/libfoo.so", "", 0x100, 0x20⟩),
      ("bar()", ⟨"_Z3barv", "bar()", "/usr/lib/libfoo.so", "", 0x200, 0⟩)],
    [(405, ⟨"_Z3foov", "foo()", "/usr/lib/libfoo.so", "", 0x100, 0x20⟩),
      (390, ⟨"_Z3barv", "bar()", "/usr/lib/libfoo.so", "", 0x200, 0⟩)]⟩

/-- A module info with the build id "abc". -/
def sampleBuildIdModuleInfo : ModuleInfo := ⟨"libbar.so", "/usr/lib/libbar.so", 1000, "abc", 0⟩

/-- The module of `sampleBuildIdModuleInfo`, loaded with no symbol. -/
def sampleBuildIdModule : ModuleData := ⟨sampleBuildIdModuleInfo, true, [], [], []⟩

/-- The invariant of `ModuleData`: a module that is not loaded has no function
and no entry in the hash lookup. -/
def ModuleData.NotLoadedIsEmpty (md : ModuleData) : Prop :=
  md.is_loaded_ = false → md.functions_ = [] ∧ md.hash_to_function_map_ = []

/-- The class `ModuleInMemory` of `orbit_client_data`: a module mapped at the
addresses from `start` to `end_`. -/
structure ModuleInMemory where
  start : Nat
  end_ : Nat
  file_path : String
  build_id : String
  deriving DecidableEq, Repr

end orbit_client_data

/-! # ModulesDataView (`src/DataViews/ModulesDataView.cpp`) -/

namespace orbit_data_views

open orbit_linux_tracing (find insert_or_assign)
open orbit_client_data (ModuleInfo ModuleData ModuleInMemory)

/-- The enumeration `DataView::SortingOrder`. -/
inductive SortingOrder where
  | kAscending
  | kDescending
  deriving DecidableEq, Repr

def kColumnName : Int := 0

def kColumnPath : Int := 1

def kColumnAddressRange : Int := 2

def kColumnFileSize : Int := 3

def kColumnLoaded : Int := 4

def kNumColumns : Int := 5

/-- The state of a `ModulesDataView` that `DoSort`, `DoFilter` and `AddModule`
use. A hash map is the list of its entries, the order of the list being the
order in which the map is iterated; `start_address_to_module_` holds pointers
and is modelled with the modules pointed to. `indices_`, `filter_`,
`sorting_column_` and `sorting_orders_` are the members of the base class
`DataView`. -/
structure ModulesDataView where
  start_address_to_module_in_memory_ : List (Nat × ModuleInMemory)
  start_address_to_module_ : List (Nat × ModuleData)
  indices_ : List Nat
  filter_ : String
  sorting_column_ : Int
  sorting_orders_ : List SortingOrder
  deriving Repr

/-- `absl::AsciiStrToLower`: the letters `A` to `Z` become lower case, every
other character stays. -/
def AsciiStrToLower (s : String) : String := ⟨s.data.map Char.toLower⟩

/-- The pieces of a text between the occurrences of the delimiter; an empty text
has the one piece that is empty. -/
def splitChars : List Char → Char → List (List Char)
  | [], _ => [[]]
  | c :: rest, delimiter =>
    if c = delimiter then [] :: splitChars rest delimiter
    else
      match splitChars rest delimiter with
      | [] => [[c]]
      | piece :: pieces => (c :: piece) :: pieces

/-- `absl::StrSplit(text, delimiter)` with a character as delimiter; empty
pieces are kept. -/
def StrSplit (text : String) (delimiter : Char) : List String :=
  (splitChars text.data delimiter).map String.mk

/-- `absl::StrContains(haystack, needle)`: the needle starts at some position of
the haystack. -/
def StrContains (haystack needle : String) : Bool :=
  haystack.data.tails.any (fun rest => needle.data.isPrefixOf rest)

/-- `ModulesDataView::DoFilter`. `FormattedAddressRange` is the member function
of `ModuleInMemory` of this name; its code is outside the sources at hand and it
is a parameter. -/
def DoFilter (FormattedAddressRange : ModuleInMemory → String) (view : ModulesDataView) :
    ModulesDataView :=
  let tokens := StrSplit (AsciiStrToLower view.filter_) ' '
  let indices := view.start_address_to_module_in_memory_.filterMap (fun entry =>
    let module_string :=
      FormattedAddressRange entry.2 ++ " " ++ AsciiStrToLower entry.2.file_path
    if tokens.all (fun filter_token => StrContains module_string filter_token) then some entry.1
    else none)
  { view with indices_ := indices }

/-- `ModulesDataView::AddModule`. -/
def AddModule (view : ModulesDataView) (start_address : Nat) (module : ModuleData)
    (module_in_memory : ModuleInMemory) : ModulesDataView :=
  let modules := (insert_or_assign view.start_address_to_module_ start_address module).1
  let in_memory :=
    (insert_or_assign view.start_address_to_module_in_memory_ start_address module_in_memory).1
  ⟨in_memory, modules, view.indices_ ++ [start_address], view.filter_, view.sorting_column_,
    view.sorting_orders_⟩

/-- Modelled from the spec: the function template `CompareAscendingOrDescending`
is declared in `CompareAscendingOrDescending.h`, outside the sources at hand.
It compares with `<` when ascending and with `>` when descending, which is the
order the test of the view expects of the sorted rows. -/
def CompareAscendingOrDescending {α : Type} [LinearOrder α] (a b : α) (ascending : Bool) : Bool :=
  if ascending then decide (a < b) else decide (a > b)

/-- The comparison `ORBIT_PROC_SORT(Member)` of the rows `a` and `b`; none when
`start_address_to_module_.at` fails for one of them. -/
def ORBIT_PROC_SORT {α : Type} [LinearOrder α] (view : ModulesDataView)
    (Member : ModuleData → α) (ascending : Bool) (a b : Nat) : Option Bool :=
  match find view.start_address_to_module_ a, find view.start_address_to_module_ b with
  | some module_a, some module_b =>
    some (CompareAscendingOrDescending (Member module_a) (Member module_b) ascending)
  | _, _ => none

/-- The comparison `ORBIT_MODULE_SPACE_SORT(Member)` of the rows `a` and `b`;
none when `start_address_to_module_in_memory_.at` fails for one of them. -/
def ORBIT_MODULE_SPACE_SORT {α : Type} [LinearOrder α] (view : ModulesDataView)
    (Member : ModuleInMemory → α) (ascending : Bool) (a b : Nat) : Option Bool :=
  match find view.start_address_to_module_in_memory_ a,
    find view.start_address_to_module_in_memory_ b with
  | some space_a, some space_b =>
    some (CompareAscendingOrDescending (Member space_a) (Member space_b) ascending)
  | _, _ => none

/-- `std::stable_sort(first, last, comp)`: the elements in the order of `comp`,
elements of which neither comes before the other staying in their order. The
sort is none when the comparison of two elements of the range fails. -/
def stable_sort (comp : Nat → Nat → Option Bool) (range : List Nat) : Option (List Nat) :=
  if range.all (fun a => range.all (fun b => (comp a b).isSome)) then
    some (range.insertionSort (fun a b => comp b a ≠ some true))
  else none

/-- The element `sorting_orders_[sorting_column_]`; none outside the vector. -/
def sortingOrder (view : ModulesDataView) : Option SortingOrder :=
  if 0 ≤ view.sorting_column_ then view.sorting_orders_.get? view.sorting_column_.toNat else none

/-- The `sorter` that `DoSort` chooses for the sorting column; none for a column
that is none of the five. -/
def sorter (view : ModulesDataView) (ascending : Bool) : Option (Nat → Nat → Option Bool) :=
  if view.sorting_column_ = kColumnName then
    some (ORBIT_PROC_SORT view ModuleData.name ascending)
  else if view.sorting_column_ = kColumnPath then
    some (ORBIT_PROC_SORT view ModuleData.file_path ascending)
  else if view.sorting_column_ = kColumnAddressRange then
    some (ORBIT_MODULE_SPACE_SORT view ModuleInMemory.start ascending)
  else if view.sorting_column_ = kColumnFileSize then
    some (ORBIT_PROC_SORT view ModuleData.file_size ascending)
  else if view.sorting_column_ = kColumnLoaded then
    some (ORBIT_PROC_SORT view ModuleData.is_loaded ascending)
  else none

/-- `ModulesDataView::DoSort`; none when the sorting order is read outside
`sorting_orders_` or the sort fails. -/
def DoSort (view : ModulesDataView) : Option ModulesDataView :=
  match sortingOrder view with
  | none => none
  | some order =>
    let ascending := decide (order = SortingOrder.kAscending)
    match sorter view ascending with
    | none => some view
    | some comp =>
      (stable_sort comp view.indices_).map (fun sorted => { view with indices_ := sorted })

/-- The rows are in the order of a key, read from the entry of each row in a
map: non-decreasing when ascending, non-increasing when descending. -/
def OrderedBy {α ν : Type} [LinearOrder α] (m : List (Nat × ν)) (Member : ν → α)
    (ascending : Bool) (rows : List Nat) : Prop :=
  rows.Pairwise (fun a b => ∀ x y, find m a = some x → find m b = some y →
    if ascending = true then Member x ≤ Member y else Member y ≤ Member x)

/-- Two rows with equal keys that follow each other in `before`, not
necessarily side by side, follow each other in `after` in the same order. -/
def StableBy {α ν : Type} (m : List (Nat × ν)) (Member : ν → α)
    (before after : List Nat) : Prop :=
  ∀ a b x y, find m a = some x → find m b = some y → Member x = Member y →
    List.Sublist [a, b] before → List.Sublist [a, b] after

/-- One hexadecimal digit, in lower case. -/
def hexDigit (n : Nat) : Char := if n < 10 then Char.ofNat (48 + n) else Char.ofNat (87 + n)

/-- The sixteen hexadecimal digits of a `uint64` value (`%016x`). -/
def hex16 (n : Nat) : String :=
  ⟨(List.range 16).reverse.map (fun i => hexDigit (n / 16 ^ i % 16))⟩

/-- An address range for concrete inputs, in the form `[%016x - %016x]` that the
test of the view expects of `FormattedAddressRange`. -/
def sampleFormattedAddressRange (space : ModuleInMemory) : String :=
  "[" ++ hex16 space.start ++ " - " ++ hex16 space.end_ ++ "]"

/-- The empty view with the sorting orders of `GetColumns` and the default
sorting column. -/
def emptyView : ModulesDataView :=
  ⟨[], [], [], "", kColumnFileSize,
    [SortingOrder.kAscending, SortingOrder.kAscending, SortingOrder.kAscending,
      SortingOrder.kDescending, SortingOrder.kDescending]⟩

/-- The view of the test: three modules added one after the other. -/
def testView : ModulesDataView :=
  AddModule
    (AddModule
      (AddModule emptyView 0x1000
        (ModuleData.create ⟨"module_abc", "/usr/subpath/to/module_abc", 300, "build_id_0", 0⟩)
        ⟨0x1000, 0x1100, "/usr/subpath/to/module_abc", "build_id_0"⟩)
      0x2000
      (ModuleData.create ⟨"module_abc", "/local/subpath/to/module_abc", 100, "build_id_1", 0⟩)
      ⟨0x2000, 0x2100, "/local/subpath/to/module_abc", "build_id_1"⟩)
    0x3000
    (ModuleData.create ⟨"module_xyz", "/usr/subpath/to/module_xyz", 200, "build_id_2", 0⟩)
    ⟨0x3000, 0x3100, "/usr/subpath/to/module_xyz", "build_id_2"⟩

end orbit_data_views

namespace orbit_linux_tracing

/-! ## Decoder lemmas -/

theorem and_two_pow_ne_zero_iff (bits k : Nat) :
    bits &&& 2 ^ k ≠ 0 ↔ bits.testBit k = true := by
  constructor
  · intro h
    by_contra hk
    apply h
    apply Nat.eq_of_testBit_eq
    intro i
    simp only [Nat.testBit_and, Nat.zero_testBit, Nat.testBit_two_pow]
    by_cases hki : k = i
    · subst hki; simp [hk]
    · simp [hki]
  · intro h h0
    have := congrArg (fun n => n.testBit k) h0
    simp [Nat.testBit_two_pow, h] at this

/-- The state component of `GetThreadStateFromBits`, bit by bit. -/
theorem GetThreadStateFromBits_fst (bits : Nat) :
    (GetThreadStateFromBits bits).1 =
      if bits.testBit 0 then ThreadState.kInterruptibleSleep
      else if bits.testBit 1 then ThreadState.kUninterruptibleSleep
      else if bits.testBit 2 then ThreadState.kStopped
      else if bits.testBit 3 then ThreadState.kTraced
      else if bits.testBit 4 then ThreadState.kDead
      else if bits.testBit 5 then ThreadState.kZombie
      else if bits.testBit 6 then ThreadState.kParked
      else if bits.testBit 7 then ThreadState.kIdle
      else ThreadState.kRunnable := by
  have h0 : bits &&& 0x01 ≠ 0 ↔ bits.testBit 0 = true := and_two_pow_ne_zero_iff bits 0
  have h1 : bits &&& 0x02 ≠ 0 ↔ bits.testBit 1 = true := and_two_pow_ne_zero_iff bits 1
  have h2 : bits &&& 0x04 ≠ 0 ↔ bits.testBit 2 = true := and_two_pow_ne_zero_iff bits 2
  have h3 : bits &&& 0x08 ≠ 0 ↔ bits.testBit 3 = true := and_two_pow_ne_zero_iff bits 3
  have h4 : bits &&& 0x10 ≠ 0 ↔ bits.testBit 4 = true := and_two_pow_ne_zero_iff bits 4
  have h5 : bits &&& 0x20 ≠ 0 ↔ bits.testBit 5 = true := and_two_pow_ne_zero_iff bits 5
  have h6 : bits &&& 0x40 ≠ 0 ↔ bits.testBit 6 = true := and_two_pow_ne_zero_iff bits 6
  have h7 : bits &&& 0x80 ≠ 0 ↔ bits.testBit 7 = true := and_two_pow_ne_zero_iff bits 7
  simp only [GetThreadStateFromBits, h0, h1, h2, h3, h4, h5, h6, h7]
  generalize (if popcountl (bits &&& 0xFF) > 1 then
    [ErrorReport.CombinationOfStates (bits &&& 0xFF)] else []) = reports
  split_ifs <;> rfl

theorem testBit_and_0xFF (bits i : Nat) (hi : i < 8) :
    (bits &&& 0xFF).testBit i = bits.testBit i := by
  have h255 : (0xFF : Nat) = 2 ^ 8 - 1 := by norm_num
  rw [Nat.testBit_and, h255, Nat.testBit_two_pow_sub_one]
  simp [hi]

theorem and_0xFF_eq_zero_iff (bits : Nat) :
    bits &&& 0xFF = 0 ↔ ∀ i, i < 8 → bits.testBit i = false := by
  constructor
  · intro h i hi
    rw [← testBit_and_0xFF bits i hi, h]
    exact Nat.zero_testBit i
  · intro h
    apply Nat.eq_of_testBit_eq
    intro i
    have h255 : (0xFF : Nat) = 2 ^ 8 - 1 := by norm_num
    rw [Nat.testBit_and, h255, Nat.testBit_two_pow_sub_one, Nat.zero_testBit]
    by_cases hi : i < 8
    · simp [h i hi]
    · simp [hi]

/-! ## Lemmas about maps -/

theorem find_insert_or_assign {κ ν : Type} [DecidableEq κ] (m : List (κ × ν))
    (key key' : κ) (value : ν) :
    find (insert_or_assign m key value).1 key' =
      if key = key' then some value else find m key' := by
  induction m with
  | nil => simp [insert_or_assign, find]
  | cons entry rest ih =>
    obtain ⟨k, x⟩ := entry
    by_cases hk : k = key
    · subst hk
      by_cases hk' : k = key' <;> simp [insert_or_assign, find, hk']
    · by_cases hk' : k = key'
      · subst hk'
        have hne : ¬ key = k := fun h => hk h.symm
        simp [insert_or_assign, find, hk, hne]
      · simp [insert_or_assign, find, hk, hk', ih]

theorem insert_or_assign_snd {κ ν : Type} [DecidableEq κ] (m : List (κ × ν))
    (key : κ) (value : ν) :
    (insert_or_assign m key value).2 = (find m key).isNone := by
  induction m with
  | nil => simp [insert_or_assign, find]
  | cons entry rest ih =>
    obtain ⟨k, x⟩ := entry
    by_cases hk : k = key <;> simp [insert_or_assign, find, hk, ih]

/-! ## Lemmas about sequencing -/

theorem Outcome.andThen_of_fault_none {σ τ : Type} (o : Outcome σ τ)
    (f : SwitchesStatesNamesVisitor σ τ → Outcome σ τ) (h : o.fault = none) :
    o.andThen f =
      ⟨(f o.visitor).visitor, o.effects ++ (f o.visitor).effects, (f o.visitor).fault⟩ := by
  unfold Outcome.andThen
  rw [h]

theorem Outcome.andThen_of_fault_some {σ τ : Type} (o : Outcome σ τ)
    (f : SwitchesStatesNamesVisitor σ τ → Outcome σ τ) (x : Fault) (h : o.fault = some x) :
    o.andThen f = o := by
  unfold Outcome.andThen
  rw [h]

theorem Outcome.andThen_effects {σ τ : Type} (o : Outcome σ τ)
    (f : SwitchesStatesNamesVisitor σ τ → Outcome σ τ) :
    (o.andThen f).effects =
      o.effects ++ (if o.fault = none then (f o.visitor).effects else []) := by
  cases h : o.fault with
  | none => rw [Outcome.andThen_of_fault_none o f h]; simp
  | some x => rw [Outcome.andThen_of_fault_some o f x h]; simp

theorem Outcome.andThen_fault {σ τ : Type} (o : Outcome σ τ)
    (f : SwitchesStatesNamesVisitor σ τ → Outcome σ τ) :
    (o.andThen f).fault = if o.fault = none then (f o.visitor).fault else o.fault := by
  cases h : o.fault with
  | none => rw [Outcome.andThen_of_fault_none o f h]; simp
  | some x => rw [Outcome.andThen_of_fault_some o f x h]; simp [h]

theorem Outcome.andThen_visitor {σ τ : Type} (o : Outcome σ τ)
    (f : SwitchesStatesNamesVisitor σ τ → Outcome σ τ) :
    (o.andThen f).visitor = if o.fault = none then (f o.visitor).visitor else o.visitor := by
  cases h : o.fault with
  | none => rw [Outcome.andThen_of_fault_none o f h]; simp
  | some x => rw [Outcome.andThen_of_fault_some o f x h]; simp

theorem Outcome.mem_andThen_effects {σ τ : Type} (o : Outcome σ τ)
    (f : SwitchesStatesNamesVisitor σ τ → Outcome σ τ) (e : Effect)
    (h : e ∈ (o.andThen f).effects) : e ∈ o.effects ∨ e ∈ (f o.visitor).effects := by
  rw [Outcome.andThen_effects] at h
  by_cases hf : o.fault = none
  · simpa [hf] using h
  · left; simpa [hf] using h

theorem Frame.frameRefl {σ τ : Type} (v : SwitchesStatesNamesVisitor σ τ) : Frame v v :=
  ⟨rfl, rfl, rfl, rfl⟩

theorem Frame.frameTrans {σ τ : Type} {u v w : SwitchesStatesNamesVisitor σ τ}
    (h1 : Frame u v) (h2 : Frame v w) : Frame u w :=
  ⟨h2.1.trans h1.1, h2.2.1.trans h1.2.1, h2.2.2.1.trans h1.2.2.1, h2.2.2.2.trans h1.2.2.2⟩

theorem Frame.toSameConfiguration {σ τ : Type} {v w : SwitchesStatesNamesVisitor σ τ}
    (h : Frame v w) : SameConfiguration v w :=
  ⟨h.1, h.2.1, h.2.2.1⟩

theorem SameConfiguration.configTrans {σ τ : Type} {u v w : SwitchesStatesNamesVisitor σ τ}
    (h1 : SameConfiguration u v) (h2 : SameConfiguration v w) : SameConfiguration u w :=
  ⟨h2.1.trans h1.1, h2.2.1.trans h1.2.1, h2.2.2.trans h1.2.2⟩

theorem Outcome.andThen_frame {σ τ : Type} (v : SwitchesStatesNamesVisitor σ τ)
    (o : Outcome σ τ) (f : SwitchesStatesNamesVisitor σ τ → Outcome σ τ)
    (ho : Frame v o.visitor) (hf : ∀ w, Frame w (f w).visitor) :
    Frame v (o.andThen f).visitor := by
  rw [Outcome.andThen_visitor]
  by_cases h : o.fault = none
  · rw [if_pos h]; exact ho.frameTrans (hf o.visitor)
  · rw [if_neg h]; exact ho

theorem Outcome.andThen_fault_none {σ τ : Type} (o : Outcome σ τ)
    (f : SwitchesStatesNamesVisitor σ τ → Outcome σ τ)
    (ho : o.fault = none) (hf : (f o.visitor).fault = none) :
    (o.andThen f).fault = none := by
  rw [Outcome.andThen_fault, if_pos ho, hf]

/-! ## Lemmas about the member functions: what they leave unchanged -/

namespace SwitchesStatesNamesVisitor

variable {σ τ : Type}

theorem GetPidOfTid_eq_find (tid : Int) (v : SwitchesStatesNamesVisitor σ τ) :
    GetPidOfTid tid v = find v.tid_to_pid_association_ tid := by
  unfold GetPidOfTid
  cases find v.tid_to_pid_association_ tid <;> rfl

theorem GetPidOfTid_of_frame {v w : SwitchesStatesNamesVisitor σ τ} (h : Frame v w)
    (tid : Int) : GetPidOfTid tid w = GetPidOfTid tid v := by
  rw [GetPidOfTid_eq_find, GetPidOfTid_eq_find, h.2.2.2]

theorem TidMatchesPidFilter_of_frame {v w : SwitchesStatesNamesVisitor σ τ} (h : Frame v w)
    (K : Constants) (tid : Int) : TidMatchesPidFilter K tid w = TidMatchesPidFilter K tid v := by
  unfold TidMatchesPidFilter
  rw [h.2.2.1, h.2.2.2]

theorem ForwardThreadStateSlice_frame (slice : ThreadStateSlice)
    (v : SwitchesStatesNamesVisitor σ τ) : Frame v (ForwardThreadStateSlice slice v).visitor := by
  unfold ForwardThreadStateSlice
  split_ifs <;> exact ⟨rfl, rfl, rfl, rfl⟩

theorem ForwardThreadStateSlices_frame (slices : List ThreadStateSlice)
    (v : SwitchesStatesNamesVisitor σ τ) :
    Frame v (ForwardThreadStateSlices slices v).visitor := by
  induction slices generalizing v with
  | nil => exact ⟨rfl, rfl, rfl, rfl⟩
  | cons slice rest ih =>
    exact Outcome.andThen_frame v _ _ (ForwardThreadStateSlice_frame slice v) ih

theorem SchedSwitchOutForSchedulingSlices_frame (K : Constants) (SM : ContextSwitchManager σ)
    (event : SchedSwitchPerfEvent) (v : SwitchesStatesNamesVisitor σ τ) :
    Frame v (SchedSwitchOutForSchedulingSlices K SM event v).visitor := by
  unfold SchedSwitchOutForSchedulingSlices
  by_cases hc : v.produce_scheduling_slices_ = true ∧ event.GetPrevTid ≠ 0
  · rw [if_pos hc]
    dsimp only
    split
    · exact ⟨rfl, rfl, rfl, rfl⟩
    · split <;> exact ⟨rfl, rfl, rfl, rfl⟩
  · rw [if_neg hc]
    exact ⟨rfl, rfl, rfl, rfl⟩

theorem SchedSwitchInForSchedulingSlices_frame (SM : ContextSwitchManager σ)
    (event : SchedSwitchPerfEvent) (v : SwitchesStatesNamesVisitor σ τ) :
    Frame v (SchedSwitchInForSchedulingSlices SM event v).visitor := by
  unfold SchedSwitchInForSchedulingSlices
  split_ifs <;> exact ⟨rfl, rfl, rfl, rfl⟩

theorem SchedSwitchOutForThreadState_frame (K : Constants) (TM : ThreadStateManager τ)
    (event : SchedSwitchPerfEvent) (v : SwitchesStatesNamesVisitor σ τ) :
    Frame v (SchedSwitchOutForThreadState K TM event v).visitor := by
  unfold SchedSwitchOutForThreadState
  split
  · dsimp only
    split
    · exact ⟨rfl, rfl, rfl, rfl⟩
    · exact Outcome.andThen_frame v _ _ ⟨rfl, rfl, rfl, rfl⟩
        (ForwardThreadStateSlice_frame _)
  · exact ⟨rfl, rfl, rfl, rfl⟩

theorem SchedSwitchInForThreadState_frame (K : Constants) (TM : ThreadStateManager τ)
    (event : SchedSwitchPerfEvent) (v : SwitchesStatesNamesVisitor σ τ) :
    Frame v (SchedSwitchInForThreadState K TM event v).visitor := by
  unfold SchedSwitchInForThreadState
  split
  · dsimp only
    split
    · exact ⟨rfl, rfl, rfl, rfl⟩
    · exact Outcome.andThen_frame v _ _ ⟨rfl, rfl, rfl, rfl⟩
        (ForwardThreadStateSlice_frame _)
  · exact ⟨rfl, rfl, rfl, rfl⟩

theorem VisitSchedSwitchPerfEvent_frame (K : Constants) (SM : ContextSwitchManager σ)
    (TM : ThreadStateManager τ) (event : SchedSwitchPerfEvent)
    (v : SwitchesStatesNamesVisitor σ τ) :
    Frame v (VisitSchedSwitchPerfEvent K SM TM event v).visitor := by
  unfold VisitSchedSwitchPerfEvent
  refine Outcome.andThen_frame v _ _ ?_ (SchedSwitchInForThreadState_frame K TM event)
  refine Outcome.andThen_frame v _ _ ?_ (SchedSwitchOutForThreadState_frame K TM event)
  exact Outcome.andThen_frame v _ _ (SchedSwitchOutForSchedulingSlices_frame K SM event v)
    (SchedSwitchInForSchedulingSlices_frame SM event)

theorem VisitSchedWakeupPerfEvent_frame (K : Constants) (TM : ThreadStateManager τ)
    (event : SchedWakeupPerfEvent) (v : SwitchesStatesNamesVisitor σ τ) :
    Frame v (VisitSchedWakeupPerfEvent K TM event v).visitor := by
  unfold VisitSchedWakeupPerfEvent
  split
  · exact ⟨rfl, rfl, rfl, rfl⟩
  · dsimp only
    split
    · exact ⟨rfl, rfl, rfl, rfl⟩
    · exact Outcome.andThen_frame v _ _ ⟨rfl, rfl, rfl, rfl⟩
        (ForwardThreadStateSlice_frame _)

theorem ProcessRemainingOpenStates_frame (TM : ThreadStateManager τ) (timestamp_ns : Nat)
    (v : SwitchesStatesNamesVisitor σ τ) :
    Frame v (ProcessRemainingOpenStates TM timestamp_ns v).visitor := by
  unfold ProcessRemainingOpenStates
  exact Outcome.andThen_frame v _ _ ⟨rfl, rfl, rfl, rfl⟩ (ForwardThreadStateSlices_frame _)

theorem ProcessInitialState_frame (K : Constants) (TM : ThreadStateManager τ)
    (timestamp_ns : Nat) (tid : Int) (state_char : Char) (v : SwitchesStatesNamesVisitor σ τ) :
    Frame v (ProcessInitialState K TM timestamp_ns tid state_char v).visitor := by
  unfold ProcessInitialState
  split
  · exact ⟨rfl, rfl, rfl, rfl⟩
  · split <;> exact ⟨rfl, rfl, rfl, rfl⟩

theorem VisitTaskNewtaskPerfEvent_frame (K : Constants) (TM : ThreadStateManager τ)
    (event : TaskNewtaskPerfEvent) (v : SwitchesStatesNamesVisitor σ τ) :
    Frame v (VisitTaskNewtaskPerfEvent K TM event v).visitor := by
  unfold VisitTaskNewtaskPerfEvent
  dsimp only
  split
  · exact ⟨rfl, rfl, rfl, rfl⟩
  · split <;> exact ⟨rfl, rfl, rfl, rfl⟩

theorem VisitTaskRenamePerfEvent_frame (event : TaskRenamePerfEvent)
    (v : SwitchesStatesNamesVisitor σ τ) :
    Frame v (VisitTaskRenamePerfEvent event v).visitor := by
  unfold VisitTaskRenamePerfEvent
  dsimp only
  split <;> exact ⟨rfl, rfl, rfl, rfl⟩

end SwitchesStatesNamesVisitor

/-! ## Lemmas about the member functions: faults -/

namespace SwitchesStatesNamesVisitor

variable {σ τ : Type}

theorem andThen_fault_none_of_listener (v : SwitchesStatesNamesVisitor σ τ)
    (o : Outcome σ τ) (f : SwitchesStatesNamesVisitor σ τ → Outcome σ τ)
    (hv : v.listener_ = true) (hframe : Frame v o.visitor) (ho : o.fault = none)
    (hf : ∀ w : SwitchesStatesNamesVisitor σ τ, w.listener_ = true → (f w).fault = none) :
    (o.andThen f).fault = none :=
  Outcome.andThen_fault_none o f ho (hf o.visitor (hframe.1.trans hv))

theorem ForwardThreadStateSlice_fault (slice : ThreadStateSlice)
    (v : SwitchesStatesNamesVisitor σ τ) (hv : v.listener_ = true) :
    (ForwardThreadStateSlice slice v).fault = none := by
  simp [ForwardThreadStateSlice, hv]

theorem ForwardThreadStateSlices_fault (slices : List ThreadStateSlice)
    (v : SwitchesStatesNamesVisitor σ τ) (hv : v.listener_ = true) :
    (ForwardThreadStateSlices slices v).fault = none := by
  induction slices generalizing v with
  | nil => rfl
  | cons slice rest ih =>
    exact andThen_fault_none_of_listener v _ _ hv (ForwardThreadStateSlice_frame slice v)
      (ForwardThreadStateSlice_fault slice v hv) ih

theorem SchedSwitchOutForSchedulingSlices_fault (K : Constants) (SM : ContextSwitchManager σ)
    (event : SchedSwitchPerfEvent) (v : SwitchesStatesNamesVisitor σ τ)
    (hv : v.listener_ = true) :
    (SchedSwitchOutForSchedulingSlices K SM event v).fault = none := by
  unfold SchedSwitchOutForSchedulingSlices
  by_cases hc : v.produce_scheduling_slices_ = true ∧ event.GetPrevTid ≠ 0
  · rw [if_pos hc]
    dsimp only
    split
    · rfl
    · simp [hv]
  · rw [if_neg hc]

theorem SchedSwitchInForSchedulingSlices_fault (SM : ContextSwitchManager σ)
    (event : SchedSwitchPerfEvent) (v : SwitchesStatesNamesVisitor σ τ) :
    (SchedSwitchInForSchedulingSlices SM event v).fault = none := by
  unfold SchedSwitchInForSchedulingSlices
  split <;> rfl

theorem SchedSwitchOutForThreadState_fault (K : Constants) (TM : ThreadStateManager τ)
    (event : SchedSwitchPerfEvent) (v : SwitchesStatesNamesVisitor σ τ)
    (hv : v.listener_ = true) :
    (SchedSwitchOutForThreadState K TM event v).fault = none := by
  unfold SchedSwitchOutForThreadState
  split
  · dsimp only
    split
    · rfl
    · exact Outcome.andThen_fault_none _ _ rfl (ForwardThreadStateSlice_fault _ _ hv)
  · rfl

theorem SchedSwitchInForThreadState_fault (K : Constants) (TM : ThreadStateManager τ)
    (event : SchedSwitchPerfEvent) (v : SwitchesStatesNamesVisitor σ τ)
    (hv : v.listener_ = true) :
    (SchedSwitchInForThreadState K TM event v).fault = none := by
  unfold SchedSwitchInForThreadState
  split
  · dsimp only
    split
    · rfl
    · exact Outcome.andThen_fault_none _ _ rfl (ForwardThreadStateSlice_fault _ _ hv)
  · rfl

theorem VisitSchedSwitchPerfEvent_fault (K : Constants) (SM : ContextSwitchManager σ)
    (TM : ThreadStateManager τ) (event : SchedSwitchPerfEvent)
    (v : SwitchesStatesNamesVisitor σ τ) (hv : v.listener_ = true) :
    (VisitSchedSwitchPerfEvent K SM TM event v).fault = none := by
  unfold VisitSchedSwitchPerfEvent
  have h1 := SchedSwitchOutForSchedulingSlices_fault K SM event v hv
  have f1 := SchedSwitchOutForSchedulingSlices_frame K SM event v
  have h2 := andThen_fault_none_of_listener v _ (SchedSwitchInForSchedulingSlices SM event)
    hv f1 h1 (fun w _ => SchedSwitchInForSchedulingSlices_fault SM event w)
  have f2 := Outcome.andThen_frame v _ _ f1 (SchedSwitchInForSchedulingSlices_frame SM event)
  have h3 := andThen_fault_none_of_listener v _ (SchedSwitchOutForThreadState K TM event)
    hv f2 h2 (SchedSwitchOutForThreadState_fault K TM event)
  have f3 := Outcome.andThen_frame v _ _ f2 (SchedSwitchOutForThreadState_frame K TM event)
  exact andThen_fault_none_of_listener v _ (SchedSwitchInForThreadState K TM event)
    hv f3 h3 (SchedSwitchInForThreadState_fault K TM event)

theorem VisitSchedWakeupPerfEvent_fault (K : Constants) (TM : ThreadStateManager τ)
    (event : SchedWakeupPerfEvent) (v : SwitchesStatesNamesVisitor σ τ)
    (hv : v.listener_ = true) :
    (VisitSchedWakeupPerfEvent K TM event v).fault = none := by
  unfold VisitSchedWakeupPerfEvent
  split
  · rfl
  · dsimp only
    split
    · rfl
    · exact Outcome.andThen_fault_none _ _ rfl (ForwardThreadStateSlice_fault _ _ hv)

theorem ProcessRemainingOpenStates_fault (TM : ThreadStateManager τ) (timestamp_ns : Nat)
    (v : SwitchesStatesNamesVisitor σ τ) (hv : v.listener_ = true) :
    (ProcessRemainingOpenStates TM timestamp_ns v).fault = none := by
  unfold ProcessRemainingOpenStates
  exact Outcome.andThen_fault_none _ _ rfl (ForwardThreadStateSlices_fault _ _ hv)

theorem ProcessInitialState_fault (K : Constants) (TM : ThreadStateManager τ)
    (timestamp_ns : Nat) (tid : Int) (state_char : Char) (v : SwitchesStatesNamesVisitor σ τ) :
    (ProcessInitialState K TM timestamp_ns tid state_char v).fault = none := by
  unfold ProcessInitialState
  split
  · rfl
  · split <;> rfl

theorem VisitTaskNewtaskPerfEvent_fault (K : Constants) (TM : ThreadStateManager τ)
    (event : TaskNewtaskPerfEvent) (v : SwitchesStatesNamesVisitor σ τ)
    (hv : v.listener_ = true) :
    (VisitTaskNewtaskPerfEvent K TM event v).fault = none := by
  unfold VisitTaskNewtaskPerfEvent
  dsimp only
  rw [if_neg (by simp [hv])]
  split <;> rfl

theorem VisitTaskRenamePerfEvent_fault (event : TaskRenamePerfEvent)
    (v : SwitchesStatesNamesVisitor σ τ) (hv : v.listener_ = true) :
    (VisitTaskRenamePerfEvent event v).fault = none := by
  unfold VisitTaskRenamePerfEvent
  dsimp only
  rw [if_neg (by simp [hv])]

end SwitchesStatesNamesVisitor

/-! ## Lemmas about event streams -/

open SwitchesStatesNamesVisitor in
theorem step_fault {σ τ : Type} (K : Constants) (SM : ContextSwitchManager σ)
    (TM : ThreadStateManager τ) (op : Operation) (v : SwitchesStatesNamesVisitor σ τ)
    (hv : v.listener_ = true) : (step K SM TM op v).fault = none := by
  cases op with
  | ProcessInitialTidToPidAssociation tid pid => rfl
  | Fork event => rfl
  | Exit event => rfl
  | NewTask event => exact VisitTaskNewtaskPerfEvent_fault K TM event v hv
  | Rename event => exact VisitTaskRenamePerfEvent_fault event v hv
  | SchedSwitch event => exact VisitSchedSwitchPerfEvent_fault K SM TM event v hv
  | SchedWakeup event => exact VisitSchedWakeupPerfEvent_fault K TM event v hv
  | ProcessInitialState timestamp_ns tid state_char =>
    exact ProcessInitialState_fault K TM timestamp_ns tid state_char v
  | ProcessRemainingOpenStates timestamp_ns =>
    exact ProcessRemainingOpenStates_fault TM timestamp_ns v hv

open SwitchesStatesNamesVisitor in
theorem step_sameConfiguration {σ τ : Type} (K : Constants) (SM : ContextSwitchManager σ)
    (TM : ThreadStateManager τ) (op : Operation) (v : SwitchesStatesNamesVisitor σ τ) :
    SameConfiguration v (step K SM TM op v).visitor := by
  cases op with
  | ProcessInitialTidToPidAssociation tid pid => exact ⟨rfl, rfl, rfl⟩
  | Fork event => exact ⟨rfl, rfl, rfl⟩
  | Exit event => exact ⟨rfl, rfl, rfl⟩
  | NewTask event => exact (VisitTaskNewtaskPerfEvent_frame K TM event v).toSameConfiguration
  | Rename event => exact (VisitTaskRenamePerfEvent_frame event v).toSameConfiguration
  | SchedSwitch event => exact (VisitSchedSwitchPerfEvent_frame K SM TM event v).toSameConfiguration
  | SchedWakeup event => exact (VisitSchedWakeupPerfEvent_frame K TM event v).toSameConfiguration
  | ProcessInitialState timestamp_ns tid state_char =>
    exact (ProcessInitialState_frame K TM timestamp_ns tid state_char v).toSameConfiguration
  | ProcessRemainingOpenStates timestamp_ns =>
    exact (ProcessRemainingOpenStates_frame TM timestamp_ns v).toSameConfiguration

open SwitchesStatesNamesVisitor in
theorem step_find {σ τ : Type} (K : Constants) (SM : ContextSwitchManager σ)
    (TM : ThreadStateManager τ) (op : Operation) (v : SwitchesStatesNamesVisitor σ τ)
    (tid : Int) :
    find (step K SM TM op v).visitor.tid_to_pid_association_ tid =
      match op.writes tid with
      | some pid => some pid
      | none => find v.tid_to_pid_association_ tid := by
  cases op with
  | ProcessInitialTidToPidAssociation t pid =>
    simp only [step, ProcessInitialTidToPidAssociation, Operation.writes, find_insert_or_assign]
    split_ifs <;> rfl
  | Fork event =>
    simp only [step, VisitForkPerfEvent, Operation.writes, find_insert_or_assign]
    split_ifs <;> rfl
  | Exit event =>
    simp only [step, VisitExitPerfEvent, Operation.writes, find_insert_or_assign]
    split_ifs <;> rfl
  | NewTask event =>
    simp only [step, Operation.writes, (VisitTaskNewtaskPerfEvent_frame K TM event v).2.2.2]
  | Rename event =>
    simp only [step, Operation.writes, (VisitTaskRenamePerfEvent_frame event v).2.2.2]
  | SchedSwitch event =>
    simp only [step, Operation.writes, (VisitSchedSwitchPerfEvent_frame K SM TM event v).2.2.2]
  | SchedWakeup event =>
    simp only [step, Operation.writes, (VisitSchedWakeupPerfEvent_frame K TM event v).2.2.2]
  | ProcessInitialState timestamp_ns t state_char =>
    simp only [step, Operation.writes,
      (ProcessInitialState_frame K TM timestamp_ns t state_char v).2.2.2]
  | ProcessRemainingOpenStates timestamp_ns =>
    simp only [step, Operation.writes,
      (ProcessRemainingOpenStates_frame TM timestamp_ns v).2.2.2]

theorem run_sameConfiguration {σ τ : Type} (K : Constants) (SM : ContextSwitchManager σ)
    (TM : ThreadStateManager τ) (ops : List Operation) (v : SwitchesStatesNamesVisitor σ τ) :
    SameConfiguration v (run K SM TM ops v).visitor := by
  induction ops generalizing v with
  | nil => exact ⟨rfl, rfl, rfl⟩
  | cons op ops ih =>
    simp only [run, Outcome.andThen_visitor]
    split_ifs
    · exact (step_sameConfiguration K SM TM op v).configTrans (ih _)
    · exact step_sameConfiguration K SM TM op v

theorem run_fault {σ τ : Type} (K : Constants) (SM : ContextSwitchManager σ)
    (TM : ThreadStateManager τ) (ops : List Operation) (v : SwitchesStatesNamesVisitor σ τ)
    (hv : v.listener_ = true) : (run K SM TM ops v).fault = none := by
  induction ops generalizing v with
  | nil => rfl
  | cons op ops ih =>
    simp only [run]
    exact Outcome.andThen_fault_none _ _ (step_fault K SM TM op v hv)
      (ih _ ((step_sameConfiguration K SM TM op v).1.trans hv))

/-- Without a fault, the sequence leaves for `tid` the pid of its last write,
and what was there before when it has no write for `tid`. -/
theorem run_find {σ τ : Type} (K : Constants) (SM : ContextSwitchManager σ)
    (TM : ThreadStateManager τ) (ops : List Operation) (v : SwitchesStatesNamesVisitor σ τ)
    (tid : Int) (h : (run K SM TM ops v).fault = none) :
    find (run K SM TM ops v).visitor.tid_to_pid_association_ tid =
      match lastWrite tid ops with
      | some pid => some pid
      | none => find v.tid_to_pid_association_ tid := by
  induction ops generalizing v with
  | nil => rfl
  | cons op ops ih =>
    simp only [run] at h ⊢
    by_cases hs : (step K SM TM op v).fault = none
    · rw [Outcome.andThen_of_fault_none _ _ hs] at h ⊢
      simp only at h ⊢
      rw [ih _ h, step_find]
      simp only [lastWrite]
      cases lastWrite tid ops <;> rfl
    · obtain ⟨x, hx⟩ := Option.ne_none_iff_exists'.mp hs
      rw [Outcome.andThen_of_fault_some _ _ x hx] at h
      exact absurd h hs

/-- With or without a fault, an entry that is present stays present. -/
theorem run_find_isSome {σ τ : Type} (K : Constants) (SM : ContextSwitchManager σ)
    (TM : ThreadStateManager τ) (ops : List Operation) (v : SwitchesStatesNamesVisitor σ τ)
    (tid : Int) (h : (find v.tid_to_pid_association_ tid).isSome = true) :
    (find (run K SM TM ops v).visitor.tid_to_pid_association_ tid).isSome = true := by
  induction ops generalizing v with
  | nil => exact h
  | cons op ops ih =>
    have hstep : (find (step K SM TM op v).visitor.tid_to_pid_association_ tid).isSome = true := by
      rw [step_find]
      cases op.writes tid with
      | none => exact h
      | some pid => rfl
    simp only [run, Outcome.andThen_visitor]
    split_ifs
    · exact ih _ hstep
    · exact hstep

/-- With or without a fault, a sequence without a write for `tid` leaves the
pid of `tid` as it was. -/
theorem run_find_of_no_write {σ τ : Type} (K : Constants) (SM : ContextSwitchManager σ)
    (TM : ThreadStateManager τ) (ops : List Operation) (v : SwitchesStatesNamesVisitor σ τ)
    (tid : Int) (h : ∀ op ∈ ops, op.writes tid = none) :
    find (run K SM TM ops v).visitor.tid_to_pid_association_ tid =
      find v.tid_to_pid_association_ tid := by
  induction ops generalizing v with
  | nil => rfl
  | cons op ops ih =>
    have hstep : find (step K SM TM op v).visitor.tid_to_pid_association_ tid =
        find v.tid_to_pid_association_ tid := by
      rw [step_find, h op (List.mem_cons_self op ops)]
    simp only [run, Outcome.andThen_visitor]
    split_ifs
    · rw [ih _ (fun op' hop' => h op' (List.mem_cons_of_mem op hop')), hstep]
    · exact hstep

/-! ## Lemmas about the calls of `ProcessContextSwitchOut` -/

theorem callsOfProcessContextSwitchOut_append (l1 l2 : List Effect) :
    callsOfProcessContextSwitchOut (l1 ++ l2) =
      callsOfProcessContextSwitchOut l1 ++ callsOfProcessContextSwitchOut l2 := by
  induction l1 with
  | nil => rfl
  | cons e rest ih => cases e <;> simp [callsOfProcessContextSwitchOut, ih]

theorem callsOfProcessContextSwitchOut_map_ERROR (reports : List ErrorReport) :
    callsOfProcessContextSwitchOut (reports.map Effect.ERROR) = [] := by
  induction reports with
  | nil => rfl
  | cons r rest ih => simpa [callsOfProcessContextSwitchOut] using ih

theorem callsOfProcessContextSwitchOut_andThen {σ τ : Type} (o : Outcome σ τ)
    (f : SwitchesStatesNamesVisitor σ τ → Outcome σ τ)
    (hf : ∀ w, callsOfProcessContextSwitchOut (f w).effects = []) :
    callsOfProcessContextSwitchOut (o.andThen f).effects =
      callsOfProcessContextSwitchOut o.effects := by
  rw [Outcome.andThen_effects, callsOfProcessContextSwitchOut_append]
  split_ifs
  · rw [hf, List.append_nil]
  · simp [callsOfProcessContextSwitchOut]

namespace SwitchesStatesNamesVisitor

variable {σ τ : Type}

theorem ForwardThreadStateSlice_callsOut (slice : ThreadStateSlice)
    (v : SwitchesStatesNamesVisitor σ τ) :
    callsOfProcessContextSwitchOut (ForwardThreadStateSlice slice v).effects = [] := by
  unfold ForwardThreadStateSlice
  split <;> rfl

theorem SchedSwitchInForSchedulingSlices_callsOut (SM : ContextSwitchManager σ)
    (event : SchedSwitchPerfEvent) (v : SwitchesStatesNamesVisitor σ τ) :
    callsOfProcessContextSwitchOut (SchedSwitchInForSchedulingSlices SM event v).effects = [] := by
  unfold SchedSwitchInForSchedulingSlices
  split <;> rfl

theorem SchedSwitchOutForThreadState_callsOut (K : Constants) (TM : ThreadStateManager τ)
    (event : SchedSwitchPerfEvent) (v : SwitchesStatesNamesVisitor σ τ) :
    callsOfProcessContextSwitchOut (SchedSwitchOutForThreadState K TM event v).effects = [] := by
  have hcalled : callsOfProcessContextSwitchOut
      ((GetThreadStateFromBits event.GetPrevState).2.map Effect.ERROR ++
        [Effect.OnSchedSwitchOut event.GetTimestamp event.GetPrevTid
          (GetThreadStateFromBits event.GetPrevState).1]) = [] := by
    rw [callsOfProcessContextSwitchOut_append, callsOfProcessContextSwitchOut_map_ERROR]
    rfl
  unfold SchedSwitchOutForThreadState
  split
  · dsimp only
    split
    · exact hcalled
    · rw [callsOfProcessContextSwitchOut_andThen _ _ (ForwardThreadStateSlice_callsOut _)]
      exact hcalled
  · rfl

theorem SchedSwitchInForThreadState_callsOut (K : Constants) (TM : ThreadStateManager τ)
    (event : SchedSwitchPerfEvent) (v : SwitchesStatesNamesVisitor σ τ) :
    callsOfProcessContextSwitchOut (SchedSwitchInForThreadState K TM event v).effects = [] := by
  unfold SchedSwitchInForThreadState
  split
  · dsimp only
    split
    · rfl
    · rw [callsOfProcessContextSwitchOut_andThen _ _ (ForwardThreadStateSlice_callsOut _)]
      rfl
  · rfl

theorem SchedSwitchOutForSchedulingSlices_callsOut (K : Constants) (SM : ContextSwitchManager σ)
    (event : SchedSwitchPerfEvent) (v : SwitchesStatesNamesVisitor σ τ)
    (hprod : v.produce_scheduling_slices_ = true) (hprev : event.GetPrevTid ≠ 0) :
    callsOfProcessContextSwitchOut (SchedSwitchOutForSchedulingSlices K SM event v).effects =
      [(if event.GetPrevPidOrMinusOne = -1 then (GetPidOfTid event.GetPrevTid v).getD (-1)
        else event.GetPrevPidOrMinusOne,
        event.GetPrevTid, event.GetCpu, event.GetTimestamp)] := by
  have hpid : (if event.GetPrevPidOrMinusOne = -1 then
        match GetPidOfTid event.GetPrevTid v with
        | some fallback_prev_pid => fallback_prev_pid
        | none => event.GetPrevPidOrMinusOne
      else event.GetPrevPidOrMinusOne) =
      (if event.GetPrevPidOrMinusOne = -1 then (GetPidOfTid event.GetPrevTid v).getD (-1)
        else event.GetPrevPidOrMinusOne) := by
    by_cases h : event.GetPrevPidOrMinusOne = -1
    · rw [if_pos h, if_pos h]
      cases GetPidOfTid event.GetPrevTid v with
      | none => exact h
      | some pid => rfl
    · rw [if_neg h, if_neg h]
  unfold SchedSwitchOutForSchedulingSlices
  rw [if_pos ⟨hprod, hprev⟩]
  dsimp only
  rw [hpid]
  generalize (if event.GetPrevPidOrMinusOne = -1 then
    (GetPidOfTid event.GetPrevTid v).getD (-1) else event.GetPrevPidOrMinusOne) = pid
  split
  · rfl
  · split
    · rfl
    · dsimp only
      rw [callsOfProcessContextSwitchOut_append, callsOfProcessContextSwitchOut_append]
      split <;> rfl

/-- With scheduling slices produced and a non-zero outgoing tid, a sched-switch
event calls `ProcessContextSwitchOut` once: with the pid of the event, or, when
that is -1, with the pid associated with the outgoing tid, or -1. -/
theorem VisitSchedSwitchPerfEvent_callsOut (K : Constants) (SM : ContextSwitchManager σ)
    (TM : ThreadStateManager τ) (event : SchedSwitchPerfEvent)
    (v : SwitchesStatesNamesVisitor σ τ)
    (hprod : v.produce_scheduling_slices_ = true) (hprev : event.GetPrevTid ≠ 0) :
    callsOfProcessContextSwitchOut (VisitSchedSwitchPerfEvent K SM TM event v).effects =
      [(if event.GetPrevPidOrMinusOne = -1 then (GetPidOfTid event.GetPrevTid v).getD (-1)
        else event.GetPrevPidOrMinusOne,
        event.GetPrevTid, event.GetCpu, event.GetTimestamp)] := by
  unfold VisitSchedSwitchPerfEvent
  rw [callsOfProcessContextSwitchOut_andThen _ _ (SchedSwitchInForThreadState_callsOut K TM event),
    callsOfProcessContextSwitchOut_andThen _ _ (SchedSwitchOutForThreadState_callsOut K TM event),
    callsOfProcessContextSwitchOut_andThen _ _ (SchedSwitchInForSchedulingSlices_callsOut SM event)]
  exact SchedSwitchOutForSchedulingSlices_callsOut K SM event v hprod hprev

end SwitchesStatesNamesVisitor

/-! ## Lemmas about the two sides of a context switch -/

namespace SwitchesStatesNamesVisitor

variable {σ τ : Type}

theorem ForwardThreadStateSlice_effects (slice : ThreadStateSlice)
    (v : SwitchesStatesNamesVisitor σ τ) (e : Effect)
    (he : e ∈ (ForwardThreadStateSlice slice v).effects) :
    e = Effect.OnThreadStateSlice slice := by
  unfold ForwardThreadStateSlice at he
  split at he
  · simp at he
  · simpa using he

end SwitchesStatesNamesVisitor

/-! ## Claims about the thread-state decoder -/

/-- C1: for every mask `bits`, `GetThreadStateFromBits` returns the state of the
least significant set bit among bits 0..7 (bit 0 InterruptibleSleep, bit 1
UninterruptibleSleep, bit 2 Stopped, bit 3 Traced, bit 4 Dead, bit 5 Zombie,
bit 6 Parked, bit 7 Idle), it returns Runnable exactly when `bits & 0xFF` is 0,
and the result depends only on the low 8 bits; 0 gives Runnable, 0x01 and 0x03
InterruptibleSleep, 0x80 Idle and 0x100 Runnable. The statement is over all
natural numbers, the 64-bit values among them. -/
theorem C1_GetThreadStateFromBits_least_set_bit (bits : Nat) :
    (∀ i, i < 8 → bits.testBit i = true → (∀ j, j < i → bits.testBit j = false) →
        (GetThreadStateFromBits bits).1 = stateOfBit i) ∧
    ((GetThreadStateFromBits bits).1 = ThreadState.kRunnable ↔ bits &&& 0xFF = 0) ∧
    (GetThreadStateFromBits bits).1 = (GetThreadStateFromBits (bits &&& 0xFF)).1 ∧
    (GetThreadStateFromBits 0).1 = ThreadState.kRunnable ∧
    (GetThreadStateFromBits 0x01).1 = ThreadState.kInterruptibleSleep ∧
    (GetThreadStateFromBits 0x03).1 = ThreadState.kInterruptibleSleep ∧
    (GetThreadStateFromBits 0x80).1 = ThreadState.kIdle ∧
    (GetThreadStateFromBits 0x100).1 = ThreadState.kRunnable := by
  refine ⟨?_, ?_, ?_, ?_, ?_, ?_, ?_, ?_⟩
  · intro i hi hset hlow
    rw [GetThreadStateFromBits_fst]
    have l0 := hlow 0
    have l1 := hlow 1
    have l2 := hlow 2
    have l3 := hlow 3
    have l4 := hlow 4
    have l5 := hlow 5
    have l6 := hlow 6
    interval_cases i <;> simp_all [stateOfBit]
  · rw [GetThreadStateFromBits_fst, and_0xFF_eq_zero_iff]
    constructor
    · intro h i hi
      interval_cases i <;>
        · by_contra hb
          simp only [Bool.not_eq_false] at hb
          revert h
          split_ifs <;> simp_all
    · intro h
      simp [h 0, h 1, h 2, h 3, h 4, h 5, h 6, h 7]
  · simp only [GetThreadStateFromBits_fst]
    rw [testBit_and_0xFF bits 0 (by norm_num), testBit_and_0xFF bits 1 (by norm_num),
      testBit_and_0xFF bits 2 (by norm_num), testBit_and_0xFF bits 3 (by norm_num),
      testBit_and_0xFF bits 4 (by norm_num), testBit_and_0xFF bits 5 (by norm_num),
      testBit_and_0xFF bits 6 (by norm_num), testBit_and_0xFF bits 7 (by norm_num)]
  · decide
  · decide
  · decide
  · decide
  · decide

/-- C1 at the mask 0x0C: bits 2 and 3 are set, bit 2 is the least significant
one, and the result is Stopped. -/
theorem C1_GetThreadStateFromBits_least_set_bit_witness :
    (GetThreadStateFromBits 0x0C).1 = stateOfBit 2 :=
  (C1_GetThreadStateFromBits_least_set_bit 0x0C).1 2 (by decide) (by decide) (by decide)

/-- C2: `GetThreadStateFromChar` maps 'R' to Runnable, 'S' to
InterruptibleSleep, 'D' to UninterruptibleSleep, 'T' to Stopped, 't' to Traced,
'X' to Dead, 'Z' to Zombie, 'P' to Parked and 'I' to Idle, returns none for
every other character (for example 'Q'), and no two characters are mapped to
the same state, so the nine valid characters give nine distinct states. -/
theorem C2_GetThreadStateFromChar_table :
    GetThreadStateFromChar 'R' = some ThreadState.kRunnable ∧
    GetThreadStateFromChar 'S' = some ThreadState.kInterruptibleSleep ∧
    GetThreadStateFromChar 'D' = some ThreadState.kUninterruptibleSleep ∧
    GetThreadStateFromChar 'T' = some ThreadState.kStopped ∧
    GetThreadStateFromChar 't' = some ThreadState.kTraced ∧
    GetThreadStateFromChar 'X' = some ThreadState.kDead ∧
    GetThreadStateFromChar 'Z' = some ThreadState.kZombie ∧
    GetThreadStateFromChar 'P' = some ThreadState.kParked ∧
    GetThreadStateFromChar 'I' = some ThreadState.kIdle ∧
    (∀ c : Char, c ∉ ['R', 'S', 'D', 'T', 't', 'X', 'Z', 'P', 'I'] →
      GetThreadStateFromChar c = none) ∧
    GetThreadStateFromChar 'Q' = none ∧
    (∀ (c d : Char) (s : ThreadState), GetThreadStateFromChar c = some s →
      GetThreadStateFromChar d = some s → c = d) := by
  refine ⟨rfl, rfl, rfl, rfl, rfl, rfl, rfl, rfl, rfl, ?_, rfl, ?_⟩
  · intro c hc
    simp only [List.mem_cons, List.mem_singleton, List.not_mem_nil, not_or, or_false] at hc
    obtain ⟨h1, h2, h3, h4, h5, h6, h7, h8, h9⟩ := hc
    unfold GetThreadStateFromChar
    split <;> first | rfl | contradiction
  · intro c d s hc hd
    unfold GetThreadStateFromChar at hc hd
    split at hc <;> split at hd <;> first | rfl | (cases hc; cases hd) | cases hc

/-- C2 at the character 'Q', which is none of the nine state characters. -/
theorem C2_GetThreadStateFromChar_table_witness :
    GetThreadStateFromChar 'Q' = none :=
  C2_GetThreadStateFromChar_table.2.2.2.2.2.2.2.2.2.1 'Q' (by decide)

/-! ## Claims about the tid-to-pid association and the context switch out -/

open SwitchesStatesNamesVisitor

/-- C3: for a SchedSwitch event with a non-zero outgoing tid and scheduling
slices produced, `ProcessContextSwitchOut` is called exactly once, with the
event's outgoing tid, cpu and timestamp, and with this pid: the pid carried by
the event when that is not -1, whatever the association holds for the tid; the
pid associated with the outgoing tid when the event carries -1 and one is
known; -1 when the event carries -1 and none is known. -/
theorem C3_switch_out_pid_resolution {σ τ : Type} (K : Constants)
    (SM : ContextSwitchManager σ) (TM : ThreadStateManager τ) (event : SchedSwitchPerfEvent)
    (v : SwitchesStatesNamesVisitor σ τ)
    (hprev : event.GetPrevTid ≠ 0) (hprod : v.produce_scheduling_slices_ = true) :
    (event.GetPrevPidOrMinusOne ≠ -1 →
      callsOfProcessContextSwitchOut (VisitSchedSwitchPerfEvent K SM TM event v).effects =
        [(event.GetPrevPidOrMinusOne, event.GetPrevTid, event.GetCpu, event.GetTimestamp)]) ∧
    (event.GetPrevPidOrMinusOne = -1 → ∀ pid, GetPidOfTid event.GetPrevTid v = some pid →
      callsOfProcessContextSwitchOut (VisitSchedSwitchPerfEvent K SM TM event v).effects =
        [(pid, event.GetPrevTid, event.GetCpu, event.GetTimestamp)]) ∧
    (event.GetPrevPidOrMinusOne = -1 → GetPidOfTid event.GetPrevTid v = none →
      callsOfProcessContextSwitchOut (VisitSchedSwitchPerfEvent K SM TM event v).effects =
        [(-1, event.GetPrevTid, event.GetCpu, event.GetTimestamp)]) := by
  have h := VisitSchedSwitchPerfEvent_callsOut K SM TM event v hprod hprev
  refine ⟨?_, ?_, ?_⟩
  · intro hpid
    rw [h, if_neg hpid]
  · intro hpid pid hknown
    rw [h, if_pos hpid, hknown]
    rfl
  · intro hpid hunknown
    rw [h, if_pos hpid, hunknown]
    rfl

/-- C3 at `sampleVisitor`, where tid 5 belongs to pid 7: a switch-out of tid 5
that carries pid -1 passes pid 7, and one that carries pid 9 passes pid 9. -/
theorem C3_switch_out_pid_resolution_witness :
    ((5 : Int) ≠ 0 ∧ sampleVisitor.produce_scheduling_slices_ = true) ∧
    callsOfProcessContextSwitchOut (VisitSchedSwitchPerfEvent sampleConstants
      specContextSwitchManager specThreadStateManager ⟨5, -1, 1, 6, 0, 100⟩ sampleVisitor).effects =
        [(7, 5, 0, 100)] ∧
    callsOfProcessContextSwitchOut (VisitSchedSwitchPerfEvent sampleConstants
      specContextSwitchManager specThreadStateManager ⟨5, 9, 1, 6, 0, 100⟩ sampleVisitor).effects =
        [(9, 5, 0, 100)] :=
  ⟨⟨by decide, rfl⟩,
    (C3_switch_out_pid_resolution sampleConstants specContextSwitchManager
      specThreadStateManager ⟨5, -1, 1, 6, 0, 100⟩ sampleVisitor (by decide) rfl).2.1 rfl 7 rfl,
    (C3_switch_out_pid_resolution sampleConstants specContextSwitchManager
      specThreadStateManager ⟨5, 9, 1, 6, 0, 100⟩ sampleVisitor (by decide) rfl).1 (by decide)⟩

/-- C4: after an Exit event for (pid, tid) with a non-zero tid, followed by any
operations none of which is a Fork, Exit or initial association for that tid, a
SchedSwitch event with that outgoing tid and pid -1 (scheduling slices
produced) passes exactly the pid of the Exit event to `ProcessContextSwitchOut`,
whatever the visitor held before the Exit event. -/
theorem C4_exit_then_switch_out {σ τ : Type} (K : Constants)
    (SM : ContextSwitchManager σ) (TM : ThreadStateManager τ)
    (v : SwitchesStatesNamesVisitor σ τ) (exit : ExitPerfEvent) (ops : List Operation)
    (event : SchedSwitchPerfEvent)
    (htid : exit.GetTid ≠ 0)
    (hops : ∀ op ∈ ops, op.writes exit.GetTid = none)
    (hprod : v.produce_scheduling_slices_ = true)
    (hprev : event.GetPrevTid = exit.GetTid)
    (hpid : event.GetPrevPidOrMinusOne = -1) :
    callsOfProcessContextSwitchOut
      (VisitSchedSwitchPerfEvent K SM TM event
        (run K SM TM (Operation.Exit exit :: ops) v).visitor).effects =
      [(exit.GetPid, exit.GetTid, event.GetCpu, event.GetTimestamp)] := by
  have hconf := run_sameConfiguration K SM TM (Operation.Exit exit :: ops) v
  have hfind : find (run K SM TM (Operation.Exit exit :: ops) v).visitor.tid_to_pid_association_
      exit.GetTid = some exit.GetPid := by
    have hrun : run K SM TM (Operation.Exit exit :: ops) v =
        ⟨(run K SM TM ops (VisitExitPerfEvent exit v).visitor).visitor,
          (run K SM TM ops (VisitExitPerfEvent exit v).visitor).effects,
          (run K SM TM ops (VisitExitPerfEvent exit v).visitor).fault⟩ := by
      simp only [run, step]
      rw [Outcome.andThen_of_fault_none _ _ rfl]
      simp [VisitExitPerfEvent]
    rw [hrun]
    dsimp only
    rw [run_find_of_no_write K SM TM ops _ exit.GetTid hops]
    simp [VisitExitPerfEvent, find_insert_or_assign]
  rw [VisitSchedSwitchPerfEvent_callsOut K SM TM event _ (hconf.2.1.trans hprod)
    (by rw [hprev]; exact htid)]
  rw [if_pos hpid, hprev, GetPidOfTid_eq_find, hfind]
  rfl

/-- C4 at `sampleVisitor`, where tid 5 is known with pid 7: after an Exit event
for (9, 5), a switch and a new task of other threads, the switch-out of tid 5
with pid -1 passes pid 9. -/
theorem C4_exit_then_switch_out_witness :
    ((5 : Int) ≠ 0 ∧
      (∀ op ∈ [Operation.SchedSwitch ⟨6, 8, 0, 5, 1, 50⟩, Operation.NewTask ⟨11, "worker", 60⟩],
        op.writes 5 = none) ∧
      sampleVisitor.produce_scheduling_slices_ = true) ∧
    callsOfProcessContextSwitchOut
      (VisitSchedSwitchPerfEvent sampleConstants specContextSwitchManager specThreadStateManager
        ⟨5, -1, 0x10, 6, 1, 100⟩
        (run sampleConstants specContextSwitchManager specThreadStateManager
          (Operation.Exit ⟨9, 5⟩ ::
            [Operation.SchedSwitch ⟨6, 8, 0, 5, 1, 50⟩, Operation.NewTask ⟨11, "worker", 60⟩])
          sampleVisitor).visitor).effects =
      [(9, 5, 1, 100)] :=
  ⟨⟨by decide, by decide, rfl⟩,
    C4_exit_then_switch_out sampleConstants specContextSwitchManager specThreadStateManager
      sampleVisitor ⟨9, 5⟩
      [Operation.SchedSwitch ⟨6, 8, 0, 5, 1, 50⟩, Operation.NewTask ⟨11, "worker", 60⟩]
      ⟨5, -1, 0x10, 6, 1, 100⟩ (by decide) (by decide) rfl rfl rfl⟩

/-- C5: over any finite sequence of operations (initial association, Fork, Exit,
NewTask, Rename, SchedSwitch, SchedWakeup, initial state, end of capture), with
a listener set the sequence runs to its end, and when it runs to its end
`GetPidOfTid tid` afterwards is the pid of the most recent initial association,
Fork or Exit for that tid; with no such operation it is what it was before, so
none when the visitor started with no entry for the tid. An entry that is
present is never removed. -/
theorem C5_most_recent_write_wins {σ τ : Type} (K : Constants)
    (SM : ContextSwitchManager σ) (TM : ThreadStateManager τ) (ops : List Operation)
    (v : SwitchesStatesNamesVisitor σ τ) (tid : Int) :
    (v.listener_ = true → (run K SM TM ops v).fault = none) ∧
    ((run K SM TM ops v).fault = none →
      GetPidOfTid tid (run K SM TM ops v).visitor =
        match lastWrite tid ops with
        | some pid => some pid
        | none => GetPidOfTid tid v) ∧
    ((run K SM TM ops v).fault = none → GetPidOfTid tid v = none → lastWrite tid ops = none →
      GetPidOfTid tid (run K SM TM ops v).visitor = none) ∧
    ((GetPidOfTid tid v).isSome = true →
      (GetPidOfTid tid (run K SM TM ops v).visitor).isSome = true) := by
  refine ⟨run_fault K SM TM ops v, ?_, ?_, ?_⟩
  · intro h
    rw [GetPidOfTid_eq_find, GetPidOfTid_eq_find]
    exact run_find K SM TM ops v tid h
  · intro h hnone hlast
    rw [GetPidOfTid_eq_find] at hnone ⊢
    rw [run_find K SM TM ops v tid h, hlast]
    exact hnone
  · intro h
    rw [GetPidOfTid_eq_find] at h ⊢
    exact run_find_isSome K SM TM ops v tid h

/-- C5 at `freshVisitor`: after an initial association (5, 7), a Fork (8, 5), a
switch, an Exit (9, 5), a rename and the end of the capture, tid 5 has pid 9,
the pid of the Exit event, and tid 6, never written, has none. -/
theorem C5_most_recent_write_wins_witness :
    freshVisitor.listener_ = true ∧
    GetPidOfTid 5 (run sampleConstants specContextSwitchManager specThreadStateManager
      [Operation.ProcessInitialTidToPidAssociation 5 7, Operation.Fork ⟨8, 5⟩,
        Operation.SchedSwitch ⟨5, 8, 1, 6, 0, 100⟩, Operation.Exit ⟨9, 5⟩,
        Operation.Rename ⟨5, "main", 120⟩, Operation.ProcessRemainingOpenStates 200]
      freshVisitor).visitor = some 9 ∧
    GetPidOfTid 6 (run sampleConstants specContextSwitchManager specThreadStateManager
      [Operation.ProcessInitialTidToPidAssociation 5 7, Operation.Fork ⟨8, 5⟩,
        Operation.SchedSwitch ⟨5, 8, 1, 6, 0, 100⟩, Operation.Exit ⟨9, 5⟩,
        Operation.Rename ⟨5, "main", 120⟩, Operation.ProcessRemainingOpenStates 200]
      freshVisitor).visitor = none :=
  ⟨rfl,
    (C5_most_recent_write_wins sampleConstants specContextSwitchManager specThreadStateManager
      [Operation.ProcessInitialTidToPidAssociation 5 7, Operation.Fork ⟨8, 5⟩,
        Operation.SchedSwitch ⟨5, 8, 1, 6, 0, 100⟩, Operation.Exit ⟨9, 5⟩,
        Operation.Rename ⟨5, "main", 120⟩, Operation.ProcessRemainingOpenStates 200]
      freshVisitor 5).2.1 (by decide),
    (C5_most_recent_write_wins sampleConstants specContextSwitchManager specThreadStateManager
      [Operation.ProcessInitialTidToPidAssociation 5 7, Operation.Fork ⟨8, 5⟩,
        Operation.SchedSwitch ⟨5, 8, 1, 6, 0, 100⟩, Operation.Exit ⟨9, 5⟩,
        Operation.Rename ⟨5, "main", 120⟩, Operation.ProcessRemainingOpenStates 200]
      freshVisitor 6).2.2.1 (by decide) rfl rfl⟩

/-- C6, as amended: a SchedSwitch event creates or overwrites no association
entry. After it the tid-to-pid map is what it was before, whatever outgoing pid
the event carries, so `GetPidOfTid` is unchanged for every tid; and a later
switch-out of the same non-zero tid carrying pid -1 (scheduling slices
produced) passes the pid that the map held for the tid before the first event,
or -1 when it held none. -/
theorem C6_sched_switch_keeps_association {σ τ : Type} (K : Constants)
    (SM : ContextSwitchManager σ) (TM : ThreadStateManager τ) (event : SchedSwitchPerfEvent)
    (v : SwitchesStatesNamesVisitor σ τ) :
    (VisitSchedSwitchPerfEvent K SM TM event v).visitor.tid_to_pid_association_ =
      v.tid_to_pid_association_ ∧
    (∀ tid, GetPidOfTid tid (VisitSchedSwitchPerfEvent K SM TM event v).visitor =
      GetPidOfTid tid v) ∧
    (∀ later : SchedSwitchPerfEvent, later.GetPrevTid = event.GetPrevTid →
      event.GetPrevTid ≠ 0 → later.GetPrevPidOrMinusOne = -1 →
      v.produce_scheduling_slices_ = true →
      callsOfProcessContextSwitchOut
        (VisitSchedSwitchPerfEvent K SM TM later
          (VisitSchedSwitchPerfEvent K SM TM event v).visitor).effects =
        [((GetPidOfTid event.GetPrevTid v).getD (-1), event.GetPrevTid, later.GetCpu,
          later.GetTimestamp)]) := by
  have hframe := VisitSchedSwitchPerfEvent_frame K SM TM event v
  refine ⟨hframe.2.2.2, fun tid => GetPidOfTid_of_frame hframe tid, ?_⟩
  intro later hsame hprev hpid hprod
  rw [VisitSchedSwitchPerfEvent_callsOut K SM TM later _ (hframe.2.1.trans hprod)
    (by rw [hsame]; exact hprev)]
  rw [if_pos hpid, hsame, GetPidOfTid_of_frame hframe]

/-- C6 at `freshVisitor`: after the switch-out of tid 5 with pid 7, a later
switch-out of tid 5 with pid -1 passes -1, the tid still having no entry. -/
theorem C6_sched_switch_keeps_association_witness :
    ((5 : Int) ≠ 0 ∧ freshVisitor.produce_scheduling_slices_ = true) ∧
    callsOfProcessContextSwitchOut
      (VisitSchedSwitchPerfEvent sampleConstants specContextSwitchManager specThreadStateManager
        ⟨5, -1, 1, 6, 0, 200⟩
        (VisitSchedSwitchPerfEvent sampleConstants specContextSwitchManager
          specThreadStateManager ⟨5, 7, 1, 6, 0, 100⟩ freshVisitor).visitor).effects =
      [(-1, 5, 0, 200)] :=
  ⟨⟨by decide, rfl⟩,
    (C6_sched_switch_keeps_association sampleConstants specContextSwitchManager
      specThreadStateManager ⟨5, 7, 1, 6, 0, 100⟩ freshVisitor).2.2 ⟨5, -1, 1, 6, 0, 200⟩
      rfl (by decide) rfl rfl⟩

/-- C6 as stated fails at `freshVisitor`: the SchedSwitch event carries the
known pid 7 for the outgoing tid 5, and afterwards `GetPidOfTid 5` is none, not
7; the later switch-out of tid 5 with pid -1 passes -1, not 7. -/
theorem C6_counterexample :
    (7 : Int) ≠ -1 ∧
    GetPidOfTid 5 (VisitSchedSwitchPerfEvent sampleConstants specContextSwitchManager
      specThreadStateManager ⟨5, 7, 1, 6, 0, 100⟩ freshVisitor).visitor = none ∧
    ¬ (GetPidOfTid 5 (VisitSchedSwitchPerfEvent sampleConstants specContextSwitchManager
      specThreadStateManager ⟨5, 7, 1, 6, 0, 100⟩ freshVisitor).visitor = some 7) ∧
    callsOfProcessContextSwitchOut
      (VisitSchedSwitchPerfEvent sampleConstants specContextSwitchManager specThreadStateManager
        ⟨5, -1, 1, 6, 0, 200⟩
        (VisitSchedSwitchPerfEvent sampleConstants specContextSwitchManager
          specThreadStateManager ⟨5, 7, 1, 6, 0, 100⟩ freshVisitor).visitor).effects =
      [(-1, 5, 0, 200)] := by
  refine ⟨by decide, by decide, by decide, by decide⟩

/-- C7, as amended: `Visit(ForkPerfEvent*)` reports an overwrite anomaly if and
only if the event's tid was already associated with some pid, equal to the
event's pid or not; it then reports exactly one, and none otherwise. In
particular a Fork event that repeats an already-known, identical mapping
reports one anomaly. -/
theorem C7_fork_reports_every_overwrite {σ τ : Type} (event : ForkPerfEvent)
    (v : SwitchesStatesNamesVisitor σ τ) :
    (VisitForkPerfEvent event v).effects =
      (if (GetPidOfTid event.GetTid v).isSome = true then
        [Effect.ERROR (ErrorReport.OverwritingWithForkPid event.GetTid event.GetPid)]
      else []) ∧
    ((∃ e ∈ (VisitForkPerfEvent event v).effects, e.isError = true) ↔
      ∃ pid, GetPidOfTid event.GetTid v = some pid) ∧
    (GetPidOfTid event.GetTid v = some event.GetPid →
      (VisitForkPerfEvent event v).effects =
        [Effect.ERROR (ErrorReport.OverwritingWithForkPid event.GetTid event.GetPid)]) := by
  have heff : (VisitForkPerfEvent event v).effects =
      (if (GetPidOfTid event.GetTid v).isSome = true then
        [Effect.ERROR (ErrorReport.OverwritingWithForkPid event.GetTid event.GetPid)]
      else []) := by
    simp only [VisitForkPerfEvent, insert_or_assign_snd, GetPidOfTid_eq_find]
    cases find v.tid_to_pid_association_ event.GetTid <;> simp
  refine ⟨heff, ?_, ?_⟩
  · rw [heff]
    cases h : GetPidOfTid event.GetTid v with
    | none => simp
    | some pid => simp [Effect.isError]
  · intro h
    rw [heff, h]
    rfl

/-- C7 at `sampleVisitor`, where tid 5 belongs to pid 7: the Fork event (7, 5)
repeats the mapping and reports one anomaly. -/
theorem C7_fork_reports_every_overwrite_witness :
    GetPidOfTid 5 sampleVisitor = some 7 ∧
    (VisitForkPerfEvent ⟨7, 5⟩ sampleVisitor).effects =
      [Effect.ERROR (ErrorReport.OverwritingWithForkPid 5 7)] :=
  ⟨rfl, (C7_fork_reports_every_overwrite ⟨7, 5⟩ sampleVisitor).2.2 rfl⟩

/-- C7 as stated fails at `sampleVisitor`: the Fork event (7, 5) reports an
anomaly although tid 5 was associated with no pid different from 7. -/
theorem C7_counterexample :
    ¬ ((∃ e ∈ (VisitForkPerfEvent ⟨7, 5⟩ sampleVisitor).effects, e.isError = true) ↔
      ∃ pid, GetPidOfTid 5 sampleVisitor = some pid ∧ pid ≠ 7) := by
  intro h
  have hreport : ∃ e ∈ (VisitForkPerfEvent ⟨7, 5⟩ sampleVisitor).effects, e.isError = true :=
    ⟨Effect.ERROR (ErrorReport.OverwritingWithForkPid 5 7), by decide, rfl⟩
  obtain ⟨pid, hpid, hne⟩ := h.mp hreport
  have h7 : GetPidOfTid 5 sampleVisitor = some 7 := rfl
  rw [h7] at hpid
  exact hne (Option.some.inj hpid).symm

/-- C8: `Visit(ForkPerfEvent*)` for a tid that is already associated with a
different pid reports exactly one anomaly and ends without a fault; afterwards
`GetPidOfTid` of the tid is the Fork event's pid and that of every other tid is
unchanged. -/
theorem C8_fork_overwrite_last_write_wins {σ τ : Type} (event : ForkPerfEvent)
    (v : SwitchesStatesNamesVisitor σ τ) (previous : Int)
    (hknown : GetPidOfTid event.GetTid v = some previous) (_ : previous ≠ event.GetPid) :
    (VisitForkPerfEvent event v).effects =
      [Effect.ERROR (ErrorReport.OverwritingWithForkPid event.GetTid event.GetPid)] ∧
    (VisitForkPerfEvent event v).fault = none ∧
    GetPidOfTid event.GetTid (VisitForkPerfEvent event v).visitor = some event.GetPid ∧
    (∀ tid, tid ≠ event.GetTid →
      GetPidOfTid tid (VisitForkPerfEvent event v).visitor = GetPidOfTid tid v) := by
  refine ⟨?_, rfl, ?_, ?_⟩
  · rw [GetPidOfTid_eq_find] at hknown
    simp [VisitForkPerfEvent, insert_or_assign_snd, hknown]
  · simp [GetPidOfTid_eq_find, VisitForkPerfEvent, find_insert_or_assign]
  · intro tid htid
    have hne' : ¬ event.GetTid = tid := fun h => htid h.symm
    simp [GetPidOfTid_eq_find, VisitForkPerfEvent, find_insert_or_assign, hne']

/-- C8 at `sampleVisitor`, where tid 5 belongs to pid 7 and tid 6 to pid 8: the
Fork event (9, 5) reports one anomaly, tid 5 then has pid 9 and tid 6 keeps
pid 8. -/
theorem C8_fork_overwrite_last_write_wins_witness :
    (GetPidOfTid 5 sampleVisitor = some 7 ∧ (7 : Int) ≠ 9) ∧
    (VisitForkPerfEvent ⟨9, 5⟩ sampleVisitor).effects =
      [Effect.ERROR (ErrorReport.OverwritingWithForkPid 5 9)] ∧
    GetPidOfTid 5 (VisitForkPerfEvent ⟨9, 5⟩ sampleVisitor).visitor = some 9 ∧
    GetPidOfTid 6 (VisitForkPerfEvent ⟨9, 5⟩ sampleVisitor).visitor = some 8 :=
  ⟨⟨rfl, by decide⟩,
    (C8_fork_overwrite_last_write_wins ⟨9, 5⟩ sampleVisitor 7 rfl (by decide)).1,
    (C8_fork_overwrite_last_write_wins ⟨9, 5⟩ sampleVisitor 7 rfl (by decide)).2.2.1,
    (C8_fork_overwrite_last_write_wins ⟨9, 5⟩ sampleVisitor 7 rfl (by decide)).2.2.2 6
      (by decide)⟩

/-- C9: `Visit(ExitPerfEvent*)` reports no anomaly and has no other effect,
whether the tid was unknown, known with the same pid or known with a different
pid, and ends without a fault; afterwards `GetPidOfTid` of the tid is the Exit
event's pid and that of every other tid is unchanged. -/
theorem C9_exit_is_silent {σ τ : Type} (event : ExitPerfEvent)
    (v : SwitchesStatesNamesVisitor σ τ) :
    (VisitExitPerfEvent event v).effects = [] ∧
    (VisitExitPerfEvent event v).fault = none ∧
    GetPidOfTid event.GetTid (VisitExitPerfEvent event v).visitor = some event.GetPid ∧
    (∀ tid, tid ≠ event.GetTid →
      GetPidOfTid tid (VisitExitPerfEvent event v).visitor = GetPidOfTid tid v) := by
  refine ⟨rfl, rfl, ?_, ?_⟩
  · simp [GetPidOfTid_eq_find, VisitExitPerfEvent, find_insert_or_assign]
  · intro tid htid
    have hne' : ¬ event.GetTid = tid := fun h => htid h.symm
    simp [GetPidOfTid_eq_find, VisitExitPerfEvent, find_insert_or_assign, hne']

/-- C9 at `sampleVisitor`, where tid 5 belongs to pid 7 and tid 6 to pid 8: the
Exit event (9, 5) overwrites the pid of tid 5 without a report and tid 6 keeps
pid 8. -/
theorem C9_exit_is_silent_witness :
    (6 : Int) ≠ 5 ∧
    (VisitExitPerfEvent ⟨9, 5⟩ sampleVisitor).effects = [] ∧
    GetPidOfTid 5 (VisitExitPerfEvent ⟨9, 5⟩ sampleVisitor).visitor = some 9 ∧
    GetPidOfTid 6 (VisitExitPerfEvent ⟨9, 5⟩ sampleVisitor).visitor = some 8 :=
  ⟨by decide, (C9_exit_is_silent ⟨9, 5⟩ sampleVisitor).1,
    (C9_exit_is_silent ⟨9, 5⟩ sampleVisitor).2.2.1,
    (C9_exit_is_silent ⟨9, 5⟩ sampleVisitor).2.2.2 6 (by decide)⟩

/-! ## Claims about tid 0 -/

theorem Outcome.fault_none_of_andThen {σ τ : Type} (o : Outcome σ τ)
    (f : SwitchesStatesNamesVisitor σ τ → Outcome σ τ) (h : (o.andThen f).fault = none) :
    o.fault = none := by
  rw [Outcome.andThen_fault] at h
  by_cases ho : o.fault = none
  · exact ho
  · rw [if_neg ho] at h
    exact h

theorem managerCalls_append (l1 l2 : List Effect) :
    managerCalls (l1 ++ l2) = managerCalls l1 ++ managerCalls l2 :=
  List.filter_append l1 l2

theorem managerCalls_map_ERROR (reports : List ErrorReport) :
    managerCalls (reports.map Effect.ERROR) = [] := by
  induction reports with
  | nil => rfl
  | cons r rest ih => simp [managerCalls, Effect.isManagerCall]

theorem managerCalls_andThen {σ τ : Type} (o : Outcome σ τ)
    (f : SwitchesStatesNamesVisitor σ τ → Outcome σ τ) :
    managerCalls (o.andThen f).effects =
      managerCalls o.effects ++
        (if o.fault = none then managerCalls (f o.visitor).effects else []) := by
  rw [Outcome.andThen_effects, managerCalls_append]
  split_ifs <;> rfl

namespace SwitchesStatesNamesVisitor

variable {σ τ : Type}

/-- The pid that `Visit(SchedSwitchPerfEvent*)` settles on for the outgoing
thread, written with `getD`. -/
theorem prev_pid_eq (event : SchedSwitchPerfEvent) (v : SwitchesStatesNamesVisitor σ τ) :
    (if event.GetPrevPidOrMinusOne = -1 then
        match GetPidOfTid event.GetPrevTid v with
        | some fallback_prev_pid => fallback_prev_pid
        | none => event.GetPrevPidOrMinusOne
      else event.GetPrevPidOrMinusOne) =
      (if event.GetPrevPidOrMinusOne = -1 then (GetPidOfTid event.GetPrevTid v).getD (-1)
        else event.GetPrevPidOrMinusOne) := by
  by_cases h : event.GetPrevPidOrMinusOne = -1
  · rw [if_pos h, if_pos h]
    cases GetPidOfTid event.GetPrevTid v with
    | none => exact h
    | some pid => rfl
  · rw [if_neg h, if_neg h]

theorem ForwardThreadStateSlice_managerCalls (slice : ThreadStateSlice)
    (v : SwitchesStatesNamesVisitor σ τ) :
    managerCalls (ForwardThreadStateSlice slice v).effects = [] := by
  unfold ForwardThreadStateSlice
  split <;> rfl

theorem SchedSwitchOutForSchedulingSlices_managerCalls (K : Constants)
    (SM : ContextSwitchManager σ) (event : SchedSwitchPerfEvent)
    (v : SwitchesStatesNamesVisitor σ τ) :
    managerCalls (SchedSwitchOutForSchedulingSlices K SM event v).effects =
      (if v.produce_scheduling_slices_ = true ∧ event.GetPrevTid ≠ 0 then
        [Effect.ProcessContextSwitchOut
          (if event.GetPrevPidOrMinusOne = -1 then (GetPidOfTid event.GetPrevTid v).getD (-1)
            else event.GetPrevPidOrMinusOne)
          event.GetPrevTid event.GetCpu event.GetTimestamp]
      else []) := by
  unfold SchedSwitchOutForSchedulingSlices
  by_cases hc : v.produce_scheduling_slices_ = true ∧ event.GetPrevTid ≠ 0
  · rw [if_pos hc, if_pos hc]
    dsimp only
    rw [prev_pid_eq]
    generalize (if event.GetPrevPidOrMinusOne = -1 then
      (GetPidOfTid event.GetPrevTid v).getD (-1) else event.GetPrevPidOrMinusOne) = pid
    split
    · rfl
    · split
      · rfl
      · dsimp only
        rw [managerCalls_append, managerCalls_append]
        split <;> rfl
  · rw [if_neg hc, if_neg hc]
    rfl

theorem SchedSwitchInForSchedulingSlices_managerCalls (SM : ContextSwitchManager σ)
    (event : SchedSwitchPerfEvent) (v : SwitchesStatesNamesVisitor σ τ) :
    managerCalls (SchedSwitchInForSchedulingSlices SM event v).effects =
      (if v.produce_scheduling_slices_ = true ∧ event.GetNextTid ≠ 0 then
        [Effect.ProcessContextSwitchIn (GetPidOfTid event.GetNextTid v) event.GetNextTid
          event.GetCpu event.GetTimestamp]
      else []) := by
  unfold SchedSwitchInForSchedulingSlices
  split <;> rfl

theorem SchedSwitchOutForThreadState_managerCalls (K : Constants)
    (TM : ThreadStateManager τ) (event : SchedSwitchPerfEvent)
    (v : SwitchesStatesNamesVisitor σ τ) :
    managerCalls (SchedSwitchOutForThreadState K TM event v).effects =
      (if event.GetPrevTid ≠ 0 ∧ TidMatchesPidFilter K event.GetPrevTid v = true then
        [Effect.OnSchedSwitchOut event.GetTimestamp event.GetPrevTid
          (GetThreadStateFromBits event.GetPrevState).1]
      else []) := by
  have hcalled : managerCalls
      ((GetThreadStateFromBits event.GetPrevState).2.map Effect.ERROR ++
        [Effect.OnSchedSwitchOut event.GetTimestamp event.GetPrevTid
          (GetThreadStateFromBits event.GetPrevState).1]) =
      [Effect.OnSchedSwitchOut event.GetTimestamp event.GetPrevTid
          (GetThreadStateFromBits event.GetPrevState).1] := by
    rw [managerCalls_append, managerCalls_map_ERROR]
    rfl
  unfold SchedSwitchOutForThreadState
  split
  · dsimp only
    split
    · exact hcalled
    · rw [managerCalls_andThen, ForwardThreadStateSlice_managerCalls]
      dsimp only
      rw [if_pos rfl, List.append_nil]
      exact hcalled
  · rfl

theorem SchedSwitchInForThreadState_managerCalls (K : Constants)
    (TM : ThreadStateManager τ) (event : SchedSwitchPerfEvent)
    (v : SwitchesStatesNamesVisitor σ τ) :
    managerCalls (SchedSwitchInForThreadState K TM event v).effects =
      (if event.GetNextTid ≠ 0 ∧ TidMatchesPidFilter K event.GetNextTid v = true then
        [Effect.OnSchedSwitchIn event.GetTimestamp event.GetNextTid]
      else []) := by
  unfold SchedSwitchInForThreadState
  split
  · dsimp only
    split
    · rfl
    · rw [managerCalls_andThen, ForwardThreadStateSlice_managerCalls]
      dsimp only
      rw [if_pos rfl, List.append_nil]
      rfl
  · rfl

/-- The manager calls of a sched-switch event are the expected ones, in order,
up to the block that ends in a fault; all of them when there is no fault. -/
theorem VisitSchedSwitchPerfEvent_managerCalls (K : Constants) (SM : ContextSwitchManager σ)
    (TM : ThreadStateManager τ) (event : SchedSwitchPerfEvent)
    (v : SwitchesStatesNamesVisitor σ τ) :
    ∃ rest, expectedSchedSwitchCalls K event v =
        managerCalls (VisitSchedSwitchPerfEvent K SM TM event v).effects ++ rest ∧
      ((VisitSchedSwitchPerfEvent K SM TM event v).fault = none → rest = []) := by
  have f1 := SchedSwitchOutForSchedulingSlices_frame K SM event v
  have f2 := Outcome.andThen_frame v _ _ f1 (SchedSwitchInForSchedulingSlices_frame SM event)
  have f3 := Outcome.andThen_frame v _ _ f2 (SchedSwitchOutForThreadState_frame K TM event)
  have c1 := SchedSwitchOutForSchedulingSlices_managerCalls K SM event v
  have c2 := SchedSwitchInForSchedulingSlices_managerCalls SM event
    (SchedSwitchOutForSchedulingSlices K SM event v).visitor
  rw [GetPidOfTid_of_frame f1, f1.2.1] at c2
  have c3 := SchedSwitchOutForThreadState_managerCalls K TM event
    ((SchedSwitchOutForSchedulingSlices K SM event v).andThen
      (SchedSwitchInForSchedulingSlices SM event)).visitor
  rw [TidMatchesPidFilter_of_frame f2] at c3
  have c4 := SchedSwitchInForThreadState_managerCalls K TM event
    (((SchedSwitchOutForSchedulingSlices K SM event v).andThen
      (SchedSwitchInForSchedulingSlices SM event)).andThen
      (SchedSwitchOutForThreadState K TM event)).visitor
  rw [TidMatchesPidFilter_of_frame f3] at c4
  unfold VisitSchedSwitchPerfEvent expectedSchedSwitchCalls
  rw [managerCalls_andThen, managerCalls_andThen, managerCalls_andThen, c1, c2, c3, c4]
  by_cases h1 : (SchedSwitchOutForSchedulingSlices K SM event v).fault = none
  · have h2 : ((SchedSwitchOutForSchedulingSlices K SM event v).andThen
        (SchedSwitchInForSchedulingSlices SM event)).fault = none :=
      Outcome.andThen_fault_none _ _ h1 (SchedSwitchInForSchedulingSlices_fault SM event _)
    by_cases h3 : (((SchedSwitchOutForSchedulingSlices K SM event v).andThen
        (SchedSwitchInForSchedulingSlices SM event)).andThen
        (SchedSwitchOutForThreadState K TM event)).fault = none
    · simp only [h1, h2, h3, if_true]
      exact ⟨[], (List.append_nil _).symm, fun _ => rfl⟩
    · simp only [h1, h2, h3, if_true, if_false, List.append_nil]
      exact ⟨_, rfl, fun h => absurd (Outcome.fault_none_of_andThen _ _ h) h3⟩
  · have h2 : ¬ ((SchedSwitchOutForSchedulingSlices K SM event v).andThen
        (SchedSwitchInForSchedulingSlices SM event)).fault = none :=
      fun h => h1 (Outcome.fault_none_of_andThen _ _ h)
    have h3 : ¬ (((SchedSwitchOutForSchedulingSlices K SM event v).andThen
        (SchedSwitchInForSchedulingSlices SM event)).andThen
        (SchedSwitchOutForThreadState K TM event)).fault = none :=
      fun h => h2 (Outcome.fault_none_of_andThen _ _ h)
    simp only [h1, h2, h3, if_false, List.append_nil]
    rw [List.append_assoc, List.append_assoc]
    exact ⟨_, rfl, fun h => absurd (Outcome.fault_none_of_andThen _ _ h) h3⟩

end SwitchesStatesNamesVisitor

/-! ## Claims about the dispatch of a sched-switch event -/

theorem threadStateEffects_append (l1 l2 : List Effect) :
    threadStateEffects (l1 ++ l2) = threadStateEffects l1 ++ threadStateEffects l2 :=
  List.filter_append l1 l2

theorem threadStateEffects_map_ERROR (reports : List ErrorReport) :
    threadStateEffects (reports.map Effect.ERROR) = [] := by
  induction reports with
  | nil => rfl
  | cons r rest ih =>
    simp [threadStateEffects, Effect.isThreadStateEffect, Effect.isThreadStateManagerCall,
      Effect.isThreadStateSlice]

theorem threadStateEffects_andThen {σ τ : Type} (o : Outcome σ τ)
    (f : SwitchesStatesNamesVisitor σ τ → Outcome σ τ) :
    threadStateEffects (o.andThen f).effects =
      threadStateEffects o.effects ++
        (if o.fault = none then threadStateEffects (f o.visitor).effects else []) := by
  rw [Outcome.andThen_effects, threadStateEffects_append]
  split_ifs <;> rfl

theorem threadStateEffects_eq_nil_iff (l : List Effect) :
    threadStateEffects l = [] ↔
      ∀ e ∈ l, e.isThreadStateManagerCall = false ∧ e.isThreadStateSlice = false := by
  unfold threadStateEffects
  rw [List.filter_eq_nil_iff]
  constructor
  · intro h e he
    have := h e he
    simpa [Effect.isThreadStateEffect] using this
  · intro h e he
    have := h e he
    simp [Effect.isThreadStateEffect, this.1, this.2]

namespace SwitchesStatesNamesVisitor

variable {σ τ : Type}

theorem TidMatchesPidFilter_eq_true_iff (K : Constants) (tid : Int)
    (v : SwitchesStatesNamesVisitor σ τ) :
    TidMatchesPidFilter K tid v = true ↔
      v.thread_state_pid_filter_ ≠ K.kPidFilterNoThreadState ∧
        GetPidOfTid tid v = some v.thread_state_pid_filter_ := by
  rw [GetPidOfTid_eq_find]
  unfold TidMatchesPidFilter
  by_cases hf : v.thread_state_pid_filter_ = K.kPidFilterNoThreadState
  · simp [hf]
  · rw [if_neg hf]
    cases find v.tid_to_pid_association_ tid with
    | none => simp
    | some pid => simp [hf]

theorem TidMatchesPidFilter_of_disabled (K : Constants) (tid : Int)
    (v : SwitchesStatesNamesVisitor σ τ)
    (h : v.thread_state_pid_filter_ = K.kPidFilterNoThreadState) :
    TidMatchesPidFilter K tid v = false := by
  unfold TidMatchesPidFilter
  rw [if_pos h]

theorem TidMatchesPidFilter_of_unknown (K : Constants) (tid : Int)
    (v : SwitchesStatesNamesVisitor σ τ) (h : GetPidOfTid tid v = none) :
    TidMatchesPidFilter K tid v = false := by
  rw [GetPidOfTid_eq_find] at h
  unfold TidMatchesPidFilter
  rw [h]
  split <;> rfl

theorem ProcessInitialState_of_no_match (K : Constants) (TM : ThreadStateManager τ)
    (timestamp_ns : Nat) (tid : Int) (state_char : Char) (v : SwitchesStatesNamesVisitor σ τ)
    (h : TidMatchesPidFilter K tid v = false) :
    ProcessInitialState K TM timestamp_ns tid state_char v = ⟨v, [], none⟩ := by
  unfold ProcessInitialState
  rw [if_pos (by simp [h])]

theorem VisitSchedWakeupPerfEvent_of_no_match (K : Constants) (TM : ThreadStateManager τ)
    (event : SchedWakeupPerfEvent) (v : SwitchesStatesNamesVisitor σ τ)
    (h : TidMatchesPidFilter K event.GetWokenTid v = false) :
    VisitSchedWakeupPerfEvent K TM event v = ⟨v, [], none⟩ := by
  unfold VisitSchedWakeupPerfEvent
  rw [if_pos (by simp [h])]

theorem VisitTaskNewtaskPerfEvent_of_no_match (K : Constants) (TM : ThreadStateManager τ)
    (event : TaskNewtaskPerfEvent) (v : SwitchesStatesNamesVisitor σ τ)
    (h : TidMatchesPidFilter K event.GetNewTid v = false) :
    threadStateEffects (VisitTaskNewtaskPerfEvent K TM event v).effects = [] ∧
      (VisitTaskNewtaskPerfEvent K TM event v).visitor = v := by
  unfold VisitTaskNewtaskPerfEvent
  dsimp only
  split
  · exact ⟨rfl, rfl⟩
  · rw [if_pos (by simp [h])]
    exact ⟨rfl, rfl⟩

theorem SchedSwitchOutForThreadState_of_no_match (K : Constants)
    (TM : ThreadStateManager τ) (event : SchedSwitchPerfEvent)
    (v : SwitchesStatesNamesVisitor σ τ)
    (h : TidMatchesPidFilter K event.GetPrevTid v = false) :
    SchedSwitchOutForThreadState K TM event v = ⟨v, [], none⟩ := by
  unfold SchedSwitchOutForThreadState
  rw [if_neg (by simp [h])]

theorem SchedSwitchInForThreadState_of_no_match (K : Constants)
    (TM : ThreadStateManager τ) (event : SchedSwitchPerfEvent)
    (v : SwitchesStatesNamesVisitor σ τ)
    (h : TidMatchesPidFilter K event.GetNextTid v = false) :
    SchedSwitchInForThreadState K TM event v = ⟨v, [], none⟩ := by
  unfold SchedSwitchInForThreadState
  rw [if_neg (by simp [h])]

theorem SchedSwitchOutForSchedulingSlices_threadStateEffects (K : Constants)
    (SM : ContextSwitchManager σ) (event : SchedSwitchPerfEvent)
    (v : SwitchesStatesNamesVisitor σ τ) :
    threadStateEffects (SchedSwitchOutForSchedulingSlices K SM event v).effects = [] := by
  unfold SchedSwitchOutForSchedulingSlices
  by_cases hc : v.produce_scheduling_slices_ = true ∧ event.GetPrevTid ≠ 0
  · rw [if_pos hc]
    dsimp only
    rw [prev_pid_eq]
    generalize (if event.GetPrevPidOrMinusOne = -1 then
      (GetPidOfTid event.GetPrevTid v).getD (-1) else event.GetPrevPidOrMinusOne) = pid
    split
    · rfl
    · split
      · rfl
      · dsimp only
        rw [threadStateEffects_append, threadStateEffects_append]
        split <;> rfl
  · rw [if_neg hc]
    rfl

theorem SchedSwitchInForSchedulingSlices_threadStateEffects (SM : ContextSwitchManager σ)
    (event : SchedSwitchPerfEvent) (v : SwitchesStatesNamesVisitor σ τ) :
    threadStateEffects (SchedSwitchInForSchedulingSlices SM event v).effects = [] := by
  unfold SchedSwitchInForSchedulingSlices
  split <;> rfl

/-- The thread-state effects of a sched-switch event are those of its third
and fourth block. -/
theorem VisitSchedSwitchPerfEvent_threadStateEffects (K : Constants)
    (SM : ContextSwitchManager σ) (TM : ThreadStateManager τ) (event : SchedSwitchPerfEvent)
    (v : SwitchesStatesNamesVisitor σ τ) :
    threadStateEffects (VisitSchedSwitchPerfEvent K SM TM event v).effects =
      (if ((SchedSwitchOutForSchedulingSlices K SM event v).andThen
          (SchedSwitchInForSchedulingSlices SM event)).fault = none then
        threadStateEffects (SchedSwitchOutForThreadState K TM event
          ((SchedSwitchOutForSchedulingSlices K SM event v).andThen
            (SchedSwitchInForSchedulingSlices SM event)).visitor).effects
      else []) ++
      (if (((SchedSwitchOutForSchedulingSlices K SM event v).andThen
          (SchedSwitchInForSchedulingSlices SM event)).andThen
          (SchedSwitchOutForThreadState K TM event)).fault = none then
        threadStateEffects (SchedSwitchInForThreadState K TM event
          (((SchedSwitchOutForSchedulingSlices K SM event v).andThen
            (SchedSwitchInForSchedulingSlices SM event)).andThen
            (SchedSwitchOutForThreadState K TM event)).visitor).effects
      else []) := by
  unfold VisitSchedSwitchPerfEvent
  rw [threadStateEffects_andThen, threadStateEffects_andThen, threadStateEffects_andThen,
    SchedSwitchOutForSchedulingSlices_threadStateEffects,
    SchedSwitchInForSchedulingSlices_threadStateEffects]
  simp

theorem VisitSchedSwitchPerfEvent_threadStateEffects_of_disabled (K : Constants)
    (SM : ContextSwitchManager σ) (TM : ThreadStateManager τ) (event : SchedSwitchPerfEvent)
    (v : SwitchesStatesNamesVisitor σ τ)
    (h : v.thread_state_pid_filter_ = K.kPidFilterNoThreadState) :
    threadStateEffects (VisitSchedSwitchPerfEvent K SM TM event v).effects = [] := by
  have f1 := SchedSwitchOutForSchedulingSlices_frame K SM event v
  have f2 := Outcome.andThen_frame v _ _ f1 (SchedSwitchInForSchedulingSlices_frame SM event)
  have f3 := Outcome.andThen_frame v _ _ f2 (SchedSwitchOutForThreadState_frame K TM event)
  rw [VisitSchedSwitchPerfEvent_threadStateEffects,
    SchedSwitchOutForThreadState_of_no_match K TM event _
      (TidMatchesPidFilter_of_disabled K _ _ (f2.2.2.1.trans h)),
    SchedSwitchInForThreadState_of_no_match K TM event _
      (TidMatchesPidFilter_of_disabled K _ _ (f3.2.2.1.trans h))]
  simp [threadStateEffects]

end SwitchesStatesNamesVisitor

open SwitchesStatesNamesVisitor in
theorem step_threadStateEffects_of_disabled {σ τ : Type} (K : Constants)
    (SM : ContextSwitchManager σ) (TM : ThreadStateManager τ) (op : Operation)
    (v : SwitchesStatesNamesVisitor σ τ)
    (h : v.thread_state_pid_filter_ = K.kPidFilterNoThreadState)
    (hop : op.isProcessRemainingOpenStates = false) :
    threadStateEffects (step K SM TM op v).effects = [] := by
  cases op with
  | ProcessInitialTidToPidAssociation tid pid =>
    simp only [step, ProcessInitialTidToPidAssociation]
    split <;> rfl
  | Fork event =>
    simp only [step, VisitForkPerfEvent]
    split <;> rfl
  | Exit event => rfl
  | NewTask event =>
    exact (VisitTaskNewtaskPerfEvent_of_no_match K TM event v
      (TidMatchesPidFilter_of_disabled K _ v h)).1
  | Rename event =>
    simp only [step, VisitTaskRenamePerfEvent]
    split <;> rfl
  | SchedSwitch event =>
    exact VisitSchedSwitchPerfEvent_threadStateEffects_of_disabled K SM TM event v h
  | SchedWakeup event =>
    simp only [step]
    rw [VisitSchedWakeupPerfEvent_of_no_match K TM event v
      (TidMatchesPidFilter_of_disabled K _ v h)]
    rfl
  | ProcessInitialState timestamp_ns tid state_char =>
    simp only [step]
    rw [ProcessInitialState_of_no_match K TM timestamp_ns tid state_char v
      (TidMatchesPidFilter_of_disabled K _ v h)]
    rfl
  | ProcessRemainingOpenStates timestamp_ns => exact Bool.noConfusion hop

theorem run_threadStateEffects_of_disabled {σ τ : Type} (K : Constants)
    (SM : ContextSwitchManager σ) (TM : ThreadStateManager τ) (ops : List Operation)
    (v : SwitchesStatesNamesVisitor σ τ)
    (h : v.thread_state_pid_filter_ = K.kPidFilterNoThreadState)
    (hops : ∀ op ∈ ops, op.isProcessRemainingOpenStates = false) :
    threadStateEffects (run K SM TM ops v).effects = [] := by
  induction ops generalizing v with
  | nil => rfl
  | cons op ops ih =>
    simp only [run]
    rw [threadStateEffects_andThen,
      step_threadStateEffects_of_disabled K SM TM op v h (hops op (List.mem_cons_self op ops)),
      ih _ ((step_sameConfiguration K SM TM op v).2.2.trans h)
        (fun op' hop' => hops op' (List.mem_cons_of_mem op hop'))]
    simp

theorem mem_expectedSchedSwitchCalls {σ τ : Type} (K : Constants)
    (event : SchedSwitchPerfEvent) (v : SwitchesStatesNamesVisitor σ τ) (e : Effect)
    (he : e ∈ expectedSchedSwitchCalls K event v) :
    (e = Effect.ProcessContextSwitchOut
        (if event.GetPrevPidOrMinusOne = -1 then (GetPidOfTid event.GetPrevTid v).getD (-1)
          else event.GetPrevPidOrMinusOne)
        event.GetPrevTid event.GetCpu event.GetTimestamp ∧
      v.produce_scheduling_slices_ = true ∧ event.GetPrevTid ≠ 0) ∨
    (e = Effect.ProcessContextSwitchIn (GetPidOfTid event.GetNextTid v) event.GetNextTid
        event.GetCpu event.GetTimestamp ∧
      v.produce_scheduling_slices_ = true ∧ event.GetNextTid ≠ 0) ∨
    (e = Effect.OnSchedSwitchOut event.GetTimestamp event.GetPrevTid
        (GetThreadStateFromBits event.GetPrevState).1 ∧
      event.GetPrevTid ≠ 0 ∧ TidMatchesPidFilter K event.GetPrevTid v = true) ∨
    (e = Effect.OnSchedSwitchIn event.GetTimestamp event.GetNextTid ∧
      event.GetNextTid ≠ 0 ∧ TidMatchesPidFilter K event.GetNextTid v = true) := by
  unfold expectedSchedSwitchCalls at he
  simp only [List.mem_append] at he
  rcases he with ((h1 | h2) | h3) | h4
  · by_cases hc : v.produce_scheduling_slices_ = true ∧ event.GetPrevTid ≠ 0
    · rw [if_pos hc] at h1
      exact Or.inl ⟨List.mem_singleton.mp h1, hc⟩
    · rw [if_neg hc] at h1
      simp at h1
  · by_cases hc : v.produce_scheduling_slices_ = true ∧ event.GetNextTid ≠ 0
    · rw [if_pos hc] at h2
      exact Or.inr (Or.inl ⟨List.mem_singleton.mp h2, hc⟩)
    · rw [if_neg hc] at h2
      simp at h2
  · by_cases hc : event.GetPrevTid ≠ 0 ∧ TidMatchesPidFilter K event.GetPrevTid v = true
    · rw [if_pos hc] at h3
      exact Or.inr (Or.inr (Or.inl ⟨List.mem_singleton.mp h3, hc⟩))
    · rw [if_neg hc] at h3
      simp at h3
  · by_cases hc : event.GetNextTid ≠ 0 ∧ TidMatchesPidFilter K event.GetNextTid v = true
    · rw [if_pos hc] at h4
      exact Or.inr (Or.inr (Or.inr ⟨List.mem_singleton.mp h4, hc⟩))
    · rw [if_neg hc] at h4
      simp at h4

/-- Every manager call among the effects of a sched-switch event is one of the
expected calls, so its condition held. -/
theorem VisitSchedSwitchPerfEvent_managerCall_mem {σ τ : Type} (K : Constants)
    (SM : ContextSwitchManager σ) (TM : ThreadStateManager τ) (event : SchedSwitchPerfEvent)
    (v : SwitchesStatesNamesVisitor σ τ) (e : Effect)
    (he : e ∈ (VisitSchedSwitchPerfEvent K SM TM event v).effects)
    (hm : e.isManagerCall = true) : e ∈ expectedSchedSwitchCalls K event v := by
  obtain ⟨rest, hrest, _⟩ := VisitSchedSwitchPerfEvent_managerCalls K SM TM event v
  rw [hrest]
  exact List.mem_append_left _ (List.mem_filter.mpr ⟨he, hm⟩)

/-! ## Claims about the pid filter -/

/-- C12: when the pid filter is disabled, `TidMatchesPidFilter` is false for
every tid, whatever the association holds; no operation other than the end of
the capture (so no initial-state, new-task, sched-switch or wakeup event) calls
into the thread-state manager or hands a thread-state slice to the listener,
and neither does any sequence of such operations. -/
theorem C12_filter_disabled {σ τ : Type} (K : Constants)
    (SM : ContextSwitchManager σ) (TM : ThreadStateManager τ)
    (v : SwitchesStatesNamesVisitor σ τ)
    (hdisabled : v.thread_state_pid_filter_ = K.kPidFilterNoThreadState) :
    (∀ tid, TidMatchesPidFilter K tid v = false) ∧
    (∀ op : Operation, op.isProcessRemainingOpenStates = false →
      ∀ e ∈ (step K SM TM op v).effects,
        e.isThreadStateManagerCall = false ∧ e.isThreadStateSlice = false) ∧
    (∀ ops : List Operation,
      (∀ op ∈ ops, op.isProcessRemainingOpenStates = false) →
      ∀ e ∈ (run K SM TM ops v).effects,
        e.isThreadStateManagerCall = false ∧ e.isThreadStateSlice = false) := by
  refine ⟨fun tid => TidMatchesPidFilter_of_disabled K tid v hdisabled, ?_, ?_⟩
  · intro op hop
    exact (threadStateEffects_eq_nil_iff _).mp
      (step_threadStateEffects_of_disabled K SM TM op v hdisabled hop)
  · intro ops hops
    exact (threadStateEffects_eq_nil_iff _).mp
      (run_threadStateEffects_of_disabled K SM TM ops v hdisabled hops)

/-- C12 at `disabledFilterVisitor`, in which tid 5 is associated with the pid -1
that stands for the disabled filter: tid 5 does not pass, and the
sequence initial state, new task, switch out, wakeup, switch in of tid 5 makes
no `OnSchedSwitchOut` call. -/
theorem C12_filter_disabled_witness :
    disabledFilterVisitor.thread_state_pid_filter_ =
      sampleConstants.kPidFilterNoThreadState ∧
    TidMatchesPidFilter sampleConstants 5
      disabledFilterVisitor = false ∧
    ∀ e ∈ (run sampleConstants specContextSwitchManager specThreadStateManager
        [Operation.ProcessInitialState 10 5 'S', Operation.NewTask ⟨5, "worker", 20⟩,
          Operation.SchedSwitch ⟨5, -1, 1, 6, 0, 100⟩, Operation.SchedWakeup ⟨5, 150⟩,
          Operation.SchedSwitch ⟨6, 8, 0, 5, 0, 200⟩]
        disabledFilterVisitor).effects,
      e.isThreadStateManagerCall = false ∧ e.isThreadStateSlice = false :=
  ⟨rfl,
    (C12_filter_disabled sampleConstants specContextSwitchManager specThreadStateManager
      disabledFilterVisitor rfl).1 5,
    (C12_filter_disabled sampleConstants specContextSwitchManager specThreadStateManager
      disabledFilterVisitor rfl).2.2
      [Operation.ProcessInitialState 10 5 'S', Operation.NewTask ⟨5, "worker", 20⟩,
        Operation.SchedSwitch ⟨5, -1, 1, 6, 0, 100⟩, Operation.SchedWakeup ⟨5, 150⟩,
        Operation.SchedSwitch ⟨6, 8, 0, 5, 0, 200⟩]
      (by decide)⟩

/-- C13: with a specific pid as filter, `TidMatchesPidFilter` is true exactly
when the tid has an association and the associated pid is the filter pid. A tid
without an association never passes and its state events are dropped: an
initial state and a wakeup of the tid do nothing, a new task of the tid makes no
call into the thread-state manager, and a SchedSwitch event makes no
`OnSchedSwitchOut` call when the tid is the outgoing one and no
`OnSchedSwitchIn` call when it is the incoming one. -/
theorem C13_filter_specific_pid {σ τ : Type} (K : Constants)
    (SM : ContextSwitchManager σ) (TM : ThreadStateManager τ)
    (v : SwitchesStatesNamesVisitor σ τ) (tid : Int)
    (hspecific : v.thread_state_pid_filter_ ≠ K.kPidFilterNoThreadState) :
    (TidMatchesPidFilter K tid v = true ↔
      GetPidOfTid tid v = some v.thread_state_pid_filter_) ∧
    (GetPidOfTid tid v = none →
      TidMatchesPidFilter K tid v = false ∧
      (∀ timestamp_ns state_char,
        ProcessInitialState K TM timestamp_ns tid state_char v = ⟨v, [], none⟩) ∧
      (∀ timestamp_ns, VisitSchedWakeupPerfEvent K TM ⟨tid, timestamp_ns⟩ v = ⟨v, [], none⟩) ∧
      (∀ comm timestamp_ns,
        ∀ e ∈ (VisitTaskNewtaskPerfEvent K TM ⟨tid, comm, timestamp_ns⟩ v).effects,
          e.isThreadStateManagerCall = false ∧ e.isThreadStateSlice = false) ∧
      (∀ event : SchedSwitchPerfEvent, event.GetPrevTid = tid →
        ∀ timestamp_ns t state, Effect.OnSchedSwitchOut timestamp_ns t state ∉
          (VisitSchedSwitchPerfEvent K SM TM event v).effects) ∧
      (∀ event : SchedSwitchPerfEvent, event.GetNextTid = tid →
        ∀ timestamp_ns t, Effect.OnSchedSwitchIn timestamp_ns t ∉
          (VisitSchedSwitchPerfEvent K SM TM event v).effects)) := by
  constructor
  · rw [TidMatchesPidFilter_eq_true_iff]
    exact ⟨fun h => h.2, fun h => ⟨hspecific, h⟩⟩
  · intro hunknown
    have hno := TidMatchesPidFilter_of_unknown K tid v hunknown
    refine ⟨hno, ?_, ?_, ?_, ?_, ?_⟩
    · intro timestamp_ns state_char
      exact ProcessInitialState_of_no_match K TM timestamp_ns tid state_char v hno
    · intro timestamp_ns
      exact VisitSchedWakeupPerfEvent_of_no_match K TM ⟨tid, timestamp_ns⟩ v hno
    · intro comm timestamp_ns
      exact (threadStateEffects_eq_nil_iff _).mp
        (VisitTaskNewtaskPerfEvent_of_no_match K TM ⟨tid, comm, timestamp_ns⟩ v hno).1
    · intro event hprev timestamp_ns t state hmem
      have hexp := VisitSchedSwitchPerfEvent_managerCall_mem K SM TM event v _ hmem rfl
      rcases mem_expectedSchedSwitchCalls K event v _ hexp with h | h | h | h
      · exact Effect.noConfusion h.1
      · exact Effect.noConfusion h.1
      · rw [hprev, hno] at h
        exact Bool.noConfusion h.2.2
      · exact Effect.noConfusion h.1
    · intro event hnext timestamp_ns t hmem
      have hexp := VisitSchedSwitchPerfEvent_managerCall_mem K SM TM event v _ hmem rfl
      rcases mem_expectedSchedSwitchCalls K event v _ hexp with h | h | h | h
      · exact Effect.noConfusion h.1
      · exact Effect.noConfusion h.1
      · exact Effect.noConfusion h.1
      · rw [hnext, hno] at h
        exact Bool.noConfusion h.2.2

/-- C13 at `sampleVisitor`, whose filter is pid 7: tid 5 (pid 7) passes, tid 6
(pid 8) does not, and tid 9, which has no association, does not pass and its
initial state is dropped. -/
theorem C13_filter_specific_pid_witness :
    (sampleVisitor.thread_state_pid_filter_ ≠ sampleConstants.kPidFilterNoThreadState ∧
      GetPidOfTid 5 sampleVisitor = some sampleVisitor.thread_state_pid_filter_ ∧
      GetPidOfTid 9 sampleVisitor = none) ∧
    TidMatchesPidFilter sampleConstants 5 sampleVisitor = true ∧
    TidMatchesPidFilter sampleConstants 9 sampleVisitor = false ∧
    ProcessInitialState sampleConstants specThreadStateManager 10 9 'S' sampleVisitor =
      ⟨sampleVisitor, [], none⟩ :=
  ⟨⟨by decide, rfl, rfl⟩,
    (C13_filter_specific_pid sampleConstants specContextSwitchManager specThreadStateManager
      sampleVisitor 5 (by decide)).1.mpr rfl,
    ((C13_filter_specific_pid sampleConstants specContextSwitchManager specThreadStateManager
      sampleVisitor 9 (by decide)).2 rfl).1,
    ((C13_filter_specific_pid sampleConstants specContextSwitchManager specThreadStateManager
      sampleVisitor 9 (by decide)).2 rfl).2.1 10 'S'⟩

/-! ## Lemmas about the independence of the thread-state side -/

theorem SameThreadStateSide.sideRefl {σ τ : Type} (v : SwitchesStatesNamesVisitor σ τ) :
    SameThreadStateSide v v :=
  ⟨rfl, rfl, rfl, rfl, rfl⟩

theorem SameThreadStateSide.sideSymm {σ τ : Type} {v w : SwitchesStatesNamesVisitor σ τ}
    (h : SameThreadStateSide v w) : SameThreadStateSide w v :=
  ⟨h.1.symm, h.2.1.symm, h.2.2.1.symm, h.2.2.2.1.symm, h.2.2.2.2.symm⟩

theorem SameThreadStateSide.sideTrans {σ τ : Type} {u v w : SwitchesStatesNamesVisitor σ τ}
    (h1 : SameThreadStateSide u v) (h2 : SameThreadStateSide v w) : SameThreadStateSide u w :=
  ⟨h2.1.trans h1.1, h2.2.1.trans h1.2.1, h2.2.2.1.trans h1.2.2.1,
    h2.2.2.2.1.trans h1.2.2.2.1, h2.2.2.2.2.trans h1.2.2.2.2⟩

theorem SameThreadStateOutcome.andThen_sameSide {σ τ : Type} {o o' : Outcome σ τ}
    {f g : SwitchesStatesNamesVisitor σ τ → Outcome σ τ}
    (ho : SameThreadStateOutcome o o')
    (hf : ∀ v w, SameThreadStateSide v w → SameThreadStateOutcome (f v) (g w)) :
    SameThreadStateOutcome (o.andThen f) (o'.andThen g) := by
  obtain ⟨he, hfault, hv⟩ := ho
  obtain ⟨he2, hfault2, hv2⟩ := hf o.visitor o'.visitor hv
  refine ⟨?_, ?_, ?_⟩
  · rw [threadStateEffects_andThen, threadStateEffects_andThen, he, hfault, he2]
  · rw [Outcome.andThen_fault, Outcome.andThen_fault, hfault, hfault2]
  · rw [Outcome.andThen_visitor, Outcome.andThen_visitor, hfault]
    split
    · exact hv2
    · exact hv

namespace SwitchesStatesNamesVisitor

variable {σ τ : Type}

theorem TidMatchesPidFilter_of_sameThreadStateSide {v w : SwitchesStatesNamesVisitor σ τ}
    (h : SameThreadStateSide v w) (K : Constants) (tid : Int) :
    TidMatchesPidFilter K tid w = TidMatchesPidFilter K tid v := by
  unfold TidMatchesPidFilter
  rw [h.2.2.1, h.2.2.2.1]

theorem ForwardThreadStateSlice_sameThreadStateSide (slice : ThreadStateSlice)
    (v w : SwitchesStatesNamesVisitor σ τ) (h : SameThreadStateSide v w) :
    SameThreadStateOutcome (ForwardThreadStateSlice slice v) (ForwardThreadStateSlice slice w) := by
  unfold ForwardThreadStateSlice
  rw [h.1, h.2.1]
  split
  · exact ⟨rfl, rfl, h⟩
  · exact ⟨rfl, rfl, rfl, rfl, h.2.2.1, h.2.2.2.1, h.2.2.2.2⟩

theorem SchedSwitchOutForThreadState_sameThreadStateSide (K : Constants)
    (TM : ThreadStateManager τ) (event : SchedSwitchPerfEvent)
    (v w : SwitchesStatesNamesVisitor σ τ) (h : SameThreadStateSide v w) :
    SameThreadStateOutcome (SchedSwitchOutForThreadState K TM event v)
      (SchedSwitchOutForThreadState K TM event w) := by
  unfold SchedSwitchOutForThreadState
  rw [TidMatchesPidFilter_of_sameThreadStateSide h, h.2.2.2.2]
  split
  · dsimp only
    split
    · exact ⟨rfl, rfl, h.1, h.2.1, h.2.2.1, h.2.2.2.1, rfl⟩
    · exact SameThreadStateOutcome.andThen_sameSide ⟨rfl, rfl, h.1, h.2.1, h.2.2.1, h.2.2.2.1, rfl⟩
        (ForwardThreadStateSlice_sameThreadStateSide _)
  · exact ⟨rfl, rfl, h⟩

theorem SchedSwitchInForThreadState_sameThreadStateSide (K : Constants)
    (TM : ThreadStateManager τ) (event : SchedSwitchPerfEvent)
    (v w : SwitchesStatesNamesVisitor σ τ) (h : SameThreadStateSide v w) :
    SameThreadStateOutcome (SchedSwitchInForThreadState K TM event v)
      (SchedSwitchInForThreadState K TM event w) := by
  unfold SchedSwitchInForThreadState
  rw [TidMatchesPidFilter_of_sameThreadStateSide h, h.2.2.2.2]
  split
  · dsimp only
    split
    · exact ⟨rfl, rfl, h.1, h.2.1, h.2.2.1, h.2.2.2.1, rfl⟩
    · exact SameThreadStateOutcome.andThen_sameSide ⟨rfl, rfl, h.1, h.2.1, h.2.2.1, h.2.2.2.1, rfl⟩
        (ForwardThreadStateSlice_sameThreadStateSide _)
  · exact ⟨rfl, rfl, h⟩

theorem SchedSwitchOutForSchedulingSlices_sameThreadStateSide (K : Constants)
    (SM : ContextSwitchManager σ) (event : SchedSwitchPerfEvent)
    (v : SwitchesStatesNamesVisitor σ τ) :
    SameThreadStateSide v (SchedSwitchOutForSchedulingSlices K SM event v).visitor := by
  unfold SchedSwitchOutForSchedulingSlices
  by_cases hc : v.produce_scheduling_slices_ = true ∧ event.GetPrevTid ≠ 0
  · rw [if_pos hc]
    dsimp only
    split
    · exact ⟨rfl, rfl, rfl, rfl, rfl⟩
    · split <;> exact ⟨rfl, rfl, rfl, rfl, rfl⟩
  · rw [if_neg hc]
    exact ⟨rfl, rfl, rfl, rfl, rfl⟩

theorem SchedSwitchInForSchedulingSlices_sameThreadStateSide (SM : ContextSwitchManager σ)
    (event : SchedSwitchPerfEvent) (v : SwitchesStatesNamesVisitor σ τ) :
    SameThreadStateSide v (SchedSwitchInForSchedulingSlices SM event v).visitor := by
  unfold SchedSwitchInForSchedulingSlices
  split <;> exact ⟨rfl, rfl, rfl, rfl, rfl⟩

/-- With a listener set, the thread-state side of a sched-switch event is the
same for two visitors that agree on the thread-state side, whatever their
`produce_scheduling_slices_` and `switch_manager_` are. -/
theorem VisitSchedSwitchPerfEvent_sameThreadStateSide (K : Constants)
    (SM : ContextSwitchManager σ) (TM : ThreadStateManager τ) (event : SchedSwitchPerfEvent)
    (v w : SwitchesStatesNamesVisitor σ τ) (h : SameThreadStateSide v w)
    (hl : v.listener_ = true) :
    SameThreadStateOutcome (VisitSchedSwitchPerfEvent K SM TM event v)
      (VisitSchedSwitchPerfEvent K SM TM event w) := by
  have hlw : w.listener_ = true := h.1.trans hl
  have h1 : SameThreadStateOutcome (SchedSwitchOutForSchedulingSlices K SM event v)
      (SchedSwitchOutForSchedulingSlices K SM event w) := by
    refine ⟨?_, ?_, ?_⟩
    · rw [SchedSwitchOutForSchedulingSlices_threadStateEffects,
        SchedSwitchOutForSchedulingSlices_threadStateEffects]
    · rw [SchedSwitchOutForSchedulingSlices_fault K SM event v hl,
        SchedSwitchOutForSchedulingSlices_fault K SM event w hlw]
    · exact ((SchedSwitchOutForSchedulingSlices_sameThreadStateSide K SM event v).sideSymm.sideTrans
        h).sideTrans (SchedSwitchOutForSchedulingSlices_sameThreadStateSide K SM event w)
  have h2 : ∀ v' w' : SwitchesStatesNamesVisitor σ τ, SameThreadStateSide v' w' →
      SameThreadStateOutcome (SchedSwitchInForSchedulingSlices SM event v')
        (SchedSwitchInForSchedulingSlices SM event w') := by
    intro v' w' h'
    refine ⟨?_, ?_, ?_⟩
    · rw [SchedSwitchInForSchedulingSlices_threadStateEffects,
        SchedSwitchInForSchedulingSlices_threadStateEffects]
    · rw [SchedSwitchInForSchedulingSlices_fault, SchedSwitchInForSchedulingSlices_fault]
    · exact ((SchedSwitchInForSchedulingSlices_sameThreadStateSide SM event v').sideSymm.sideTrans
        h').sideTrans (SchedSwitchInForSchedulingSlices_sameThreadStateSide SM event w')
  unfold VisitSchedSwitchPerfEvent
  exact SameThreadStateOutcome.andThen_sameSide
    (SameThreadStateOutcome.andThen_sameSide (SameThreadStateOutcome.andThen_sameSide h1 h2)
      (SchedSwitchOutForThreadState_sameThreadStateSide K TM event))
    (SchedSwitchInForThreadState_sameThreadStateSide K TM event)

end SwitchesStatesNamesVisitor

namespace SwitchesStatesNamesVisitor

variable {σ τ : Type}

theorem SchedSwitchOutForSchedulingSlices_of_not_produce (K : Constants)
    (SM : ContextSwitchManager σ) (event : SchedSwitchPerfEvent)
    (v : SwitchesStatesNamesVisitor σ τ) (h : v.produce_scheduling_slices_ = false) :
    SchedSwitchOutForSchedulingSlices K SM event v = ⟨v, [], none⟩ := by
  unfold SchedSwitchOutForSchedulingSlices
  rw [if_neg (by simp [h])]

theorem SchedSwitchInForSchedulingSlices_of_not_produce (SM : ContextSwitchManager σ)
    (event : SchedSwitchPerfEvent) (v : SwitchesStatesNamesVisitor σ τ)
    (h : v.produce_scheduling_slices_ = false) :
    SchedSwitchInForSchedulingSlices SM event v = ⟨v, [], none⟩ := by
  unfold SchedSwitchInForSchedulingSlices
  rw [if_neg (by simp [h])]

theorem SchedSwitchOutForThreadState_no_schedulingSliceEffect (K : Constants)
    (TM : ThreadStateManager τ) (event : SchedSwitchPerfEvent)
    (v : SwitchesStatesNamesVisitor σ τ) (e : Effect)
    (he : e ∈ (SchedSwitchOutForThreadState K TM event v).effects) :
    e.isSchedulingSliceEffect = false := by
  have hcalled : ∀ e' ∈ (GetThreadStateFromBits event.GetPrevState).2.map Effect.ERROR ++
      [Effect.OnSchedSwitchOut event.GetTimestamp event.GetPrevTid
        (GetThreadStateFromBits event.GetPrevState).1], e'.isSchedulingSliceEffect = false := by
    intro e' he'
    simp only [List.mem_append, List.mem_map, List.mem_singleton] at he'
    rcases he' with ⟨r, _, hr⟩ | he'
    · subst hr; rfl
    · subst he'; rfl
  unfold SchedSwitchOutForThreadState at he
  split at he
  · dsimp only at he
    split at he
    · exact hcalled e he
    · rcases Outcome.mem_andThen_effects _ _ e he with h | h
      · exact hcalled e h
      · rw [ForwardThreadStateSlice_effects _ _ e h]; rfl
  · simp at he

theorem SchedSwitchInForThreadState_no_schedulingSliceEffect (K : Constants)
    (TM : ThreadStateManager τ) (event : SchedSwitchPerfEvent)
    (v : SwitchesStatesNamesVisitor σ τ) (e : Effect)
    (he : e ∈ (SchedSwitchInForThreadState K TM event v).effects) :
    e.isSchedulingSliceEffect = false := by
  unfold SchedSwitchInForThreadState at he
  split at he
  · dsimp only at he
    split at he
    · simp only [List.mem_singleton] at he
      subst he; rfl
    · rcases Outcome.mem_andThen_effects _ _ e he with h | h
      · simp only [List.mem_singleton] at h
        subst h; rfl
      · rw [ForwardThreadStateSlice_effects _ _ e h]; rfl
  · simp at he

/-- Without scheduling-slice production a sched-switch event has no effect of
the scheduling-slice side. -/
theorem VisitSchedSwitchPerfEvent_no_schedulingSliceEffect (K : Constants)
    (SM : ContextSwitchManager σ) (TM : ThreadStateManager τ) (event : SchedSwitchPerfEvent)
    (v : SwitchesStatesNamesVisitor σ τ) (hoff : v.produce_scheduling_slices_ = false)
    (e : Effect) (he : e ∈ (VisitSchedSwitchPerfEvent K SM TM event v).effects) :
    e.isSchedulingSliceEffect = false := by
  have f1 := SchedSwitchOutForSchedulingSlices_frame K SM event v
  unfold VisitSchedSwitchPerfEvent at he
  rcases Outcome.mem_andThen_effects _ _ e he with h3 | h4
  · rcases Outcome.mem_andThen_effects _ _ e h3 with h2 | h3
    · rcases Outcome.mem_andThen_effects _ _ e h2 with h1 | h2
      · rw [SchedSwitchOutForSchedulingSlices_of_not_produce K SM event v hoff] at h1
        simp at h1
      · rw [SchedSwitchInForSchedulingSlices_of_not_produce SM event _ (f1.2.1.trans hoff)] at h2
        simp at h2
    · exact SchedSwitchOutForThreadState_no_schedulingSliceEffect K TM event _ e h3
  · exact SchedSwitchInForThreadState_no_schedulingSliceEffect K TM event _ e h4

end SwitchesStatesNamesVisitor

/-! ## Claims about the configuration of scheduling slices -/

/-- C14: when scheduling-slice production is disabled, a SchedSwitch event makes
no `ProcessContextSwitchOut` or `ProcessContextSwitchIn` call and hands no
scheduling slice to the listener; and, a listener being set, its calls into the
thread-state manager and the thread-state slices it hands over are, in order,
exactly those of the same event on the same visitor with production enabled,
and it leaves the same `state_manager_` and counter. -/
theorem C14_scheduling_slices_disabled {σ τ : Type} (K : Constants)
    (SM : ContextSwitchManager σ) (TM : ThreadStateManager τ) (event : SchedSwitchPerfEvent)
    (v : SwitchesStatesNamesVisitor σ τ) (hoff : v.produce_scheduling_slices_ = false) :
    (∀ e ∈ (VisitSchedSwitchPerfEvent K SM TM event v).effects,
      e.isSchedulingSliceEffect = false) ∧
    (v.listener_ = true →
      threadStateEffects (VisitSchedSwitchPerfEvent K SM TM event v).effects =
        threadStateEffects (VisitSchedSwitchPerfEvent K SM TM event
          { v with produce_scheduling_slices_ := true }).effects ∧
      (VisitSchedSwitchPerfEvent K SM TM event v).visitor.state_manager_ =
        (VisitSchedSwitchPerfEvent K SM TM event
          { v with produce_scheduling_slices_ := true }).visitor.state_manager_ ∧
      (VisitSchedSwitchPerfEvent K SM TM event v).visitor.thread_state_counter_ =
        (VisitSchedSwitchPerfEvent K SM TM event
          { v with produce_scheduling_slices_ := true }).visitor.thread_state_counter_) := by
  refine ⟨VisitSchedSwitchPerfEvent_no_schedulingSliceEffect K SM TM event v hoff, ?_⟩
  intro hl
  obtain ⟨he, _, hv⟩ := VisitSchedSwitchPerfEvent_sameThreadStateSide K SM TM event v
    { v with produce_scheduling_slices_ := true } ⟨rfl, rfl, rfl, rfl, rfl⟩ hl
  exact ⟨he.symm, hv.2.2.2.2.symm, hv.2.1.symm⟩

/-- C14 at `sampleVisitor` with production disabled: the switch from tid 5
(state mask 1) to tid 6 makes `OnSchedSwitchOut` its only manager call and hands
over the Runnable slice of tid 5, as with production enabled, and nothing of
the scheduling-slice side. -/
theorem C14_scheduling_slices_disabled_witness :
    ({ sampleVisitor with produce_scheduling_slices_ := false } :
      SwitchesStatesNamesVisitor (List (Nat × (Int × Int × Nat)))
        (List (Int × (ThreadState × Nat)))).listener_ = true ∧
    threadStateEffects (VisitSchedSwitchPerfEvent sampleConstants specContextSwitchManager
      specThreadStateManager ⟨5, -1, 1, 6, 0, 100⟩
      { sampleVisitor with produce_scheduling_slices_ := false }).effects =
    threadStateEffects (VisitSchedSwitchPerfEvent sampleConstants specContextSwitchManager
      specThreadStateManager ⟨5, -1, 1, 6, 0, 100⟩ sampleVisitor).effects ∧
    ∀ e ∈ (VisitSchedSwitchPerfEvent sampleConstants specContextSwitchManager
      specThreadStateManager ⟨5, -1, 1, 6, 0, 100⟩
      { sampleVisitor with produce_scheduling_slices_ := false }).effects,
      e.isSchedulingSliceEffect = false :=
  ⟨rfl,
    ((C14_scheduling_slices_disabled sampleConstants specContextSwitchManager
      specThreadStateManager ⟨5, -1, 1, 6, 0, 100⟩
      { sampleVisitor with produce_scheduling_slices_ := false } rfl).2 rfl).1,
    (C14_scheduling_slices_disabled sampleConstants specContextSwitchManager
      specThreadStateManager ⟨5, -1, 1, 6, 0, 100⟩
      { sampleVisitor with produce_scheduling_slices_ := false } rfl).1⟩

/-! ## Lemmas about wakeups and the end of the capture -/

namespace SwitchesStatesNamesVisitor

variable {σ τ : Type}

theorem ForwardThreadStateSlice_of_listener (slice : ThreadStateSlice)
    (v : SwitchesStatesNamesVisitor σ τ) (hl : v.listener_ = true) :
    (ForwardThreadStateSlice slice v).effects = [Effect.OnThreadStateSlice slice] := by
  unfold ForwardThreadStateSlice
  rw [if_neg (by simp [hl])]

theorem ForwardThreadStateSlices_of_listener (slices : List ThreadStateSlice)
    (v : SwitchesStatesNamesVisitor σ τ) (hl : v.listener_ = true) :
    (ForwardThreadStateSlices slices v).effects = slices.map Effect.OnThreadStateSlice := by
  induction slices generalizing v with
  | nil => rfl
  | cons slice rest ih =>
    simp only [ForwardThreadStateSlices, List.map_cons]
    rw [Outcome.andThen_effects, if_pos (ForwardThreadStateSlice_fault slice v hl),
      ForwardThreadStateSlice_of_listener slice v hl,
      ih _ ((ForwardThreadStateSlice_frame slice v).1.trans hl)]
    rfl

theorem forwardedThreadStateSlices_map (slices : List ThreadStateSlice) :
    forwardedThreadStateSlices (slices.map Effect.OnThreadStateSlice) = slices := by
  induction slices with
  | nil => rfl
  | cons slice rest ih => simp [forwardedThreadStateSlices, ih]

end SwitchesStatesNamesVisitor

/-! ## Claims about wakeups and the end of the capture -/

/-- C15: `Visit(SchedWakeupPerfEvent*)` does nothing when the woken tid does not
pass the pid filter: no call into the thread-state manager, nothing handed to
the listener, the visitor unchanged. When the tid passes, `OnSchedWakeup` is
called exactly once, with the event's timestamp and the woken tid; when it
returns none that call is the only effect, and when it returns a slice and a
listener is set the listener is handed exactly that slice and nothing else. In
both cases `state_manager_` is the state the call returned. -/
theorem C15_sched_wakeup {σ τ : Type} (K : Constants) (TM : ThreadStateManager τ)
    (event : SchedWakeupPerfEvent) (v : SwitchesStatesNamesVisitor σ τ) :
    (TidMatchesPidFilter K event.GetWokenTid v = false →
      VisitSchedWakeupPerfEvent K TM event v = ⟨v, [], none⟩) ∧
    (TidMatchesPidFilter K event.GetWokenTid v = true →
      (TM.OnSchedWakeup v.state_manager_ event.GetTimestamp event.GetWokenTid).1 = none →
      (VisitSchedWakeupPerfEvent K TM event v).effects =
        [Effect.OnSchedWakeup event.GetTimestamp event.GetWokenTid] ∧
      (VisitSchedWakeupPerfEvent K TM event v).fault = none ∧
      (VisitSchedWakeupPerfEvent K TM event v).visitor.state_manager_ =
        (TM.OnSchedWakeup v.state_manager_ event.GetTimestamp event.GetWokenTid).2) ∧
    (TidMatchesPidFilter K event.GetWokenTid v = true → v.listener_ = true →
      ∀ slice,
      (TM.OnSchedWakeup v.state_manager_ event.GetTimestamp event.GetWokenTid).1 = some slice →
      (VisitSchedWakeupPerfEvent K TM event v).effects =
        [Effect.OnSchedWakeup event.GetTimestamp event.GetWokenTid,
          Effect.OnThreadStateSlice slice] ∧
      (VisitSchedWakeupPerfEvent K TM event v).fault = none ∧
      (VisitSchedWakeupPerfEvent K TM event v).visitor.state_manager_ =
        (TM.OnSchedWakeup v.state_manager_ event.GetTimestamp event.GetWokenTid).2) := by
  refine ⟨VisitSchedWakeupPerfEvent_of_no_match K TM event v, ?_, ?_⟩
  · intro hmatch hnone
    unfold VisitSchedWakeupPerfEvent
    rw [if_neg (by simp [hmatch])]
    dsimp only
    rw [hnone]
    exact ⟨rfl, rfl, rfl⟩
  · intro hmatch hl slice hsome
    unfold VisitSchedWakeupPerfEvent
    rw [if_neg (by simp [hmatch])]
    dsimp only
    rw [hsome]
    dsimp only
    rw [Outcome.andThen_of_fault_none _ _ rfl]
    dsimp only
    have hl' : ({ v with state_manager_ :=
        (TM.OnSchedWakeup v.state_manager_ event.GetTimestamp event.GetWokenTid).2 } :
        SwitchesStatesNamesVisitor σ τ).listener_ = true := hl
    rw [ForwardThreadStateSlice_of_listener slice _ hl',
      ForwardThreadStateSlice_fault slice _ hl']
    refine ⟨rfl, rfl, ?_⟩
    simp [ForwardThreadStateSlice, hl]

/-- C15 at `sampleVisitor`: tid 6 (pid 8) does not pass the filter and its
wakeup does nothing; tid 5 passes and is Runnable, so `OnSchedWakeup` returns
none and the call is the only effect. -/
theorem C15_sched_wakeup_witness :
    TidMatchesPidFilter sampleConstants 6 sampleVisitor = false ∧
    VisitSchedWakeupPerfEvent sampleConstants specThreadStateManager ⟨6, 150⟩ sampleVisitor =
      ⟨sampleVisitor, [], none⟩ ∧
    TidMatchesPidFilter sampleConstants 5 sampleVisitor = true ∧
    (VisitSchedWakeupPerfEvent sampleConstants specThreadStateManager ⟨5, 150⟩
      sampleVisitor).effects = [Effect.OnSchedWakeup 150 5] :=
  ⟨rfl,
    (C15_sched_wakeup sampleConstants specThreadStateManager ⟨6, 150⟩ sampleVisitor).1 rfl,
    rfl,
    ((C15_sched_wakeup sampleConstants specThreadStateManager ⟨5, 150⟩ sampleVisitor).2.1
      rfl rfl).1⟩

/-- C16: `ProcessRemainingOpenStates` calls `OnCaptureFinished` exactly once,
with its timestamp, and makes no other manager call; with a listener set it
then hands every slice of the returned sequence to the listener exactly once,
in the returned order and unchanged, hands over nothing else, and ends without
a fault, leaving the manager state that the call returned. -/
theorem C16_remaining_open_states {σ τ : Type} (TM : ThreadStateManager τ)
    (timestamp_ns : Nat) (v : SwitchesStatesNamesVisitor σ τ) :
    managerCalls (ProcessRemainingOpenStates TM timestamp_ns v).effects =
      [Effect.OnCaptureFinished timestamp_ns] ∧
    (v.listener_ = true →
      (ProcessRemainingOpenStates TM timestamp_ns v).effects =
        Effect.OnCaptureFinished timestamp_ns ::
          (TM.OnCaptureFinished v.state_manager_ timestamp_ns).1.map Effect.OnThreadStateSlice ∧
      forwardedThreadStateSlices (ProcessRemainingOpenStates TM timestamp_ns v).effects =
        (TM.OnCaptureFinished v.state_manager_ timestamp_ns).1 ∧
      (ProcessRemainingOpenStates TM timestamp_ns v).fault = none ∧
      (ProcessRemainingOpenStates TM timestamp_ns v).visitor.state_manager_ =
        (TM.OnCaptureFinished v.state_manager_ timestamp_ns).2) := by
  constructor
  · unfold ProcessRemainingOpenStates
    dsimp only
    rw [managerCalls_andThen]
    dsimp only
    rw [if_pos rfl]
    have hnone : ∀ (slices : List ThreadStateSlice) (w : SwitchesStatesNamesVisitor σ τ),
        managerCalls (ForwardThreadStateSlices slices w).effects = [] := by
      intro slices
      induction slices with
      | nil => intro w; rfl
      | cons slice rest ih =>
        intro w
        simp only [ForwardThreadStateSlices]
        rw [managerCalls_andThen, ForwardThreadStateSlice_managerCalls, ih]
        simp
    rw [hnone]
    rfl
  · intro hl
    have heff : (ProcessRemainingOpenStates TM timestamp_ns v).effects =
        Effect.OnCaptureFinished timestamp_ns ::
          (TM.OnCaptureFinished v.state_manager_ timestamp_ns).1.map
            Effect.OnThreadStateSlice := by
      unfold ProcessRemainingOpenStates
      dsimp only
      rw [Outcome.andThen_effects]
      dsimp only
      have hl' : ({ v with state_manager_ :=
          (TM.OnCaptureFinished v.state_manager_ timestamp_ns).2 } :
          SwitchesStatesNamesVisitor σ τ).listener_ = true := hl
      rw [if_pos rfl, ForwardThreadStateSlices_of_listener _ _ hl']
      rfl
    refine ⟨heff, ?_, ProcessRemainingOpenStates_fault TM timestamp_ns v hl, ?_⟩
    · rw [heff]
      exact forwardedThreadStateSlices_map _
    · unfold ProcessRemainingOpenStates
      dsimp only
      rw [Outcome.andThen_visitor]
      dsimp only
      rw [if_pos rfl]
      have hstate : ∀ (slices : List ThreadStateSlice) (w : SwitchesStatesNamesVisitor σ τ),
          (ForwardThreadStateSlices slices w).visitor.state_manager_ = w.state_manager_ := by
        intro slices
        induction slices with
        | nil => intro w; rfl
        | cons slice rest ih =>
          intro w
          simp only [ForwardThreadStateSlices]
          rw [Outcome.andThen_visitor]
          split
          · rw [ih]
            unfold ForwardThreadStateSlice
            split <;> rfl
          · unfold ForwardThreadStateSlice
            split <;> rfl
      rw [hstate]

/-- C16 at a visitor with the open states Runnable of tid 5 since 40 and
InterruptibleSleep of tid 6 since 60: the end of the capture at 200 hands over
the two closing slices in the order in which `OnCaptureFinished` returns
them. -/
theorem C16_remaining_open_states_witness :
    (ProcessRemainingOpenStates specThreadStateManager 200
      { sampleVisitor with state_manager_ :=
        [(5, (ThreadState.kRunnable, 40)), (6, (ThreadState.kInterruptibleSleep, 60))] }).effects =
      [Effect.OnCaptureFinished 200,
        Effect.OnThreadStateSlice ⟨5, ThreadState.kRunnable, 40, 200⟩,
        Effect.OnThreadStateSlice ⟨6, ThreadState.kInterruptibleSleep, 60, 200⟩] :=
  ((C16_remaining_open_states specThreadStateManager 200
      { sampleVisitor with state_manager_ :=
        [(5, (ThreadState.kRunnable, 40)), (6, (ThreadState.kInterruptibleSleep, 60))] }).2
    rfl).1

/-! ## Lemmas about the thread-state counter -/

theorem forwardedThreadStateSlices_append (l1 l2 : List Effect) :
    forwardedThreadStateSlices (l1 ++ l2) =
      forwardedThreadStateSlices l1 ++ forwardedThreadStateSlices l2 := by
  induction l1 with
  | nil => rfl
  | cons e rest ih => cases e <;> simp [forwardedThreadStateSlices, ih]

theorem countThreadStateSlices_append (l1 l2 : List Effect) :
    countThreadStateSlices (l1 ++ l2) =
      countThreadStateSlices l1 + countThreadStateSlices l2 := by
  unfold countThreadStateSlices
  rw [forwardedThreadStateSlices_append, List.length_append]

theorem countThreadStateSlices_of_threadStateEffects_nil (l : List Effect)
    (h : threadStateEffects l = []) : countThreadStateSlices l = 0 := by
  have hall := (threadStateEffects_eq_nil_iff l).mp h
  unfold countThreadStateSlices
  induction l with
  | nil => rfl
  | cons e rest ih =>
    have he := (hall e (List.mem_cons_self e rest)).2
    have hrest := ih (List.filter_eq_nil_iff.mpr (fun a ha =>
      List.filter_eq_nil_iff.mp h a (List.mem_cons_of_mem e ha)))
      (fun a ha => hall a (List.mem_cons_of_mem e ha))
    cases e <;> first | exact hrest | exact Bool.noConfusion he

theorem countThreadStateSlices_andThen {σ τ : Type} (o : Outcome σ τ)
    (f : SwitchesStatesNamesVisitor σ τ → Outcome σ τ) :
    countThreadStateSlices (o.andThen f).effects =
      countThreadStateSlices o.effects +
        (if o.fault = none then countThreadStateSlices (f o.visitor).effects else 0) := by
  rw [Outcome.andThen_effects, countThreadStateSlices_append]
  split_ifs <;> rfl

/-- Incrementing a 64-bit counter `k` times adds `k` modulo `2 ^ 64`. -/
theorem iterate_increment (k c : Nat) (hc : c < 2 ^ 64) :
    Nat.iterate (fun n => (n + 1) % 2 ^ 64) k c = (c + k) % 2 ^ 64 := by
  induction k with
  | zero => exact (Nat.mod_eq_of_lt hc).symm
  | succ k ih =>
    rw [Function.iterate_succ_apply', ih]
    simp only [Nat.add_mod_mod, Nat.mod_add_mod]
    rfl

theorem CounterTracks.of_silent {σ τ : Type} (v : SwitchesStatesNamesVisitor σ τ)
    (o : Outcome σ τ) (hcounter : o.visitor.thread_state_counter_ = v.thread_state_counter_)
    (hcount : countThreadStateSlices o.effects = 0) : CounterTracks v o := by
  unfold CounterTracks
  rw [hcounter, hcount]
  cases v.thread_state_counter_ <;> rfl

theorem CounterTracks.andThen_tracks {σ τ : Type} (v : SwitchesStatesNamesVisitor σ τ)
    (o : Outcome σ τ) (f : SwitchesStatesNamesVisitor σ τ → Outcome σ τ)
    (ho : CounterTracks v o) (hf : ∀ w, CounterTracks w (f w)) :
    CounterTracks v (o.andThen f) := by
  unfold CounterTracks at ho ⊢
  rw [Outcome.andThen_visitor, countThreadStateSlices_andThen]
  by_cases h : o.fault = none
  · rw [if_pos h, if_pos h]
    have h2 := hf o.visitor
    unfold CounterTracks at h2
    rw [h2, ho]
    cases v.thread_state_counter_ with
    | none => rfl
    | some c =>
      simp only [Option.map_some']
      rw [Nat.add_comm, Function.iterate_add_apply]
  · rw [if_neg h, if_neg h, Nat.add_zero]
    exact ho

namespace SwitchesStatesNamesVisitor

variable {σ τ : Type}

theorem ForwardThreadStateSlice_counterTracks (slice : ThreadStateSlice)
    (v : SwitchesStatesNamesVisitor σ τ) : CounterTracks v (ForwardThreadStateSlice slice v) := by
  unfold ForwardThreadStateSlice
  split
  · exact CounterTracks.of_silent v _ rfl rfl
  · unfold CounterTracks
    cases v.thread_state_counter_ <;> rfl

theorem ForwardThreadStateSlice_count_le (slice : ThreadStateSlice)
    (v : SwitchesStatesNamesVisitor σ τ) :
    countThreadStateSlices (ForwardThreadStateSlice slice v).effects ≤ 1 := by
  unfold ForwardThreadStateSlice
  split
  · exact Nat.zero_le 1
  · exact Nat.le_refl 1

theorem ForwardThreadStateSlices_counterTracks (slices : List ThreadStateSlice)
    (v : SwitchesStatesNamesVisitor σ τ) :
    CounterTracks v (ForwardThreadStateSlices slices v) := by
  induction slices generalizing v with
  | nil => exact CounterTracks.of_silent v _ rfl rfl
  | cons slice rest ih =>
    exact CounterTracks.andThen_tracks v _ _ (ForwardThreadStateSlice_counterTracks slice v) ih

theorem countThreadStateSlices_map_ERROR (reports : List ErrorReport) :
    countThreadStateSlices (reports.map Effect.ERROR) = 0 := by
  induction reports with
  | nil => rfl
  | cons r rest ih => exact ih

theorem SchedSwitchOutForThreadState_counterTracks (K : Constants)
    (TM : ThreadStateManager τ) (event : SchedSwitchPerfEvent)
    (v : SwitchesStatesNamesVisitor σ τ) :
    CounterTracks v (SchedSwitchOutForThreadState K TM event v) ∧
      countThreadStateSlices (SchedSwitchOutForThreadState K TM event v).effects ≤ 1 := by
  have hcalled : countThreadStateSlices
      ((GetThreadStateFromBits event.GetPrevState).2.map Effect.ERROR ++
        [Effect.OnSchedSwitchOut event.GetTimestamp event.GetPrevTid
          (GetThreadStateFromBits event.GetPrevState).1]) = 0 := by
    rw [countThreadStateSlices_append, countThreadStateSlices_map_ERROR]
    rfl
  unfold SchedSwitchOutForThreadState
  split
  · dsimp only
    split
    · exact ⟨CounterTracks.of_silent v _ rfl hcalled, by rw [hcalled]; exact Nat.zero_le 1⟩
    · constructor
      · exact CounterTracks.andThen_tracks v _ _ (CounterTracks.of_silent v _ rfl hcalled)
          (ForwardThreadStateSlice_counterTracks _)
      · rw [countThreadStateSlices_andThen]
        dsimp only
        rw [hcalled, if_pos rfl, Nat.zero_add]
        exact ForwardThreadStateSlice_count_le _ _
  · exact ⟨CounterTracks.of_silent v _ rfl rfl, Nat.zero_le 1⟩

theorem SchedSwitchInForThreadState_counterTracks (K : Constants)
    (TM : ThreadStateManager τ) (event : SchedSwitchPerfEvent)
    (v : SwitchesStatesNamesVisitor σ τ) :
    CounterTracks v (SchedSwitchInForThreadState K TM event v) ∧
      countThreadStateSlices (SchedSwitchInForThreadState K TM event v).effects ≤ 1 := by
  unfold SchedSwitchInForThreadState
  split
  · dsimp only
    split
    · exact ⟨CounterTracks.of_silent v _ rfl rfl, Nat.zero_le 1⟩
    · constructor
      · exact CounterTracks.andThen_tracks v _ _ (CounterTracks.of_silent v _ rfl rfl)
          (ForwardThreadStateSlice_counterTracks _)
      · rw [countThreadStateSlices_andThen]
        dsimp only
        rw [if_pos rfl]
        exact (Nat.zero_add _).le.trans (ForwardThreadStateSlice_count_le _ _)
  · exact ⟨CounterTracks.of_silent v _ rfl rfl, Nat.zero_le 1⟩

theorem SchedSwitchOutForSchedulingSlices_counterTracks (K : Constants)
    (SM : ContextSwitchManager σ) (event : SchedSwitchPerfEvent)
    (v : SwitchesStatesNamesVisitor σ τ) :
    CounterTracks v (SchedSwitchOutForSchedulingSlices K SM event v) ∧
      countThreadStateSlices (SchedSwitchOutForSchedulingSlices K SM event v).effects = 0 := by
  have hcount := countThreadStateSlices_of_threadStateEffects_nil _
    (SchedSwitchOutForSchedulingSlices_threadStateEffects K SM event v)
  exact ⟨CounterTracks.of_silent v _
    (SchedSwitchOutForSchedulingSlices_sameThreadStateSide K SM event v).2.1 hcount, hcount⟩

theorem SchedSwitchInForSchedulingSlices_counterTracks (SM : ContextSwitchManager σ)
    (event : SchedSwitchPerfEvent) (v : SwitchesStatesNamesVisitor σ τ) :
    CounterTracks v (SchedSwitchInForSchedulingSlices SM event v) ∧
      countThreadStateSlices (SchedSwitchInForSchedulingSlices SM event v).effects = 0 := by
  have hcount := countThreadStateSlices_of_threadStateEffects_nil _
    (SchedSwitchInForSchedulingSlices_threadStateEffects SM event v)
  exact ⟨CounterTracks.of_silent v _
    (SchedSwitchInForSchedulingSlices_sameThreadStateSide SM event v).2.1 hcount, hcount⟩

theorem VisitSchedSwitchPerfEvent_counterTracks (K : Constants)
    (SM : ContextSwitchManager σ) (TM : ThreadStateManager τ) (event : SchedSwitchPerfEvent)
    (v : SwitchesStatesNamesVisitor σ τ) :
    CounterTracks v (VisitSchedSwitchPerfEvent K SM TM event v) ∧
      countThreadStateSlices (VisitSchedSwitchPerfEvent K SM TM event v).effects ≤ 2 := by
  unfold VisitSchedSwitchPerfEvent
  constructor
  · exact CounterTracks.andThen_tracks v _ _
      (CounterTracks.andThen_tracks v _ _
        (CounterTracks.andThen_tracks v _ _ (SchedSwitchOutForSchedulingSlices_counterTracks K SM event v).1
          (fun w => (SchedSwitchInForSchedulingSlices_counterTracks SM event w).1))
        (fun w => (SchedSwitchOutForThreadState_counterTracks K TM event w).1))
      (fun w => (SchedSwitchInForThreadState_counterTracks K TM event w).1)
  · rw [countThreadStateSlices_andThen, countThreadStateSlices_andThen,
      countThreadStateSlices_andThen,
      (SchedSwitchOutForSchedulingSlices_counterTracks K SM event v).2]
    have h2 := (SchedSwitchInForSchedulingSlices_counterTracks SM event
      (SchedSwitchOutForSchedulingSlices K SM event v).visitor).2
    have h3 := (SchedSwitchOutForThreadState_counterTracks K TM event
      ((SchedSwitchOutForSchedulingSlices K SM event v).andThen
        (SchedSwitchInForSchedulingSlices SM event)).visitor).2
    have h4 := (SchedSwitchInForThreadState_counterTracks K TM event
      (((SchedSwitchOutForSchedulingSlices K SM event v).andThen
        (SchedSwitchInForSchedulingSlices SM event)).andThen
        (SchedSwitchOutForThreadState K TM event)).visitor).2
    split_ifs <;> omega

theorem VisitSchedWakeupPerfEvent_counterTracks (K : Constants) (TM : ThreadStateManager τ)
    (event : SchedWakeupPerfEvent) (v : SwitchesStatesNamesVisitor σ τ) :
    CounterTracks v (VisitSchedWakeupPerfEvent K TM event v) ∧
      countThreadStateSlices (VisitSchedWakeupPerfEvent K TM event v).effects ≤ 1 := by
  unfold VisitSchedWakeupPerfEvent
  split
  · exact ⟨CounterTracks.of_silent v _ rfl rfl, Nat.zero_le 1⟩
  · dsimp only
    split
    · exact ⟨CounterTracks.of_silent v _ rfl rfl, Nat.zero_le 1⟩
    · constructor
      · exact CounterTracks.andThen_tracks v _ _ (CounterTracks.of_silent v _ rfl rfl)
          (ForwardThreadStateSlice_counterTracks _)
      · rw [countThreadStateSlices_andThen]
        dsimp only
        rw [if_pos rfl]
        exact (Nat.zero_add _).le.trans (ForwardThreadStateSlice_count_le _ _)

theorem ProcessRemainingOpenStates_counterTracks (TM : ThreadStateManager τ)
    (timestamp_ns : Nat) (v : SwitchesStatesNamesVisitor σ τ) :
    CounterTracks v (ProcessRemainingOpenStates TM timestamp_ns v) := by
  unfold ProcessRemainingOpenStates
  exact CounterTracks.andThen_tracks v _ _ (CounterTracks.of_silent v _ rfl rfl)
    (ForwardThreadStateSlices_counterTracks _)

end SwitchesStatesNamesVisitor

open SwitchesStatesNamesVisitor in
/-- An operation other than a sched switch, a wakeup and the end of the capture
hands over no thread-state slice and leaves the counter as it is. -/
theorem step_silent {σ τ : Type} (K : Constants) (SM : ContextSwitchManager σ)
    (TM : ThreadStateManager τ) (op : Operation) (v : SwitchesStatesNamesVisitor σ τ)
    (hop : op.forwardsThreadStateSlices = false) :
    (step K SM TM op v).visitor.thread_state_counter_ = v.thread_state_counter_ ∧
      countThreadStateSlices (step K SM TM op v).effects = 0 := by
  cases op with
  | ProcessInitialTidToPidAssociation tid pid =>
    simp only [step, ProcessInitialTidToPidAssociation]
    refine ⟨trivial, ?_⟩
    split <;> rfl
  | Fork event =>
    simp only [step, VisitForkPerfEvent]
    refine ⟨trivial, ?_⟩
    split <;> rfl
  | Exit event => exact ⟨rfl, rfl⟩
  | NewTask event =>
    simp only [step, VisitTaskNewtaskPerfEvent]
    split
    · exact ⟨rfl, rfl⟩
    · split <;> exact ⟨rfl, rfl⟩
  | Rename event =>
    simp only [step, VisitTaskRenamePerfEvent]
    split <;> exact ⟨rfl, rfl⟩
  | SchedSwitch event => exact Bool.noConfusion hop
  | SchedWakeup event => exact Bool.noConfusion hop
  | ProcessInitialState timestamp_ns tid state_char =>
    simp only [step, ProcessInitialState]
    split
    · exact ⟨rfl, rfl⟩
    · split <;> exact ⟨rfl, rfl⟩
  | ProcessRemainingOpenStates timestamp_ns => exact Bool.noConfusion hop

open SwitchesStatesNamesVisitor in
theorem step_counterTracks {σ τ : Type} (K : Constants) (SM : ContextSwitchManager σ)
    (TM : ThreadStateManager τ) (op : Operation) (v : SwitchesStatesNamesVisitor σ τ) :
    CounterTracks v (step K SM TM op v) := by
  cases hop : op.forwardsThreadStateSlices with
  | false =>
    exact CounterTracks.of_silent v _ (step_silent K SM TM op v hop).1
      (step_silent K SM TM op v hop).2
  | true =>
    cases op with
    | SchedSwitch event => exact (VisitSchedSwitchPerfEvent_counterTracks K SM TM event v).1
    | SchedWakeup event => exact (VisitSchedWakeupPerfEvent_counterTracks K TM event v).1
    | ProcessRemainingOpenStates timestamp_ns =>
      exact ProcessRemainingOpenStates_counterTracks TM timestamp_ns v
    | _ => exact Bool.noConfusion hop

theorem run_counterTracks {σ τ : Type} (K : Constants) (SM : ContextSwitchManager σ)
    (TM : ThreadStateManager τ) (ops : List Operation) (v : SwitchesStatesNamesVisitor σ τ) :
    CounterTracks v (run K SM TM ops v) := by
  induction ops generalizing v with
  | nil => exact CounterTracks.of_silent v _ rfl rfl
  | cons op ops ih => exact CounterTracks.andThen_tracks v _ _ (step_counterTracks K SM TM op v) ih

theorem CounterTracks.counter_eq {σ τ : Type} {v : SwitchesStatesNamesVisitor σ τ}
    {o : Outcome σ τ} (h : CounterTracks v o) (c : Nat)
    (hc : v.thread_state_counter_ = some c) (hlt : c < 2 ^ 64) :
    o.visitor.thread_state_counter_ =
      some ((c + countThreadStateSlices o.effects) % 2 ^ 64) := by
  unfold CounterTracks at h
  rw [h, hc, Option.map_some', iterate_increment _ _ hlt]

/-! ## Claims about the thread-state counter -/

/-- C17: with a thread-state counter configured, each call of
`Visit(SchedSwitchPerfEvent*)`, `Visit(SchedWakeupPerfEvent*)` and
`ProcessRemainingOpenStates` increases the counter by exactly the number of
thread-state slices that the call hands to the listener, at most 2 for a sched
switch and at most 1 for a wakeup; every other operation hands over none and
leaves the counter as it is; so over any sequence of operations the counter
increases by the number of thread-state slices handed over. The counter is a
64-bit unsigned integer: the sum is taken modulo `2 ^ 64`, and is the plain sum
whenever that is below `2 ^ 64`. -/
theorem C17_thread_state_counter {σ τ : Type} (K : Constants)
    (SM : ContextSwitchManager σ) (TM : ThreadStateManager τ)
    (v : SwitchesStatesNamesVisitor σ τ) (c : Nat)
    (hc : v.thread_state_counter_ = some c) (hlt : c < 2 ^ 64) :
    (∀ event, (VisitSchedSwitchPerfEvent K SM TM event v).visitor.thread_state_counter_ =
        some ((c + countThreadStateSlices
          (VisitSchedSwitchPerfEvent K SM TM event v).effects) % 2 ^ 64) ∧
      countThreadStateSlices (VisitSchedSwitchPerfEvent K SM TM event v).effects ≤ 2) ∧
    (∀ event, (VisitSchedWakeupPerfEvent K TM event v).visitor.thread_state_counter_ =
        some ((c + countThreadStateSlices
          (VisitSchedWakeupPerfEvent K TM event v).effects) % 2 ^ 64) ∧
      countThreadStateSlices (VisitSchedWakeupPerfEvent K TM event v).effects ≤ 1) ∧
    (∀ timestamp_ns,
      (ProcessRemainingOpenStates TM timestamp_ns v).visitor.thread_state_counter_ =
        some ((c + countThreadStateSlices
          (ProcessRemainingOpenStates TM timestamp_ns v).effects) % 2 ^ 64)) ∧
    (∀ op : Operation, op.forwardsThreadStateSlices = false →
      (step K SM TM op v).visitor.thread_state_counter_ = some c ∧
      countThreadStateSlices (step K SM TM op v).effects = 0) ∧
    (∀ ops : List Operation, (run K SM TM ops v).visitor.thread_state_counter_ =
      some ((c + countThreadStateSlices (run K SM TM ops v).effects) % 2 ^ 64)) ∧
    (∀ ops : List Operation,
      c + countThreadStateSlices (run K SM TM ops v).effects < 2 ^ 64 →
      (run K SM TM ops v).visitor.thread_state_counter_ =
        some (c + countThreadStateSlices (run K SM TM ops v).effects)) := by
  refine ⟨?_, ?_, ?_, ?_, ?_, ?_⟩
  · intro event
    exact ⟨(VisitSchedSwitchPerfEvent_counterTracks K SM TM event v).1.counter_eq c hc hlt,
      (VisitSchedSwitchPerfEvent_counterTracks K SM TM event v).2⟩
  · intro event
    exact ⟨(VisitSchedWakeupPerfEvent_counterTracks K TM event v).1.counter_eq c hc hlt,
      (VisitSchedWakeupPerfEvent_counterTracks K TM event v).2⟩
  · intro timestamp_ns
    exact (ProcessRemainingOpenStates_counterTracks TM timestamp_ns v).counter_eq c hc hlt
  · intro op hop
    exact ⟨(step_silent K SM TM op v hop).1.trans hc, (step_silent K SM TM op v hop).2⟩
  · intro ops
    exact (run_counterTracks K SM TM ops v).counter_eq c hc hlt
  · intro ops hsum
    rw [(run_counterTracks K SM TM ops v).counter_eq c hc hlt, Nat.mod_eq_of_lt hsum]

/-- C17 at `sampleVisitor`, whose counter is 0: the switch-out of tid 5, its
wakeup and the end of the capture hand over one thread-state slice each, and
the counter is 3 afterwards. -/
theorem C17_thread_state_counter_witness :
    (sampleVisitor.thread_state_counter_ = some 0 ∧ 0 < 2 ^ 64) ∧
    countThreadStateSlices (run sampleConstants specContextSwitchManager specThreadStateManager
      [Operation.SchedSwitch ⟨5, -1, 1, 6, 0, 100⟩, Operation.SchedWakeup ⟨5, 150⟩,
        Operation.Fork ⟨7, 12⟩, Operation.ProcessRemainingOpenStates 200]
      sampleVisitor).effects = 3 ∧
    (run sampleConstants specContextSwitchManager specThreadStateManager
      [Operation.SchedSwitch ⟨5, -1, 1, 6, 0, 100⟩, Operation.SchedWakeup ⟨5, 150⟩,
        Operation.Fork ⟨7, 12⟩, Operation.ProcessRemainingOpenStates 200]
      sampleVisitor).visitor.thread_state_counter_ = some 3 :=
  ⟨⟨rfl, by decide⟩, by decide,
    (C17_thread_state_counter sampleConstants specContextSwitchManager specThreadStateManager
      sampleVisitor 0 rfl (by decide)).2.2.2.2.1
      [Operation.SchedSwitch ⟨5, -1, 1, 6, 0, 100⟩, Operation.SchedWakeup ⟨5, 150⟩,
        Operation.Fork ⟨7, 12⟩, Operation.ProcessRemainingOpenStates 200]⟩

/-! ## Lemmas about the initial state -/

theorem GetThreadStateFromChar_eq_none_iff (c : Char) :
    GetThreadStateFromChar c = none ↔ c ∉ ['R', 'S', 'D', 'T', 't', 'X', 'Z', 'P', 'I'] := by
  constructor
  · intro h hc
    simp only [List.mem_cons, List.mem_singleton, List.not_mem_nil, or_false] at hc
    rcases hc with hc | hc | hc | hc | hc | hc | hc | hc | hc <;>
      · subst hc
        exact Option.noConfusion h
  · intro hc
    simp only [List.mem_cons, List.mem_singleton, List.not_mem_nil, not_or, or_false] at hc
    obtain ⟨h1, h2, h3, h4, h5, h6, h7, h8, h9⟩ := hc
    unfold GetThreadStateFromChar
    split <;> first | rfl | contradiction

theorem GetThreadStateFromChar_isSome_iff (c : Char) :
    (∃ state, GetThreadStateFromChar c = some state) ↔
      c ∈ ['R', 'S', 'D', 'T', 't', 'X', 'Z', 'P', 'I'] := by
  rw [← not_iff_not, ← GetThreadStateFromChar_eq_none_iff]
  cases GetThreadStateFromChar c with
  | none => simp
  | some state => simp

namespace SwitchesStatesNamesVisitor

variable {σ τ : Type}

theorem ProcessInitialState_of_invalid (K : Constants) (TM : ThreadStateManager τ)
    (timestamp_ns : Nat) (tid : Int) (state_char : Char) (v : SwitchesStatesNamesVisitor σ τ)
    (hmatch : TidMatchesPidFilter K tid v = true)
    (hinvalid : GetThreadStateFromChar state_char = none) :
    ProcessInitialState K TM timestamp_ns tid state_char v =
      ⟨v, [Effect.ERROR (ErrorReport.ParsingThreadStateChar state_char tid)], none⟩ := by
  unfold ProcessInitialState
  rw [if_neg (by simp [hmatch]), hinvalid]

theorem ProcessInitialState_of_valid (K : Constants) (TM : ThreadStateManager τ)
    (timestamp_ns : Nat) (tid : Int) (state_char : Char) (v : SwitchesStatesNamesVisitor σ τ)
    (state : ThreadState) (hmatch : TidMatchesPidFilter K tid v = true)
    (hvalid : GetThreadStateFromChar state_char = some state) :
    ProcessInitialState K TM timestamp_ns tid state_char v =
      ⟨{ v with state_manager_ := TM.OnInitialState v.state_manager_ timestamp_ns tid state },
        [Effect.OnInitialState timestamp_ns tid state], none⟩ := by
  unfold ProcessInitialState
  rw [if_neg (by simp [hmatch]), hvalid]

end SwitchesStatesNamesVisitor

/-! ## Claims about the initial state -/

/-- C18, as amended: `ProcessInitialState` called with a state character outside
the nine valid codes reports a decode-failure anomaly exactly when the tid
passes the pid filter, and then exactly one; for a tid that does not pass (its
pid unknown or different from the filter pid, or the filter disabled) it
reports nothing. In both cases the call ends without a fault and leaves the
visitor unchanged. -/
theorem C18_initial_state_decode_failure {σ τ : Type} (K : Constants)
    (TM : ThreadStateManager τ) (timestamp_ns : Nat) (tid : Int) (state_char : Char)
    (v : SwitchesStatesNamesVisitor σ τ)
    (hinvalid : state_char ∉ ['R', 'S', 'D', 'T', 't', 'X', 'Z', 'P', 'I']) :
    (ProcessInitialState K TM timestamp_ns tid state_char v).effects =
      (if TidMatchesPidFilter K tid v = true then
        [Effect.ERROR (ErrorReport.ParsingThreadStateChar state_char tid)]
      else []) ∧
    ((∃ e ∈ (ProcessInitialState K TM timestamp_ns tid state_char v).effects,
        e.isError = true) ↔ TidMatchesPidFilter K tid v = true) ∧
    (ProcessInitialState K TM timestamp_ns tid state_char v).fault = none ∧
    (ProcessInitialState K TM timestamp_ns tid state_char v).visitor = v := by
  have hnone := (GetThreadStateFromChar_eq_none_iff state_char).mpr hinvalid
  cases hmatch : TidMatchesPidFilter K tid v with
  | false =>
    rw [ProcessInitialState_of_no_match K TM timestamp_ns tid state_char v hmatch]
    simp
  | true =>
    rw [ProcessInitialState_of_invalid K TM timestamp_ns tid state_char v hmatch hnone]
    simp [Effect.isError]

/-- C18 at `sampleVisitor`, whose filter is pid 7: the character 'Q' for tid 5
(pid 7) gives one report, and for tid 6 (pid 8) none. -/
theorem C18_initial_state_decode_failure_witness :
    'Q' ∉ ['R', 'S', 'D', 'T', 't', 'X', 'Z', 'P', 'I'] ∧
    (ProcessInitialState sampleConstants specThreadStateManager 10 5 'Q' sampleVisitor).effects =
      [Effect.ERROR (ErrorReport.ParsingThreadStateChar 'Q' 5)] ∧
    (ProcessInitialState sampleConstants specThreadStateManager 10 6 'Q' sampleVisitor).effects =
      [] :=
  ⟨by decide,
    (C18_initial_state_decode_failure sampleConstants specThreadStateManager 10 5 'Q'
      sampleVisitor (by decide)).1,
    (C18_initial_state_decode_failure sampleConstants specThreadStateManager 10 6 'Q'
      sampleVisitor (by decide)).1⟩

/-- C18 as stated fails: the character 'Q' is none of the nine valid codes, and
`ProcessInitialState` reports no anomaly for tid 6 at `sampleVisitor` (pid 8, not
the filter pid 7), for tid 9 at `sampleVisitor` (no pid known), nor for tid 5 at
`disabledFilterVisitor` (filter disabled). -/
theorem C18_counterexample :
    'Q' ∉ ['R', 'S', 'D', 'T', 't', 'X', 'Z', 'P', 'I'] ∧
    (¬ ∃ e ∈ (ProcessInitialState sampleConstants specThreadStateManager 10 6 'Q'
      sampleVisitor).effects, e.isError = true) ∧
    (¬ ∃ e ∈ (ProcessInitialState sampleConstants specThreadStateManager 10 9 'Q'
      sampleVisitor).effects, e.isError = true) ∧
    (¬ ∃ e ∈ (ProcessInitialState sampleConstants specThreadStateManager 10 5 'Q'
      disabledFilterVisitor).effects, e.isError = true) := by
  refine ⟨by decide, ?_, ?_, ?_⟩ <;>
    · rintro ⟨e, he, _⟩
      exact List.not_mem_nil e he

/-- C19: `ProcessInitialState` calls `OnInitialState` exactly when the tid passes
the pid filter and the character is one of the nine valid state characters; the
call is then its only effect, made with the same timestamp and tid and the state
`GetThreadStateFromChar` of the character. In every other case no manager is
called and `state_manager_` is unchanged. The tid-to-pid association is never
changed. -/
theorem C19_initial_state {σ τ : Type} (K : Constants) (TM : ThreadStateManager τ)
    (timestamp_ns : Nat) (tid : Int) (state_char : Char)
    (v : SwitchesStatesNamesVisitor σ τ) :
    ((∃ t n state, Effect.OnInitialState t n state ∈
        (ProcessInitialState K TM timestamp_ns tid state_char v).effects) ↔
      (TidMatchesPidFilter K tid v = true ∧
        state_char ∈ ['R', 'S', 'D', 'T', 't', 'X', 'Z', 'P', 'I'])) ∧
    (TidMatchesPidFilter K tid v = true → ∀ state,
      GetThreadStateFromChar state_char = some state →
      ProcessInitialState K TM timestamp_ns tid state_char v =
        ⟨{ v with state_manager_ := TM.OnInitialState v.state_manager_ timestamp_ns tid state },
          [Effect.OnInitialState timestamp_ns tid state], none⟩) ∧
    (¬ (TidMatchesPidFilter K tid v = true ∧
        state_char ∈ ['R', 'S', 'D', 'T', 't', 'X', 'Z', 'P', 'I']) →
      managerCalls (ProcessInitialState K TM timestamp_ns tid state_char v).effects = [] ∧
      (ProcessInitialState K TM timestamp_ns tid state_char v).visitor.state_manager_ =
        v.state_manager_) ∧
    (ProcessInitialState K TM timestamp_ns tid state_char v).visitor.tid_to_pid_association_ =
      v.tid_to_pid_association_ := by
  have hassoc := (ProcessInitialState_frame K TM timestamp_ns tid state_char v).2.2.2
  refine ⟨?_, ?_, ?_, hassoc⟩
  · rw [← GetThreadStateFromChar_isSome_iff]
    cases hmatch : TidMatchesPidFilter K tid v with
    | false =>
      rw [ProcessInitialState_of_no_match K TM timestamp_ns tid state_char v hmatch]
      simp
    | true =>
      cases hchar : GetThreadStateFromChar state_char with
      | none =>
        rw [ProcessInitialState_of_invalid K TM timestamp_ns tid state_char v hmatch hchar]
        simp
      | some state =>
        rw [ProcessInitialState_of_valid K TM timestamp_ns tid state_char v state hmatch hchar]
        simp
  · intro hmatch state hchar
    exact ProcessInitialState_of_valid K TM timestamp_ns tid state_char v state hmatch hchar
  · rw [← GetThreadStateFromChar_isSome_iff]
    intro hnot
    cases hmatch : TidMatchesPidFilter K tid v with
    | false =>
      rw [ProcessInitialState_of_no_match K TM timestamp_ns tid state_char v hmatch]
      exact ⟨rfl, rfl⟩
    | true =>
      cases hchar : GetThreadStateFromChar state_char with
      | none =>
        rw [ProcessInitialState_of_invalid K TM timestamp_ns tid state_char v hmatch hchar]
        exact ⟨rfl, rfl⟩
      | some state => exact absurd ⟨hmatch, state, hchar⟩ hnot

/-- C19 at `freshVisitor` after the initial association of tid 5 with the
filter pid 7: the initial state 'S' of tid 5 at timestamp 10 is passed on as
InterruptibleSleep, and that of tid 6, which has no pid, is dropped. -/
theorem C19_initial_state_witness :
    (ProcessInitialState sampleConstants specThreadStateManager 10 5 'S'
      { freshVisitor with tid_to_pid_association_ := [(5, 7)] }).effects =
      [Effect.OnInitialState 10 5 ThreadState.kInterruptibleSleep] ∧
    managerCalls (ProcessInitialState sampleConstants specThreadStateManager 10 6 'S'
      { freshVisitor with tid_to_pid_association_ := [(5, 7)] }).effects = [] :=
  ⟨congrArg Outcome.effects
      ((C19_initial_state sampleConstants specThreadStateManager 10 5 'S'
        { freshVisitor with tid_to_pid_association_ := [(5, 7)] }).2.1 rfl
        ThreadState.kInterruptibleSleep rfl),
    ((C19_initial_state sampleConstants specThreadStateManager 10 6 'S'
      { freshVisitor with tid_to_pid_association_ := [(5, 7)] }).2.2.1 (by decide)).1⟩

/-! ## Lemmas about the combined-state report -/

theorem popcountl_and_0xFF (bits : Nat) : popcountl (bits &&& 0xFF) = lowBitsSet bits := by
  unfold popcountl lowBitsSet
  have h64 : List.range 64 = List.range 8 ++ (List.range 56).map (8 + ·) := List.range_add 8 56
  have h255 : (0xFF : Nat) = 2 ^ 8 - 1 := by norm_num
  have hhigh : ((List.range 56).map (8 + ·)).filter (fun i => (bits &&& 0xFF).testBit i) = [] := by
    rw [List.filter_eq_nil_iff]
    intro a ha
    obtain ⟨k, _, rfl⟩ := List.mem_map.mp ha
    rw [Nat.testBit_and, h255, Nat.testBit_two_pow_sub_one]
    simp
  have hlow : (List.range 8).filter (fun i => (bits &&& 0xFF).testBit i) =
      (List.range 8).filter (fun i => bits.testBit i) := by
    apply List.filter_congr
    intro i hi
    exact testBit_and_0xFF bits i (List.mem_range.mp hi)
  rw [h64, List.filter_append, List.length_append, hhigh, hlow]
  rfl

theorem and_0xFF_and_0xFF (bits : Nat) : bits &&& 0xFF &&& 0xFF = bits &&& 0xFF := by
  apply Nat.eq_of_testBit_eq
  intro i
  rw [Nat.testBit_and, Nat.testBit_and, Bool.and_assoc, Bool.and_self]

theorem lowBitsSet_and_0xFF (bits : Nat) : lowBitsSet (bits &&& 0xFF) = lowBitsSet bits := by
  rw [← popcountl_and_0xFF, ← popcountl_and_0xFF, and_0xFF_and_0xFF]

/-- The report component of `GetThreadStateFromBits`. -/
theorem GetThreadStateFromBits_snd (bits : Nat) :
    (GetThreadStateFromBits bits).2 =
      (if 1 < lowBitsSet bits then [ErrorReport.CombinationOfStates (bits &&& 0xFF)]
      else []) := by
  rw [← popcountl_and_0xFF]
  simp only [GetThreadStateFromBits]
  generalize (if popcountl (bits &&& 0xFF) > 1 then
    [ErrorReport.CombinationOfStates (bits &&& 0xFF)] else []) = reports
  split_ifs <;> rfl

/-! ## Claims about the combined-state report -/

/-- C20: `GetThreadStateFromBits` reports a combined-state anomaly exactly when
more than one of bits 0..7 of the mask is set, the report carrying the low 8
bits of the mask; the bits above bit 7 neither trigger nor suppress it, the
report being that of the mask cut to its low 8 bits; and the returned state is
what the fixed precedence gives, report or no report. The mask 0x03 is reported
and 0x01 is not; 0x101 and 0x300 are not reported although two bits of the mask
are set, and 0x103 is reported like 0x03. -/
theorem C20_combined_state_report (bits : Nat) :
    (GetThreadStateFromBits bits).2 =
      (if 1 < lowBitsSet bits then [ErrorReport.CombinationOfStates (bits &&& 0xFF)]
      else []) ∧
    ((GetThreadStateFromBits bits).2 ≠ [] ↔ 1 < lowBitsSet bits) ∧
    (GetThreadStateFromBits bits).2 = (GetThreadStateFromBits (bits &&& 0xFF)).2 ∧
    (GetThreadStateFromBits bits).1 =
      (if bits.testBit 0 then ThreadState.kInterruptibleSleep
      else if bits.testBit 1 then ThreadState.kUninterruptibleSleep
      else if bits.testBit 2 then ThreadState.kStopped
      else if bits.testBit 3 then ThreadState.kTraced
      else if bits.testBit 4 then ThreadState.kDead
      else if bits.testBit 5 then ThreadState.kZombie
      else if bits.testBit 6 then ThreadState.kParked
      else if bits.testBit 7 then ThreadState.kIdle
      else ThreadState.kRunnable) ∧
    GetThreadStateFromBits 0x03 =
      (ThreadState.kInterruptibleSleep, [ErrorReport.CombinationOfStates 0x03]) ∧
    GetThreadStateFromBits 0x01 = (ThreadState.kInterruptibleSleep, []) ∧
    GetThreadStateFromBits 0x101 = (ThreadState.kInterruptibleSleep, []) ∧
    GetThreadStateFromBits 0x300 = (ThreadState.kRunnable, []) ∧
    GetThreadStateFromBits 0x103 =
      (ThreadState.kInterruptibleSleep, [ErrorReport.CombinationOfStates 0x03]) := by
  refine ⟨GetThreadStateFromBits_snd bits, ?_, ?_, GetThreadStateFromBits_fst bits,
    by decide, by decide, by decide, by decide, by decide⟩
  · rw [GetThreadStateFromBits_snd]
    split <;> simp_all
  · rw [GetThreadStateFromBits_snd, GetThreadStateFromBits_snd, lowBitsSet_and_0xFF,
      and_0xFF_and_0xFF]

/-! ## Lemmas about thread names and the unknown pid -/

namespace SwitchesStatesNamesVisitor

variable {σ τ : Type}

theorem VisitTaskRenamePerfEvent_of_listener (event : TaskRenamePerfEvent)
    (v : SwitchesStatesNamesVisitor σ τ) (hl : v.listener_ = true) :
    VisitTaskRenamePerfEvent event v =
      ⟨v, [Effect.OnThreadName ⟨(GetPidOfTid event.GetRenamedTid v).getD (-1),
        event.GetRenamedTid, event.GetNewComm, event.GetTimestamp⟩], none⟩ := by
  unfold VisitTaskRenamePerfEvent
  dsimp only
  rw [if_neg (by simp [hl])]

/-- With scheduling slices produced and a listener set, a scheduling slice that
`ProcessContextSwitchOut` returns with the invalid process id is reported and
then handed to the listener. -/
theorem SchedSwitchOutForSchedulingSlices_of_unknown_pid (K : Constants)
    (SM : ContextSwitchManager σ) (event : SchedSwitchPerfEvent)
    (v : SwitchesStatesNamesVisitor σ τ) (slice : SchedulingSlice)
    (hl : v.listener_ = true) (hprod : v.produce_scheduling_slices_ = true)
    (hprev : event.GetPrevTid ≠ 0)
    (hslice : (SM.ProcessContextSwitchOut v.switch_manager_
      (if event.GetPrevPidOrMinusOne = -1 then (GetPidOfTid event.GetPrevTid v).getD (-1)
        else event.GetPrevPidOrMinusOne)
      event.GetPrevTid event.GetCpu event.GetTimestamp).1 = some slice)
    (hpid : slice.pid = K.kInvalidProcessId) :
    (SchedSwitchOutForSchedulingSlices K SM event v).effects =
      [Effect.ProcessContextSwitchOut
          (if event.GetPrevPidOrMinusOne = -1 then (GetPidOfTid event.GetPrevTid v).getD (-1)
            else event.GetPrevPidOrMinusOne)
          event.GetPrevTid event.GetCpu event.GetTimestamp,
        Effect.ERROR ErrorReport.SchedulingSliceWithUnknownPid,
        Effect.OnSchedulingSlice slice] := by
  unfold SchedSwitchOutForSchedulingSlices
  rw [if_pos ⟨hprod, hprev⟩]
  dsimp only
  rw [prev_pid_eq, hslice]
  dsimp only
  rw [if_neg (by simp [hl]), if_pos hpid]
  rfl

end SwitchesStatesNamesVisitor

/-! ## Claims about thread names and fatal conditions -/

/-- C21: `Visit(TaskRenamePerfEvent*)`, a listener being set, hands exactly one
thread-name record to the listener, with the renamed tid, the new comm, the
event's timestamp and the pid associated with the tid, -1 when none is known,
and has no other effect; it leaves the whole visitor, the tid-to-pid association
included, unchanged and calls neither manager. -/
theorem C21_rename {σ τ : Type} (event : TaskRenamePerfEvent)
    (v : SwitchesStatesNamesVisitor σ τ) :
    (VisitTaskRenamePerfEvent event v).visitor = v ∧
    managerCalls (VisitTaskRenamePerfEvent event v).effects = [] ∧
    (v.listener_ = true →
      (VisitTaskRenamePerfEvent event v).effects =
        [Effect.OnThreadName ⟨(GetPidOfTid event.GetRenamedTid v).getD (-1),
          event.GetRenamedTid, event.GetNewComm, event.GetTimestamp⟩] ∧
      (VisitTaskRenamePerfEvent event v).fault = none) ∧
    (v.listener_ = true → ∀ pid, GetPidOfTid event.GetRenamedTid v = some pid →
      (VisitTaskRenamePerfEvent event v).effects =
        [Effect.OnThreadName ⟨pid, event.GetRenamedTid, event.GetNewComm,
          event.GetTimestamp⟩]) ∧
    (v.listener_ = true → GetPidOfTid event.GetRenamedTid v = none →
      (VisitTaskRenamePerfEvent event v).effects =
        [Effect.OnThreadName ⟨-1, event.GetRenamedTid, event.GetNewComm,
          event.GetTimestamp⟩]) := by
  refine ⟨?_, ?_, ?_, ?_, ?_⟩
  · unfold VisitTaskRenamePerfEvent
    dsimp only
    split <;> rfl
  · unfold VisitTaskRenamePerfEvent
    dsimp only
    split <;> rfl
  · intro hl
    rw [VisitTaskRenamePerfEvent_of_listener event v hl]
    exact ⟨rfl, rfl⟩
  · intro hl pid hpid
    rw [VisitTaskRenamePerfEvent_of_listener event v hl, hpid]
    rfl
  · intro hl hpid
    rw [VisitTaskRenamePerfEvent_of_listener event v hl, hpid]
    rfl

/-- C21 at `sampleVisitor`, where tid 5 belongs to pid 7 and tid 9 has no pid:
the rename of tid 5 hands over one record with pid 7, that of tid 9 one record
with pid -1. -/
theorem C21_rename_witness :
    sampleVisitor.listener_ = true ∧
    (VisitTaskRenamePerfEvent ⟨5, "main", 120⟩ sampleVisitor).effects =
      [Effect.OnThreadName ⟨7, 5, "main", 120⟩] ∧
    (VisitTaskRenamePerfEvent ⟨9, "helper", 130⟩ sampleVisitor).effects =
      [Effect.OnThreadName ⟨-1, 9, "helper", 130⟩] :=
  ⟨rfl, (C21_rename ⟨5, "main", 120⟩ sampleVisitor).2.2.2.1 rfl 7 rfl,
    (C21_rename ⟨9, "helper", 130⟩ sampleVisitor).2.2.2.2 rfl rfl⟩

/-- C23: with a listener set no operation is fatal. For every visitor state and
every operation (initial association, Fork, Exit, NewTask, Rename, SchedSwitch,
SchedWakeup, initial state with any character, end of capture) the call ends
without a fault, that is without a failed `CHECK` and without a call through a
null listener, and so does every sequence of operations; an absent pid is read
with a default and never as a value. In particular a scheduling slice that
`ProcessContextSwitchOut` returns with the invalid process id is reported and
still handed to the listener, right after the report. -/
theorem C23_no_event_is_fatal {σ τ : Type} (K : Constants)
    (SM : ContextSwitchManager σ) (TM : ThreadStateManager τ)
    (v : SwitchesStatesNamesVisitor σ τ) (hl : v.listener_ = true) :
    (∀ op : Operation, (step K SM TM op v).fault = none) ∧
    (∀ ops : List Operation, (run K SM TM ops v).fault = none) ∧
    (∀ (event : SchedSwitchPerfEvent) (slice : SchedulingSlice),
      v.produce_scheduling_slices_ = true → event.GetPrevTid ≠ 0 →
      (SM.ProcessContextSwitchOut v.switch_manager_
        (if event.GetPrevPidOrMinusOne = -1 then (GetPidOfTid event.GetPrevTid v).getD (-1)
          else event.GetPrevPidOrMinusOne)
        event.GetPrevTid event.GetCpu event.GetTimestamp).1 = some slice →
      slice.pid = K.kInvalidProcessId →
      (VisitSchedSwitchPerfEvent K SM TM event v).fault = none ∧
      ∃ rest, (VisitSchedSwitchPerfEvent K SM TM event v).effects =
        [Effect.ProcessContextSwitchOut
            (if event.GetPrevPidOrMinusOne = -1 then (GetPidOfTid event.GetPrevTid v).getD (-1)
              else event.GetPrevPidOrMinusOne)
            event.GetPrevTid event.GetCpu event.GetTimestamp,
          Effect.ERROR ErrorReport.SchedulingSliceWithUnknownPid,
          Effect.OnSchedulingSlice slice] ++ rest) := by
  refine ⟨fun op => step_fault K SM TM op v hl, fun ops => run_fault K SM TM ops v hl, ?_⟩
  intro event slice hprod hprev hslice hpid
  refine ⟨VisitSchedSwitchPerfEvent_fault K SM TM event v hl, ?_⟩
  have h1 := SchedSwitchOutForSchedulingSlices_of_unknown_pid K SM event v slice hl hprod hprev
    hslice hpid
  unfold VisitSchedSwitchPerfEvent
  rw [Outcome.andThen_effects, Outcome.andThen_effects, Outcome.andThen_effects, h1]
  exact ⟨_, by rw [List.append_assoc, List.append_assoc]⟩

/-- C23 at a visitor in which cpu 0 is occupied by tid 5 with an unknown pid:
the switch-out of tid 5, whose pid is known neither to the event nor to the
association, ends without a fault, and the slice with pid -1 is reported and
handed to the listener. -/
theorem C23_no_event_is_fatal_witness :
    ({ freshVisitor with switch_manager_ := [(0, (-1, 5, 40))] } :
      SwitchesStatesNamesVisitor (List (Nat × (Int × Int × Nat)))
        (List (Int × (ThreadState × Nat)))).listener_ = true ∧
    (VisitSchedSwitchPerfEvent sampleConstants specContextSwitchManager specThreadStateManager
      ⟨5, -1, 1, 6, 0, 100⟩
      { freshVisitor with switch_manager_ := [(0, (-1, 5, 40))] }).fault = none ∧
    ∃ rest, (VisitSchedSwitchPerfEvent sampleConstants specContextSwitchManager
      specThreadStateManager ⟨5, -1, 1, 6, 0, 100⟩
      { freshVisitor with switch_manager_ := [(0, (-1, 5, 40))] }).effects =
      [Effect.ProcessContextSwitchOut (-1) 5 0 100,
        Effect.ERROR ErrorReport.SchedulingSliceWithUnknownPid,
        Effect.OnSchedulingSlice ⟨-1, 5, 0, 40, 60⟩] ++ rest :=
  ⟨rfl,
    (C23_no_event_is_fatal sampleConstants specContextSwitchManager specThreadStateManager
      { freshVisitor with switch_manager_ := [(0, (-1, 5, 40))] } rfl).2.2
      ⟨5, -1, 1, 6, 0, 100⟩ ⟨-1, 5, 0, 40, 60⟩ rfl (by decide) rfl rfl⟩

end orbit_linux_tracing

/-! # ModuleData -/

namespace orbit_client_data

open orbit_linux_tracing (find)

namespace ModuleData

/-! ## Updates of the module info -/

theorem NeedsUpdate_eq_true_iff (md : ModuleData) (info : ModuleInfo) :
    md.NeedsUpdate info = true ↔
      md.name ≠ info.name ∨ md.file_size ≠ info.file_size ∨ md.load_bias ≠ info.load_bias := by
  simp [NeedsUpdate, or_assoc]

theorem UpdateIfChangedAndUnload_of_needs_update (md : ModuleData) (info : ModuleInfo)
    (hpath : md.file_path = info.file_path) (hbuild : md.build_id = info.build_id)
    (hneeds : md.NeedsUpdate info = true) (hempty : md.build_id = "") :
    md.UpdateIfChangedAndUnload info =
      if md.is_loaded_ = true then
        some (⟨info, false, [], md.name_to_function_info_map_, []⟩, true)
      else some ({ md with module_info_ := info }, false) := by
  unfold UpdateIfChangedAndUnload
  rw [if_neg (not_not.mpr hpath), if_neg (not_not.mpr hbuild), if_neg (by simp [hneeds]),
    if_neg (not_not.mpr hempty)]
  cases hl : md.is_loaded_ <;> simp

theorem UpdateIfChangedAndUnload_cases (md md' : ModuleData) (info : ModuleInfo) (result : Bool)
    (h : md.UpdateIfChangedAndUnload info = some (md', result)) :
    (result = false ∧ md' = md) ∨
    (result = false ∧ md.is_loaded_ = false ∧ md' = { md with module_info_ := info }) ∨
    (result = true ∧ md.is_loaded_ = true ∧
      md' = ⟨info, false, [], md.name_to_function_info_map_, []⟩) := by
  unfold UpdateIfChangedAndUnload at h
  split at h
  · cases h
  split at h
  · cases h
  split at h
  · cases h
    exact Or.inl ⟨rfl, rfl⟩
  split at h
  · cases h
  split at h
  · rename_i hl
    cases h
    exact Or.inr (Or.inl ⟨rfl, by simpa using hl, rfl⟩)
  · rename_i hl
    cases h
    exact Or.inr (Or.inr ⟨rfl, by simpa using hl, rfl⟩)

theorem UpdateIfChangedAndNotLoaded_cases (md md' : ModuleData) (info : ModuleInfo)
    (result : Bool) (h : md.UpdateIfChangedAndNotLoaded info = some (md', result)) :
    md' = md ∨ (md.is_loaded_ = false ∧ md' = { md with module_info_ := info }) := by
  unfold UpdateIfChangedAndNotLoaded at h
  split at h
  · cases h
  split at h
  · cases h
  split at h
  · cases h
    exact Or.inl rfl
  split at h
  · cases h
  split at h
  · cases h
    exact Or.inl rfl
  · rename_i hl
    cases h
    exact Or.inr ⟨by simpa using hl, rfl⟩

theorem UpdateIfChangedAndNotLoaded_of_needs_update (md : ModuleData) (info : ModuleInfo)
    (hpath : md.file_path = info.file_path) (hbuild : md.build_id = info.build_id)
    (hneeds : md.NeedsUpdate info = true) (hempty : md.build_id = "") :
    md.UpdateIfChangedAndNotLoaded info =
      if md.is_loaded_ = true then some (md, false)
      else some ({ md with module_info_ := info }, true) := by
  unfold UpdateIfChangedAndNotLoaded
  rw [if_neg (not_not.mpr hpath), if_neg (not_not.mpr hbuild), if_neg (by simp [hneeds]),
    if_neg (not_not.mpr hempty)]

theorem UpdateIfChangedAndNotLoaded_of_no_update (md : ModuleData) (info : ModuleInfo)
    (hpath : md.file_path = info.file_path) (hbuild : md.build_id = info.build_id)
    (hneeds : md.NeedsUpdate info = false) :
    md.UpdateIfChangedAndNotLoaded info = some (md, true) := by
  unfold UpdateIfChangedAndNotLoaded
  rw [if_neg (not_not.mpr hpath), if_neg (not_not.mpr hbuild), if_pos (by simp [hneeds])]

end ModuleData

/-! ## Claims about updates of the module info -/

/-- C27, evaluated where the code departs from it: the module of
`sampleModuleInfo`, which has no build id, is loaded with `sampleSymbols`, and
`UpdateIfChangedAndUnload` is called with an info of another file size. The call
returns true; afterwards the module is not loaded, `GetFunctions()` is empty,
`FindFunctionByElfAddress` and `FindFunctionFromHash` find nothing for any
argument, but `FindFunctionFromPrettyName("foo()")` still returns the function
that was removed, since `name_to_function_info_map_` is not cleared. -/
theorem C27_unload_keeps_pretty_names :
    (ModuleData.create sampleModuleInfo).AddSymbols sampleFunctionUtils sampleSymbols =
      some sampleLoadedModule ∧
    ∃ md : ModuleData,
      sampleLoadedModule.UpdateIfChangedAndUnload { sampleModuleInfo with file_size := 2000 } =
        some (md, true) ∧
      md.is_loaded = false ∧ md.GetFunctions = [] ∧
      (∀ elf_address is_exact, md.FindFunctionByElfAddress elf_address is_exact = some none) ∧
      (∀ hash, md.FindFunctionFromHash hash = none) ∧
      md.FindFunctionFromPrettyName "foo()" =
        some ⟨"_Z3foov", "foo()", "/usr/lib/libfoo.so", "", 0x100, 0x20⟩ := by
  refine ⟨by decide, ⟨{ sampleModuleInfo with file_size := 2000 }, false, [],
    sampleLoadedModule.name_to_function_info_map_, []⟩, by decide, rfl, rfl, ?_, ?_, by decide⟩
  · intro elf_address is_exact
    rfl
  · intro hash
    rfl

/-- C28 as stated fails: the loaded module `sampleBuildIdModule` has the build id
"abc", and the info differs from its info in the file size only, so the info has
the file path and build id of the module, differs from it and the module is
loaded; the call does not return false, it stops at `CHECK(build_id().empty())`. -/
theorem C28_counterexample :
    sampleBuildIdModule.file_path =
      ({ sampleBuildIdModuleInfo with file_size := 2000 } : ModuleInfo).file_path ∧
    sampleBuildIdModule.build_id =
      ({ sampleBuildIdModuleInfo with file_size := 2000 } : ModuleInfo).build_id ∧
    sampleBuildIdModule.NeedsUpdate { sampleBuildIdModuleInfo with file_size := 2000 } = true ∧
    sampleBuildIdModule.is_loaded = true ∧
    sampleBuildIdModule.UpdateIfChangedAndNotLoaded
      { sampleBuildIdModuleInfo with file_size := 2000 } = none ∧
    ¬ ∃ md, sampleBuildIdModule.UpdateIfChangedAndNotLoaded
      { sampleBuildIdModuleInfo with file_size := 2000 } = some (md, false) := by
  refine ⟨rfl, rfl, by decide, rfl, by decide, ?_⟩
  rintro ⟨md, h⟩
  have hnone : sampleBuildIdModule.UpdateIfChangedAndNotLoaded
      { sampleBuildIdModuleInfo with file_size := 2000 } = none := by decide
  rw [hnone] at h
  cases h

/-- C28, amended: for an info with the file path and the build id of the module,
and a module without build id whenever the info differs from the module's info
in name, file size or load bias, `UpdateIfChangedAndNotLoaded(info)` returns, and
it returns false exactly when the info differs and the module is loaded; the
module is then unchanged. When it returns true after a difference, the module
info equals `info` and the functions, the two lookups and the loaded flag are
unchanged; when there is no difference it returns true and changes nothing. -/
theorem C28_update_if_changed_and_not_loaded (md : ModuleData) (info : ModuleInfo)
    (hpath : md.file_path = info.file_path) (hbuild : md.build_id = info.build_id)
    (hempty : md.NeedsUpdate info = true → md.build_id = "") :
    (md.NeedsUpdate info = true ↔
      md.name ≠ info.name ∨ md.file_size ≠ info.file_size ∨ md.load_bias ≠ info.load_bias) ∧
    ∃ md' result, md.UpdateIfChangedAndNotLoaded info = some (md', result) ∧
      (result = false ↔ md.NeedsUpdate info = true ∧ md.is_loaded = true) ∧
      (result = false → md' = md) ∧
      (result = true → md.NeedsUpdate info = true →
        md'.module_info_ = info ∧ md'.functions_ = md.functions_ ∧
        md'.GetFunctions = md.GetFunctions ∧ md'.is_loaded = md.is_loaded ∧
        md'.name_to_function_info_map_ = md.name_to_function_info_map_ ∧
        md'.hash_to_function_map_ = md.hash_to_function_map_) ∧
      (md.NeedsUpdate info = false → result = true ∧ md' = md) := by
  refine ⟨ModuleData.NeedsUpdate_eq_true_iff md info, ?_⟩
  cases hneeds : md.NeedsUpdate info with
  | false =>
    refine ⟨md, true, ModuleData.UpdateIfChangedAndNotLoaded_of_no_update md info hpath hbuild
      hneeds, ?_, ?_, ?_, ?_⟩
    · simp
    · intro _
      rfl
    · intro _ h
      cases h
    · intro _
      exact ⟨rfl, rfl⟩
  | true =>
    have hcall := ModuleData.UpdateIfChangedAndNotLoaded_of_needs_update md info hpath hbuild
      hneeds (hempty hneeds)
    by_cases hl : md.is_loaded_ = true
    · rw [if_pos hl] at hcall
      refine ⟨md, false, hcall, ?_, ?_, ?_, ?_⟩
      · simp [ModuleData.is_loaded, hl]
      · intro _
        rfl
      · intro h
        cases h
      · intro h
        cases h
    · rw [if_neg hl] at hcall
      refine ⟨{ md with module_info_ := info }, true, hcall, ?_, ?_, ?_, ?_⟩
      · simp [ModuleData.is_loaded, hl]
      · intro h
        cases h
      · intro _ _
        exact ⟨rfl, rfl, rfl, rfl, rfl, rfl⟩
      · intro h
        cases h

/-- C28, amended, at the module of `sampleModuleInfo`, which has no build id,
and an info of another file size: loaded, the call returns false and the module
is unchanged. -/
theorem C28_update_if_changed_and_not_loaded_witness :
    sampleLoadedModule.file_path = ({ sampleModuleInfo with file_size := 2000 } : ModuleInfo).file_path ∧
    sampleLoadedModule.UpdateIfChangedAndNotLoaded { sampleModuleInfo with file_size := 2000 } =
      some (sampleLoadedModule, false) ∧
    ∃ md' result, sampleLoadedModule.UpdateIfChangedAndNotLoaded
        { sampleModuleInfo with file_size := 2000 } = some (md', result) ∧
      (result = false ↔ sampleLoadedModule.NeedsUpdate { sampleModuleInfo with file_size := 2000 } = true ∧
        sampleLoadedModule.is_loaded = true) :=
  ⟨rfl, by decide,
    let ⟨md', result, hcall, hiff, _⟩ := (C28_update_if_changed_and_not_loaded sampleLoadedModule
      { sampleModuleInfo with file_size := 2000 } rfl rfl (fun _ => rfl)).2
    ⟨md', result, hcall, hiff⟩⟩


/-! ## The invariant of the module -/

namespace ModuleData

theorem AddSymbols_is_loaded (U : FunctionUtils) (module_symbols : List SymbolInfo)
    (md md' : ModuleData) (h : md.AddSymbols U module_symbols = some md') :
    md'.is_loaded_ = true := by
  unfold AddSymbols at h
  split at h
  · cases h
  · rw [Option.map_eq_some'] at h
    obtain ⟨loaded, _, rfl⟩ := h
    rfl

theorem AddFunctionInfoWithBuildId_is_loaded (md md' : ModuleData)
    (function_info : FunctionInfo) (module_build_id : String)
    (h : md.AddFunctionInfoWithBuildId function_info module_build_id = some md') :
    md'.is_loaded_ = true := by
  unfold AddFunctionInfoWithBuildId at h
  split at h
  · cases h
  · cases h
    rfl

end ModuleData

theorem ModuleOperation.apply_notLoadedIsEmpty (U : FunctionUtils) (op : ModuleOperation)
    (md md' : ModuleData) (h : op.apply U md = some md') (hinv : md.NotLoadedIsEmpty) :
    md'.NotLoadedIsEmpty := by
  cases op with
  | AddSymbols module_symbols =>
    intro hl
    rw [ModuleData.AddSymbols_is_loaded U module_symbols md md' h] at hl
    cases hl
  | AddFunctionInfoWithBuildId function_info module_build_id =>
    intro hl
    rw [ModuleData.AddFunctionInfoWithBuildId_is_loaded md md' function_info module_build_id h]
      at hl
    cases hl
  | UpdateIfChangedAndUnload info =>
    simp only [ModuleOperation.apply, Option.map_eq_some'] at h
    obtain ⟨⟨md'', result⟩, hcall, rfl⟩ := h
    rcases ModuleData.UpdateIfChangedAndUnload_cases md md'' info result hcall with
      ⟨_, rfl⟩ | ⟨_, _, rfl⟩ | ⟨_, _, rfl⟩
    · exact hinv
    · exact hinv
    · intro _
      exact ⟨rfl, rfl⟩
  | UpdateIfChangedAndNotLoaded info =>
    simp only [ModuleOperation.apply, Option.map_eq_some'] at h
    obtain ⟨⟨md'', result⟩, hcall, rfl⟩ := h
    rcases ModuleData.UpdateIfChangedAndNotLoaded_cases md md'' info result hcall with
      rfl | ⟨_, rfl⟩
    · exact hinv
    · exact hinv

theorem applyAll_notLoadedIsEmpty (U : FunctionUtils) (ops : List ModuleOperation) :
    ∀ md md' : ModuleData, applyAll U ops md = some md' → md.NotLoadedIsEmpty →
      md'.NotLoadedIsEmpty := by
  induction ops with
  | nil =>
    intro md md' h hinv
    cases h
    exact hinv
  | cons op ops ih =>
    intro md md' h hinv
    simp only [applyAll, Option.bind_eq_some] at h
    obtain ⟨mid, hop, hrest⟩ := h
    exact ih mid md' hrest (ModuleOperation.apply_notLoadedIsEmpty U op md mid hop hinv)

theorem ModuleData.FindFunctionFromHash_of_empty (md : ModuleData)
    (h : md.hash_to_function_map_ = []) (hash : Nat) : md.FindFunctionFromHash hash = none := by
  unfold ModuleData.FindFunctionFromHash
  rw [h]
  rfl

/-- C30: starting from a module with no function, no entry in the hash lookup
and not loaded, after every sequence of calls of `AddSymbols`,
`AddFunctionInfoWithBuildId`, `UpdateIfChangedAndUnload` and
`UpdateIfChangedAndNotLoaded` that all pass their `CHECK`s, a module that is not
loaded has an empty `GetFunctions()` and `FindFunctionFromHash` finds nothing.
The converse does not hold: the sequence of the one call `AddSymbols` with an
empty list leads to a module that is loaded and has no function. -/
theorem C30_module_invariant (U : FunctionUtils) (md0 : ModuleData)
    (hloaded : md0.is_loaded = false) (hfunctions : md0.GetFunctions = [])
    (hhash : md0.hash_to_function_map_ = []) :
    (∀ (ops : List ModuleOperation) (md : ModuleData), applyAll U ops md0 = some md →
      md.is_loaded = false →
      md.GetFunctions = [] ∧ ∀ hash, md.FindFunctionFromHash hash = none) ∧
    ∃ (ops : List ModuleOperation) (md : ModuleData), applyAll U ops md0 = some md ∧
      md.is_loaded = true ∧ md.GetFunctions = [] := by
  have hfun0 : md0.functions_ = [] := List.map_eq_nil_iff.mp hfunctions
  constructor
  · intro ops md hrun hl
    have hinv := applyAll_notLoadedIsEmpty U ops md0 md hrun (fun _ => ⟨hfun0, hhash⟩) hl
    refine ⟨?_, ModuleData.FindFunctionFromHash_of_empty md hinv.2⟩
    unfold ModuleData.GetFunctions
    rw [hinv.1]
    rfl
  · refine ⟨[ModuleOperation.AddSymbols []], { md0 with is_loaded_ := true }, ?_, rfl, hfunctions⟩
    have hl0 : md0.is_loaded_ = false := hloaded
    simp [applyAll, ModuleOperation.apply, ModuleData.AddSymbols, ModuleData.AddSymbolsLoop, hl0]

/-- C30 at the module created from `sampleModuleInfo`: after `AddSymbols` of
`sampleSymbols` and `UpdateIfChangedAndUnload` with an info of another file size
the module is not loaded, `GetFunctions()` is empty and the hash 405 of `foo()`
is not found. -/
theorem C30_module_invariant_witness :
    (ModuleData.create sampleModuleInfo).is_loaded = false ∧
    ∃ md, applyAll sampleFunctionUtils [ModuleOperation.AddSymbols sampleSymbols,
        ModuleOperation.UpdateIfChangedAndUnload { sampleModuleInfo with file_size := 2000 }]
        (ModuleData.create sampleModuleInfo) = some md ∧
      md.is_loaded = false ∧ md.GetFunctions = [] ∧ md.FindFunctionFromHash 405 = none :=
  ⟨rfl, ⟨{ sampleModuleInfo with file_size := 2000 }, false, [],
      sampleLoadedModule.name_to_function_info_map_, []⟩, by decide, rfl,
    ((C30_module_invariant sampleFunctionUtils (ModuleData.create sampleModuleInfo) rfl rfl rfl).1
      [ModuleOperation.AddSymbols sampleSymbols,
        ModuleOperation.UpdateIfChangedAndUnload { sampleModuleInfo with file_size := 2000 }]
      ⟨{ sampleModuleInfo with file_size := 2000 }, false, [],
        sampleLoadedModule.name_to_function_info_map_, []⟩ (by decide) rfl).1,
    ((C30_module_invariant sampleFunctionUtils (ModuleData.create sampleModuleInfo) rfl rfl rfl).1
      [ModuleOperation.AddSymbols sampleSymbols,
        ModuleOperation.UpdateIfChangedAndUnload { sampleModuleInfo with file_size := 2000 }]
      ⟨{ sampleModuleInfo with file_size := 2000 }, false, [],
        sampleLoadedModule.name_to_function_info_map_, []⟩ (by decide) rfl).2 405⟩


/-! ## Lookup by address -/

theorem upper_bound_nil {ν : Type} (key : Nat) : upper_bound ([] : List (Nat × ν)) key = 0 := rfl

theorem upper_bound_cons {ν : Type} (entry : Nat × ν) (rest : List (Nat × ν)) (key : Nat) :
    upper_bound (entry :: rest) key =
      if entry.1 ≤ key then upper_bound rest key + 1 else 0 := by
  unfold upper_bound
  by_cases h : entry.1 ≤ key
  · rw [List.takeWhile_cons_of_pos (by simpa using h), if_pos h]
    rfl
  · rw [List.takeWhile_cons_of_neg (by simpa using h), if_neg h]
    rfl

/-- In a map in increasing key order `upper_bound` is 0 exactly when every key is
greater than `key`; otherwise the entry before it has the greatest key that is
at most `key`. -/
theorem upper_bound_spec {ν : Type} (m : List (Nat × ν)) (key : Nat)
    (hsorted : (m.map Prod.fst).Sorted (fun a b => a < b)) :
    (upper_bound m key = 0 → ∀ entry ∈ m, key < entry.1) ∧
    (0 < upper_bound m key → ∃ entry, m.get? (upper_bound m key - 1) = some entry ∧
      entry ∈ m ∧ entry.1 ≤ key ∧ ∀ other ∈ m, other.1 ≤ key → other.1 ≤ entry.1) := by
  induction m with
  | nil =>
    refine ⟨fun _ entry hmem => ?_, fun h => ?_⟩
    · cases hmem
    · rw [upper_bound_nil] at h
      exact absurd h (lt_irrefl 0)
  | cons head rest ih =>
    rw [List.map_cons, List.sorted_cons] at hsorted
    obtain ⟨hhead, hrest⟩ := hsorted
    have hlt : ∀ other ∈ rest, head.1 < other.1 := fun other hmem =>
      hhead other.1 (List.mem_map_of_mem Prod.fst hmem)
    obtain ⟨ih0, ihpos⟩ := ih hrest
    rw [upper_bound_cons]
    by_cases h : head.1 ≤ key
    · rw [if_pos h]
      refine ⟨fun h0 => absurd h0 (Nat.succ_ne_zero _), fun _ => ?_⟩
      rw [Nat.add_sub_cancel]
      rcases Nat.eq_zero_or_pos (upper_bound rest key) with h0 | hpos
      · rw [h0]
        refine ⟨head, rfl, List.mem_cons_self _ _, h, ?_⟩
        intro other hmem hle
        rcases List.mem_cons.mp hmem with rfl | hmem
        · exact le_refl _
        · exact absurd hle (not_le.mpr (ih0 h0 other hmem))
      · obtain ⟨entry, hget, hmem, hle, hmax⟩ := ihpos hpos
        refine ⟨entry, ?_, List.mem_cons_of_mem _ hmem, hle, ?_⟩
        · obtain ⟨n, hn⟩ : ∃ n, upper_bound rest key = n + 1 := ⟨_, (Nat.succ_pred_eq_of_pos hpos).symm⟩
          rw [hn] at hget ⊢
          simpa using hget
        · intro other hother hothle
          rcases List.mem_cons.mp hother with rfl | hother
          · exact le_of_lt (hlt entry hmem)
          · exact hmax other hother hothle
    · rw [if_neg h]
      refine ⟨fun _ entry hmem => ?_, fun hpos => absurd hpos (lt_irrefl 0)⟩
      rcases List.mem_cons.mp hmem with rfl | hmem
      · exact not_le.mp h
      · exact lt_trans (not_le.mp h) (hlt entry hmem)

theorem find_eq_some_of_sorted {ν : Type} (m : List (Nat × ν)) (key : Nat) (value : ν)
    (hsorted : (m.map Prod.fst).Sorted (fun a b => a < b)) :
    find m key = some value ↔ (key, value) ∈ m := by
  induction m with
  | nil => simp [find]
  | cons head rest ih =>
    obtain ⟨k, v⟩ := head
    rw [List.map_cons, List.sorted_cons] at hsorted
    obtain ⟨hhead, hrest⟩ := hsorted
    unfold find
    by_cases hk : k = key
    · subst hk
      rw [if_pos rfl]
      constructor
      · intro h
        cases h
        exact List.mem_cons_self _ _
      · intro h
        rcases List.mem_cons.mp h with h | h
        · cases h
          rfl
        · exact absurd (hhead k (List.mem_map_of_mem Prod.fst h)) (lt_irrefl _)
    · rw [if_neg hk, ih hrest]
      constructor
      · exact fun h => List.mem_cons_of_mem _ h
      · intro h
        rcases List.mem_cons.mp h with h | h
        · cases h
          exact absurd rfl hk
        · exact h


namespace ModuleData

theorem FindFunctionByElfAddress_exact (md : ModuleData) (elf_address : Nat) :
    md.FindFunctionByElfAddress elf_address true = some (find md.functions_ elf_address) := by
  unfold FindFunctionByElfAddress
  cases hfun : md.functions_ with
  | nil => rfl
  | cons head rest => rfl

theorem FindFunctionByElfAddress_of_greater (md : ModuleData) (elf_address : Nat)
    (hsorted : (md.functions_.map Prod.fst).Sorted (fun a b => a < b))
    (hgreater : ∀ entry ∈ md.functions_, elf_address < entry.1) :
    md.FindFunctionByElfAddress elf_address false = some none := by
  unfold FindFunctionByElfAddress
  by_cases hempty : md.functions_.isEmpty = true
  · rw [if_pos hempty]
  · rw [if_neg hempty, if_neg (by decide)]
    have h0 : upper_bound md.functions_ elf_address = 0 := by
      rcases Nat.eq_zero_or_pos (upper_bound md.functions_ elf_address) with h0 | hpos
      · exact h0
      · obtain ⟨entry, _, hmem, hle, _⟩ := (upper_bound_spec md.functions_ elf_address hsorted).2 hpos
        exact absurd hle (not_le.mpr (hgreater entry hmem))
    simp only [h0, if_true]

theorem FindFunctionByElfAddress_of_greatest (md : ModuleData) (elf_address : Nat)
    (hsorted : (md.functions_.map Prod.fst).Sorted (fun a b => a < b))
    (entry : Nat × FunctionInfo) (hmem : entry ∈ md.functions_) (hle : entry.1 ≤ elf_address)
    (hmax : ∀ other ∈ md.functions_, other.1 ≤ elf_address → other.1 ≤ entry.1) :
    md.FindFunctionByElfAddress elf_address false =
      if ¬ entry.2.address ≤ elf_address then none
      else if (entry.2.address + entry.2.size) % 2 ^ 64 < elf_address then some none
      else some (some entry.2) := by
  have hpos : 0 < upper_bound md.functions_ elf_address := by
    rcases Nat.eq_zero_or_pos (upper_bound md.functions_ elf_address) with h0 | hpos
    · exact absurd hle (not_le.mpr ((upper_bound_spec md.functions_ elf_address hsorted).1 h0
        entry hmem))
    · exact hpos
  obtain ⟨found, hget, hfmem, hfle, hfmax⟩ :=
    (upper_bound_spec md.functions_ elf_address hsorted).2 hpos
  have hkey : found.1 = entry.1 := le_antisymm (hmax found hfmem hfle) (hfmax entry hmem hle)
  have heq : found = entry :=
    List.inj_on_of_nodup_map hsorted.nodup hfmem hmem hkey
  subst heq
  unfold FindFunctionByElfAddress
  have hne : ¬ md.functions_.isEmpty = true := by
    intro hempty
    rw [List.isEmpty_iff] at hempty
    rw [hempty] at hmem
    cases hmem
  rw [if_neg hne, if_neg (by decide)]
  simp only [if_neg (Nat.pos_iff_ne_zero.mp hpos), hget]

end ModuleData

/-- C26: in a module whose `functions_` is in increasing key order and stores
every function under its address, `FindFunctionByElfAddress(a, true)` returns
the function stored under the key `a`, null when there is none. With
`is_exact = false` it returns null when no stored function has an address at
most `a`; otherwise, `f` being the stored function with the greatest address at
most `a` and `f.address + f.size` not wrapping around in 64 bits, it returns `f`
when `a ≤ f.address + f.size`, so also at one past the end and for a function of
size zero at its own address, and null when `a > f.address + f.size`. -/
theorem C26_find_function_by_elf_address (md : ModuleData) (elf_address : Nat)
    (hsorted : (md.functions_.map Prod.fst).Sorted (fun a b => a < b))
    (hkeys : ∀ entry ∈ md.functions_, entry.2.address = entry.1) :
    md.FindFunctionByElfAddress elf_address true = some (find md.functions_ elf_address) ∧
    (∀ function, md.FindFunctionByElfAddress elf_address true = some (some function) ↔
      function ∈ md.GetFunctions ∧ function.address = elf_address) ∧
    ((∀ function ∈ md.GetFunctions, elf_address < function.address) →
      md.FindFunctionByElfAddress elf_address false = some none) ∧
    (∀ function ∈ md.GetFunctions, function.address ≤ elf_address →
      (∀ other ∈ md.GetFunctions, other.address ≤ elf_address →
        other.address ≤ function.address) →
      function.address + function.size < 2 ^ 64 →
      md.FindFunctionByElfAddress elf_address false =
        some (if elf_address ≤ function.address + function.size then some function else none) ∧
      (elf_address = function.address + function.size →
        md.FindFunctionByElfAddress elf_address false = some (some function)) ∧
      (function.size = 0 → elf_address = function.address →
        md.FindFunctionByElfAddress elf_address false = some (some function))) := by
  have hmemfun : ∀ entry ∈ md.functions_, entry.2 ∈ md.GetFunctions := fun entry hmem =>
    List.mem_map_of_mem Prod.snd hmem
  have hentry : ∀ function ∈ md.GetFunctions, (function.address, function) ∈ md.functions_ := by
    intro function hmem
    obtain ⟨entry, hentry, rfl⟩ := List.mem_map.mp hmem
    rw [hkeys entry hentry]
    exact hentry
  refine ⟨ModuleData.FindFunctionByElfAddress_exact md elf_address, ?_, ?_, ?_⟩
  · intro function
    rw [ModuleData.FindFunctionByElfAddress_exact, Option.some_inj,
      find_eq_some_of_sorted md.functions_ elf_address function hsorted]
    constructor
    · intro hmem
      exact ⟨hmemfun _ hmem, hkeys _ hmem⟩
    · rintro ⟨hmem, rfl⟩
      exact hentry function hmem
  · intro hgreater
    refine ModuleData.FindFunctionByElfAddress_of_greater md elf_address hsorted ?_
    intro entry hmem
    rw [← hkeys entry hmem]
    exact hgreater entry.2 (hmemfun entry hmem)
  · intro function hmem hle hmax hwrap
    have hcall := ModuleData.FindFunctionByElfAddress_of_greatest md elf_address hsorted
      (function.address, function) (hentry function hmem) hle (by
        intro other hother hothle
        have hk := hkeys other hother
        have := hmax other.2 (hmemfun other hother) (by rw [hk]; exact hothle)
        rw [hk] at this
        exact this)
    simp only [if_neg (not_not.mpr hle), Nat.mod_eq_of_lt hwrap] at hcall
    have hmain : md.FindFunctionByElfAddress elf_address false =
        some (if elf_address ≤ function.address + function.size then some function else none) := by
      rw [hcall]
      by_cases hin : elf_address ≤ function.address + function.size
      · rw [if_neg (not_lt.mpr hin), if_pos hin]
      · rw [if_pos (not_le.mp hin), if_neg hin]
    refine ⟨hmain, ?_, ?_⟩
    · intro hend
      rw [hmain, if_pos (le_of_eq hend)]
    · intro hsize hown
      rw [hmain, if_pos (by omega)]

/-- C26 at `sampleLoadedModule`, whose functions are `foo()` at 0x100 with size
0x20 and `bar()` at 0x200 with size 0: the address 0x120, one past the end of
`foo()`, is attributed to `foo()`. -/
theorem C26_find_function_by_elf_address_witness :
    (sampleLoadedModule.functions_.map Prod.fst).Sorted (fun a b => a < b) ∧
    sampleLoadedModule.FindFunctionByElfAddress 0x120 false =
      some (some ⟨"_Z3foov", "foo()", "/usr/lib/libfoo.so", "", 0x100, 0x20⟩) :=
  ⟨by decide,
    ((C26_find_function_by_elf_address sampleLoadedModule 0x120 (by decide) (by decide)).2.2.2
      ⟨"_Z3foov", "foo()", "/usr/lib/libfoo.so", "", 0x100, 0x20⟩ (by decide) (by decide)
      (by decide) (by decide)).2.1 (by decide)⟩


/-! ## Lemmas about the ordered map -/

theorem find_isSome_iff {ν : Type} (m : List (Nat × ν)) (key : Nat) :
    (find m key).isSome = true ↔ key ∈ m.map Prod.fst := by
  induction m with
  | nil => simp [find]
  | cons head rest ih =>
    obtain ⟨k, v⟩ := head
    unfold find
    by_cases hk : k = key
    · rw [if_pos hk]
      simp [hk]
    · rw [if_neg hk, ih, List.map_cons, List.mem_cons]
      constructor
      · exact fun h => Or.inr h
      · rintro (h | h)
        · exact absurd h.symm hk
        · exact h

theorem find_eq_none_of_lt {ν : Type} (m : List (Nat × ν)) (key : Nat)
    (hlt : ∀ k ∈ m.map Prod.fst, key < k) : find m key = none := by
  cases hfind : find m key with
  | none => rfl
  | some value =>
    have hmem := (find_isSome_iff m key).mp (by rw [hfind]; rfl)
    exact absurd (hlt key hmem) (lt_irrefl _)

theorem map_try_emplace_keys {ν : Type} (m : List (Nat × ν)) (key : Nat) (value : ν) (k : Nat) :
    k ∈ (map_try_emplace m key value).1.map Prod.fst ↔ k = key ∨ k ∈ m.map Prod.fst := by
  induction m with
  | nil => simp [map_try_emplace]
  | cons head rest ih =>
    obtain ⟨k', v'⟩ := head
    unfold map_try_emplace
    by_cases h1 : key < k'
    · rw [if_pos h1]
      simp
    · rw [if_neg h1]
      by_cases h2 : key = k'
      · rw [if_pos h2]
        simp [h2]
      · rw [if_neg h2]
        simp only [List.map_cons, List.mem_cons, ih]
        tauto

theorem map_try_emplace_sorted {ν : Type} (m : List (Nat × ν)) (key : Nat) (value : ν)
    (hsorted : (m.map Prod.fst).Sorted (fun a b => a < b)) :
    ((map_try_emplace m key value).1.map Prod.fst).Sorted (fun a b => a < b) := by
  induction m with
  | nil => simp [map_try_emplace]
  | cons head rest ih =>
    obtain ⟨k', v'⟩ := head
    have hs := hsorted
    rw [List.map_cons, List.sorted_cons] at hs
    obtain ⟨hhead, hrest⟩ := hs
    unfold map_try_emplace
    by_cases h1 : key < k'
    · rw [if_pos h1, List.map_cons, List.sorted_cons]
      refine ⟨?_, hsorted⟩
      intro b hb
      rcases List.mem_cons.mp hb with rfl | hb
      · exact h1
      · exact lt_trans h1 (hhead b hb)
    · rw [if_neg h1]
      by_cases h2 : key = k'
      · rw [if_pos h2]
        exact hsorted
      · rw [if_neg h2, List.map_cons, List.sorted_cons]
        refine ⟨?_, ih hrest⟩
        intro b hb
        rcases (map_try_emplace_keys rest key value b).mp hb with rfl | hb
        · omega
        · exact hhead b hb

theorem map_try_emplace_find {ν : Type} (m : List (Nat × ν)) (key : Nat) (value : ν) (k : Nat)
    (hsorted : (m.map Prod.fst).Sorted (fun a b => a < b)) :
    find (map_try_emplace m key value).1 k =
      (find m k).orElse (fun _ => if k = key then some value else none) := by
  induction m with
  | nil =>
    unfold map_try_emplace find
    by_cases hk : key = k
    · simp [hk, find]
    · simp [hk, find, Ne.symm hk]
  | cons head rest ih =>
    obtain ⟨k', v'⟩ := head
    rw [List.map_cons, List.sorted_cons] at hsorted
    obtain ⟨hhead, hrest⟩ := hsorted
    unfold map_try_emplace
    by_cases h1 : key < k'
    · rw [if_pos h1]
      by_cases hk : key = k
      · subst hk
        have hnone : find ((k', v') :: rest) key = none :=
          find_eq_none_of_lt _ key (by
            intro b hb
            rcases List.mem_cons.mp hb with rfl | hb
            · exact h1
            · exact lt_trans h1 (hhead b hb))
        rw [hnone]
        simp [find]
      · conv_lhs => unfold find
        rw [if_neg hk]
        cases hfind : find ((k', v') :: rest) k <;> simp [Ne.symm hk]
    · rw [if_neg h1]
      by_cases h2 : key = k'
      · rw [if_pos h2]
        subst h2
        by_cases hk : key = k
        · subst hk
          simp [find]
        · cases hfind : find ((key, v') :: rest) k <;> simp [Ne.symm hk]
      · rw [if_neg h2]
        unfold find
        by_cases hk : k' = k
        · rw [if_pos hk, if_pos hk]
          rfl
        · rw [if_neg hk, if_neg hk]
          exact ih hrest

theorem map_try_emplace_snd {ν : Type} (m : List (Nat × ν)) (key : Nat) (value : ν)
    (hsorted : (m.map Prod.fst).Sorted (fun a b => a < b)) :
    (map_try_emplace m key value).2 = (find m key).isNone := by
  induction m with
  | nil => rfl
  | cons head rest ih =>
    obtain ⟨k', v'⟩ := head
    rw [List.map_cons, List.sorted_cons] at hsorted
    obtain ⟨hhead, hrest⟩ := hsorted
    unfold map_try_emplace
    by_cases h1 : key < k'
    · rw [if_pos h1]
      have hnone : find ((k', v') :: rest) key = none :=
        find_eq_none_of_lt _ key (by
          intro b hb
          rcases List.mem_cons.mp hb with rfl | hb
          · exact h1
          · exact lt_trans h1 (hhead b hb))
      rw [hnone]
      rfl
    · rw [if_neg h1]
      by_cases h2 : key = k'
      · rw [if_pos h2]
        subst h2
        simp [find]
      · rw [if_neg h2]
        unfold find
        rw [if_neg (Ne.symm h2)]
        exact ih hrest

theorem map_try_emplace_of_present {ν : Type} (m : List (Nat × ν)) (key : Nat) (value : ν)
    (hsorted : (m.map Prod.fst).Sorted (fun a b => a < b))
    (hpresent : (find m key).isSome = true) : map_try_emplace m key value = (m, false) := by
  induction m with
  | nil => simp [find] at hpresent
  | cons head rest ih =>
    obtain ⟨k', v'⟩ := head
    rw [List.map_cons, List.sorted_cons] at hsorted
    obtain ⟨hhead, hrest⟩ := hsorted
    unfold map_try_emplace
    by_cases h1 : key < k'
    · have hnone : find ((k', v') :: rest) key = none :=
        find_eq_none_of_lt _ key (by
          intro b hb
          rcases List.mem_cons.mp hb with rfl | hb
          · exact h1
          · exact lt_trans h1 (hhead b hb))
      rw [hnone] at hpresent
      cases hpresent
    · rw [if_neg h1]
      by_cases h2 : key = k'
      · rw [if_pos h2]
      · rw [if_neg h2]
        unfold find at hpresent
        rw [if_neg (Ne.symm h2)] at hpresent
        rw [ih hrest hpresent]


/-! ## Lemmas about `AddSymbols` -/

namespace ModuleData

theorem AddSymbol_of_present (U : FunctionUtils) (symbol_info : SymbolInfo) (md : ModuleData)
    (hsorted : (md.functions_.map Prod.fst).Sorted (fun a b => a < b))
    (hpresent : (find md.functions_ symbol_info.address).isSome = true) :
    AddSymbol U symbol_info md = some md := by
  unfold AddSymbol
  simp only [map_try_emplace_of_present md.functions_ symbol_info.address _ hsorted hpresent]
  rfl

theorem AddSymbol_isSome (U : FunctionUtils) (symbol_info : SymbolInfo) (md : ModuleData)
    (hname : (U.CreateFunctionInfo symbol_info md.file_path md.build_id).pretty_name ≠ "") :
    ∃ md', AddSymbol U symbol_info md = some md' := by
  unfold AddSymbol
  dsimp only
  by_cases hins : (map_try_emplace md.functions_ symbol_info.address
      (U.CreateFunctionInfo symbol_info md.file_path md.build_id)).2 = true
  · rw [if_pos hins, if_neg hname]
    exact ⟨_, rfl⟩
  · rw [if_neg hins]
    exact ⟨_, rfl⟩

theorem AddSymbol_some (U : FunctionUtils) (symbol_info : SymbolInfo) (md md' : ModuleData)
    (hsorted : (md.functions_.map Prod.fst).Sorted (fun a b => a < b))
    (h : AddSymbol U symbol_info md = some md') :
    md'.module_info_ = md.module_info_ ∧ md'.is_loaded_ = md.is_loaded_ ∧
    md'.functions_ = (map_try_emplace md.functions_ symbol_info.address
      (U.CreateFunctionInfo symbol_info md.file_path md.build_id)).1 := by
  by_cases hpresent : (find md.functions_ symbol_info.address).isSome = true
  · rw [AddSymbol_of_present U symbol_info md hsorted hpresent] at h
    cases h
    rw [map_try_emplace_of_present md.functions_ symbol_info.address _ hsorted hpresent]
    exact ⟨rfl, rfl, rfl⟩
  · have hsnd := map_try_emplace_snd md.functions_ symbol_info.address
      (U.CreateFunctionInfo symbol_info md.file_path md.build_id) hsorted
    have hins : (map_try_emplace md.functions_ symbol_info.address
        (U.CreateFunctionInfo symbol_info md.file_path md.build_id)).2 = true := by
      rw [hsnd]
      cases hfind : find md.functions_ symbol_info.address with
      | none => rfl
      | some value =>
        rw [hfind] at hpresent
        exact absurd rfl hpresent
    unfold AddSymbol at h
    dsimp only at h
    rw [if_pos hins] at h
    split at h
    · cases h
    · cases h
      exact ⟨rfl, rfl, rfl⟩

theorem AddSymbol_sorted (U : FunctionUtils) (symbol_info : SymbolInfo) (md md' : ModuleData)
    (hsorted : (md.functions_.map Prod.fst).Sorted (fun a b => a < b))
    (h : AddSymbol U symbol_info md = some md') :
    (md'.functions_.map Prod.fst).Sorted (fun a b => a < b) := by
  rw [(AddSymbol_some U symbol_info md md' hsorted h).2.2]
  exact map_try_emplace_sorted _ _ _ hsorted

theorem AddSymbol_find (U : FunctionUtils) (symbol_info : SymbolInfo) (md md' : ModuleData)
    (hsorted : (md.functions_.map Prod.fst).Sorted (fun a b => a < b))
    (h : AddSymbol U symbol_info md = some md') (address : Nat) :
    find md'.functions_ address =
      (find md.functions_ address).orElse (fun _ =>
        if address = symbol_info.address then
          some (U.CreateFunctionInfo symbol_info md.file_path md.build_id)
        else none) := by
  rw [(AddSymbol_some U symbol_info md md' hsorted h).2.2]
  exact map_try_emplace_find _ _ _ _ hsorted

theorem AddSymbol_present (U : FunctionUtils) (symbol_info : SymbolInfo) (md md' : ModuleData)
    (hsorted : (md.functions_.map Prod.fst).Sorted (fun a b => a < b))
    (h : AddSymbol U symbol_info md = some md') (address : Nat)
    (hpresent : (find md.functions_ address).isSome = true) :
    (find md'.functions_ address).isSome = true := by
  rw [AddSymbol_find U symbol_info md md' hsorted h address]
  cases hfind : find md.functions_ address with
  | none =>
    rw [hfind] at hpresent
    cases hpresent
  | some value => rfl

/-- Symbols whose address is stored already do not change what the loop does. -/
theorem AddSymbolsLoop_filter (U : FunctionUtils) (address : Nat) (module_symbols : List SymbolInfo) :
    ∀ md : ModuleData, (md.functions_.map Prod.fst).Sorted (fun a b => a < b) →
      (find md.functions_ address).isSome = true →
      AddSymbolsLoop U (module_symbols.filter (fun later => decide (later.address ≠ address))) md =
        AddSymbolsLoop U module_symbols md := by
  induction module_symbols with
  | nil =>
    intro md _ _
    rfl
  | cons symbol_info rest ih =>
    intro md hsorted hpresent
    by_cases haddr : symbol_info.address = address
    · rw [List.filter_cons_of_neg (by simpa using haddr), ih md hsorted hpresent]
      conv_rhs => unfold AddSymbolsLoop
      rw [AddSymbol_of_present U symbol_info md hsorted (by rw [haddr]; exact hpresent)]
      rfl
    · rw [List.filter_cons_of_pos (by simpa using haddr)]
      unfold AddSymbolsLoop
      cases hstep : AddSymbol U symbol_info md with
      | none => rfl
      | some md' =>
        exact ih md' (AddSymbol_sorted U symbol_info md md' hsorted hstep)
          (AddSymbol_present U symbol_info md md' hsorted hstep address hpresent)

/-- The loop does the same on the symbols that are the first with their address. -/
theorem AddSymbolsLoop_firstSymbols (U : FunctionUtils) (module_symbols : List SymbolInfo) :
    ∀ md : ModuleData, (md.functions_.map Prod.fst).Sorted (fun a b => a < b) →
      AddSymbolsLoop U (firstSymbols module_symbols) md = AddSymbolsLoop U module_symbols md := by
  induction module_symbols with
  | nil =>
    intro md _
    rfl
  | cons symbol_info rest ih =>
    intro md hsorted
    unfold firstSymbols AddSymbolsLoop
    cases hstep : AddSymbol U symbol_info md with
    | none => rfl
    | some md' =>
      have hsorted' := AddSymbol_sorted U symbol_info md md' hsorted hstep
      have hpresent : (find md'.functions_ symbol_info.address).isSome = true := by
        rw [AddSymbol_find U symbol_info md md' hsorted hstep]
        cases hfind : find md.functions_ symbol_info.address <;> simp
      show AddSymbolsLoop U _ md' = AddSymbolsLoop U rest md'
      rw [AddSymbolsLoop_filter U symbol_info.address (firstSymbols rest) md' hsorted' hpresent]
      exact ih md' hsorted'

/-- The loop ends when every created function has a pretty name; it keeps the
module info, the loaded flag and the key order, and stores under each address
what was stored before, or else the function of the first symbol with it. -/
theorem AddSymbolsLoop_spec (U : FunctionUtils) (module_symbols : List SymbolInfo) :
    ∀ md : ModuleData, (md.functions_.map Prod.fst).Sorted (fun a b => a < b) →
      (∀ symbol_info ∈ module_symbols,
        (U.CreateFunctionInfo symbol_info md.file_path md.build_id).pretty_name ≠ "") →
      ∃ md', AddSymbolsLoop U module_symbols md = some md' ∧
        md'.module_info_ = md.module_info_ ∧ md'.is_loaded_ = md.is_loaded_ ∧
        (md'.functions_.map Prod.fst).Sorted (fun a b => a < b) ∧
        ∀ address, find md'.functions_ address =
          (find md.functions_ address).orElse (fun _ =>
            (firstSymbolAt module_symbols address).map (fun symbol_info =>
              U.CreateFunctionInfo symbol_info md.file_path md.build_id)) := by
  induction module_symbols with
  | nil =>
    intro md hsorted _
    refine ⟨md, rfl, rfl, rfl, hsorted, ?_⟩
    intro address
    cases find md.functions_ address <;> rfl
  | cons symbol_info rest ih =>
    intro md hsorted hnames
    obtain ⟨md1, hstep⟩ := AddSymbol_isSome U symbol_info md
      (hnames symbol_info (List.mem_cons_self _ _))
    obtain ⟨hinfo1, hloaded1, _⟩ := AddSymbol_some U symbol_info md md1 hsorted hstep
    have hpath : md1.file_path = md.file_path := by
      unfold file_path
      rw [hinfo1]
    have hbuild : md1.build_id = md.build_id := by
      unfold build_id
      rw [hinfo1]
    obtain ⟨md', hloop, hinfo, hloaded, hsorted', hfind⟩ :=
      ih md1 (AddSymbol_sorted U symbol_info md md1 hsorted hstep) (by
        intro later hmem
        rw [hpath, hbuild]
        exact hnames later (List.mem_cons_of_mem _ hmem))
    refine ⟨md', ?_, hinfo.trans hinfo1, hloaded.trans hloaded1, hsorted', ?_⟩
    · unfold AddSymbolsLoop
      rw [hstep]
      exact hloop
    · intro address
      rw [hfind address, AddSymbol_find U symbol_info md md1 hsorted hstep address, hpath, hbuild]
      unfold firstSymbolAt
      cases hold : find md.functions_ address with
      | some value => rfl
      | none =>
        by_cases haddr : address = symbol_info.address
        · subst haddr
          simp
        · have hne : ¬ symbol_info.address = address := fun h => haddr h.symm
          simp [haddr, hne]

end ModuleData


theorem map_snd_eq_filterMap_find {ν : Type} (m : List (Nat × ν))
    (hsorted : (m.map Prod.fst).Sorted (fun a b => a < b)) :
    m.map Prod.snd = (m.map Prod.fst).filterMap (find m) := by
  induction m with
  | nil => rfl
  | cons head rest ih =>
    obtain ⟨k, v⟩ := head
    rw [List.map_cons, List.sorted_cons] at hsorted
    obtain ⟨hhead, hrest⟩ := hsorted
    have hk : find ((k, v) :: rest) k = some v := by
      unfold find
      rw [if_pos rfl]
    rw [List.map_cons, List.map_cons, List.filterMap_cons_some hk, ih hrest]
    congr 1
    apply List.filterMap_congr
    intro key hmem
    unfold find
    rw [if_neg (ne_of_lt (hhead key hmem))]
    cases rest <;> rfl

theorem firstSymbolAt_isSome_iff (module_symbols : List SymbolInfo) (address : Nat) :
    (firstSymbolAt module_symbols address).isSome = true ↔
      address ∈ module_symbols.map SymbolInfo.address := by
  unfold firstSymbolAt
  rw [List.find?_isSome, List.mem_map]
  constructor
  · rintro ⟨symbol_info, hmem, haddr⟩
    exact ⟨symbol_info, hmem, by simpa using haddr⟩
  · rintro ⟨symbol_info, hmem, haddr⟩
    exact ⟨symbol_info, hmem, by simpa using haddr⟩

theorem firstSymbolAt_firstSymbols (module_symbols : List SymbolInfo) (address : Nat) :
    firstSymbolAt (firstSymbols module_symbols) address = firstSymbolAt module_symbols address := by
  induction module_symbols with
  | nil => rfl
  | cons symbol_info rest ih =>
    unfold firstSymbolAt at ih ⊢
    unfold firstSymbols
    by_cases haddr : symbol_info.address = address
    · rw [List.find?_cons_of_pos _ (by simpa using haddr),
        List.find?_cons_of_pos _ (by simpa using haddr)]
    · rw [List.find?_cons_of_neg _ (by simpa using haddr),
        List.find?_cons_of_neg _ (by simpa using haddr), List.find?_filter, ← ih]
      congr 1
      funext later
      by_cases hlater : later.address = address
      · have hne : ¬ address = symbol_info.address := fun h => haddr h.symm
        simp [hlater, hne]
      · simp [hlater]

/-- What `AddSymbols` does on a module that is not loaded and stores no
function, when the functions created from the first symbols of their address
have a pretty name. -/
theorem ModuleData.AddSymbols_spec (U : FunctionUtils) (module_symbols : List SymbolInfo)
    (md : ModuleData) (hloaded : md.is_loaded_ = false) (hfunctions : md.functions_ = [])
    (hnames : ∀ symbol_info ∈ firstSymbols module_symbols,
      (U.CreateFunctionInfo symbol_info md.file_path md.build_id).pretty_name ≠ "") :
    ∃ md', md.AddSymbols U module_symbols = some md' ∧ md'.is_loaded_ = true ∧
      md'.module_info_ = md.module_info_ ∧
      (∀ address, find md'.functions_ address =
        (firstSymbolAt module_symbols address).map (fun symbol_info =>
          U.CreateFunctionInfo symbol_info md.file_path md.build_id)) ∧
      (md'.functions_.map Prod.fst).Sorted (fun a b => a < b) ∧
      md.AddSymbols U (firstSymbols module_symbols) = some md' := by
  have hsorted : (md.functions_.map Prod.fst).Sorted (fun a b => a < b) := by
    rw [hfunctions]
    exact List.sorted_nil
  obtain ⟨loaded, hloop, hinfo, _, hsorted', hfind⟩ :=
    ModuleData.AddSymbolsLoop_spec U (firstSymbols module_symbols) md hsorted hnames
  refine ⟨{ loaded with is_loaded_ := true }, ?_, rfl, hinfo, ?_, hsorted', ?_⟩
  · unfold ModuleData.AddSymbols
    rw [hloaded, ← ModuleData.AddSymbolsLoop_firstSymbols U module_symbols md hsorted, hloop]
    rfl
  · intro address
    show find loaded.functions_ address = _
    rw [hfind address, hfunctions, firstSymbolAt_firstSymbols]
    rfl
  · unfold ModuleData.AddSymbols
    rw [hloaded, hloop]
    rfl


/-! ## Claim about `AddSymbols` -/

/-- C29: `AddSymbols` on a module that is not loaded, reached from a module with
no function and no hash entry by calls that pass their `CHECK`s, the function
created from the first symbol of each address having a pretty name, which is
what the call checks of the functions it stores; nothing is asked of the later
symbols of an address. The call ends
and the module is loaded afterwards, also for an empty list. Under each address
the stored function is the one created from the first symbol of the list with
that address, and nothing is stored under an address of no symbol. The keys of
`functions_` are the addresses of the symbols, each once, in increasing order,
and `GetFunctions()` lists the functions of the first symbols in this order.
Later symbols with an address already seen are ignored altogether: the call
leaves the same module, name and hash lookup included, as the call with only
the first symbol of each address. -/
theorem C29_add_symbols (U : FunctionUtils) (md0 md : ModuleData)
    (ops : List ModuleOperation) (module_symbols : List SymbolInfo)
    (hfunctions0 : md0.GetFunctions = []) (hhash0 : md0.hash_to_function_map_ = [])
    (hreach : applyAll U ops md0 = some md) (hloaded : md.is_loaded = false)
    (hnames : ∀ symbol_info ∈ firstSymbols module_symbols,
      (U.CreateFunctionInfo symbol_info md.file_path md.build_id).pretty_name ≠ "") :
    ∃ md', md.AddSymbols U module_symbols = some md' ∧
      md'.is_loaded = true ∧
      (∀ address, find md'.functions_ address =
        (firstSymbolAt module_symbols address).map (fun symbol_info =>
          U.CreateFunctionInfo symbol_info md.file_path md.build_id)) ∧
      (md'.functions_.map Prod.fst).Sorted (fun a b => a < b) ∧
      (∀ address, address ∈ md'.functions_.map Prod.fst ↔
        address ∈ module_symbols.map SymbolInfo.address) ∧
      md'.GetFunctions = (md'.functions_.map Prod.fst).filterMap (fun address =>
        (firstSymbolAt module_symbols address).map (fun symbol_info =>
          U.CreateFunctionInfo symbol_info md.file_path md.build_id)) ∧
      ((∀ symbol_info module_path module_build_id,
          (U.CreateFunctionInfo symbol_info module_path module_build_id).address =
            symbol_info.address) →
        (md'.GetFunctions.map FunctionInfo.address).Sorted (fun a b => a < b)) ∧
      md.AddSymbols U (firstSymbols module_symbols) = some md' ∧
      (module_symbols = [] → md' = { md with is_loaded_ := true }) := by
  have hinv := applyAll_notLoadedIsEmpty U ops md0 md hreach
    (fun _ => ⟨List.map_eq_nil_iff.mp hfunctions0, hhash0⟩) hloaded
  obtain ⟨md', hcall, hl, _, hfind, hsorted, hfirst⟩ :=
    ModuleData.AddSymbols_spec U module_symbols md hloaded hinv.1 hnames
  have hget : md'.GetFunctions = (md'.functions_.map Prod.fst).filterMap (fun address =>
      (firstSymbolAt module_symbols address).map (fun symbol_info =>
        U.CreateFunctionInfo symbol_info md.file_path md.build_id)) := by
    unfold ModuleData.GetFunctions
    rw [map_snd_eq_filterMap_find md'.functions_ hsorted]
    exact List.filterMap_congr (fun address _ => hfind address)
  refine ⟨md', hcall, hl, hfind, hsorted, ?_, hget, ?_, hfirst, ?_⟩
  · intro address
    rw [← find_isSome_iff, hfind address, Option.isSome_map', firstSymbolAt_isSome_iff]
  · intro hkeep
    have hmap : md'.GetFunctions.map FunctionInfo.address = md'.functions_.map Prod.fst := by
      unfold ModuleData.GetFunctions
      rw [List.map_map]
      apply List.map_congr_left
      intro entry hmem
      have hentry : find md'.functions_ entry.1 = some entry.2 :=
        (find_eq_some_of_sorted md'.functions_ entry.1 entry.2 hsorted).mpr hmem
      rw [hfind entry.1] at hentry
      obtain ⟨symbol_info, hsym, hcreate⟩ := Option.map_eq_some'.mp hentry
      have haddr : symbol_info.address = entry.1 := by
        unfold firstSymbolAt at hsym
        simpa using List.find?_some hsym
      show entry.2.address = entry.1
      rw [← hcreate, hkeep, haddr]
    rw [hmap]
    exact hsorted
  · intro hnil
    subst hnil
    have h := hcall
    unfold ModuleData.AddSymbols at h
    have hl0 : md.is_loaded_ = false := hloaded
    simp only [hl0, ModuleData.AddSymbolsLoop] at h
    cases h
    rfl

/-- C29 at the module created from `sampleModuleInfo` and the symbols `foo()` at
0x100, `bar()` at 0x200 and a later symbol at 0x100 whose function has no pretty
name: only `foo()` and `bar()` are the first of their address, the call ends and
gives `sampleLoadedModule`, under 0x100 the function `foo()` is stored, and the
later symbol is in neither lookup. -/
theorem C29_add_symbols_witness :
    (ModuleData.create sampleModuleInfo).is_loaded = false ∧
    firstSymbols [⟨"_Z3foov", "foo()", 0x100, 0x20⟩, ⟨"_Z3barv", "bar()", 0x200, 0⟩,
        ⟨"_anonymous", "", 0x100, 8⟩] =
      [⟨"_Z3foov", "foo()", 0x100, 0x20⟩, ⟨"_Z3barv", "bar()", 0x200, 0⟩] ∧
    (ModuleData.create sampleModuleInfo).AddSymbols sampleFunctionUtils
        [⟨"_Z3foov", "foo()", 0x100, 0x20⟩, ⟨"_Z3barv", "bar()", 0x200, 0⟩,
          ⟨"_anonymous", "", 0x100, 8⟩] =
      some sampleLoadedModule ∧
    sampleLoadedModule.FindFunctionFromPrettyName "" = none ∧
    ∃ md', (ModuleData.create sampleModuleInfo).AddSymbols sampleFunctionUtils
          [⟨"_Z3foov", "foo()", 0x100, 0x20⟩, ⟨"_Z3barv", "bar()", 0x200, 0⟩,
            ⟨"_anonymous", "", 0x100, 8⟩] =
        some md' ∧
      md'.is_loaded = true ∧
      find md'.functions_ 0x100 =
        some ⟨"_Z3foov", "foo()", "/usr/lib/libfoo.so", "", 0x100, 0x20⟩ :=
  ⟨rfl, by decide, by decide, by decide,
    let ⟨md', hcall, hl, hfind, _⟩ := C29_add_symbols sampleFunctionUtils
      (ModuleData.create sampleModuleInfo) (ModuleData.create sampleModuleInfo) []
      [⟨"_Z3foov", "foo()", 0x100, 0x20⟩, ⟨"_Z3barv", "bar()", 0x200, 0⟩,
        ⟨"_anonymous", "", 0x100, 8⟩]
      rfl rfl rfl rfl (by decide)
    ⟨md', hcall, hl, (hfind 0x100).trans (by decide)⟩⟩


end orbit_client_data

/-! # ModulesDataView -/

namespace orbit_data_views

open orbit_linux_tracing (find insert_or_assign)
open orbit_client_data (ModuleInfo ModuleData ModuleInMemory)

/-! ## Lemmas about the filter -/

theorem StrContains_iff (haystack needle : String) :
    StrContains haystack needle = true ↔ List.IsInfix needle.data haystack.data := by
  unfold StrContains
  rw [List.any_eq_true, List.infix_iff_prefix_suffix]
  constructor
  · rintro ⟨rest, hrest, hstart⟩
    exact ⟨rest, List.isPrefixOf_iff_prefix.mp hstart, (List.mem_tails _ _).mp hrest⟩
  · rintro ⟨rest, hstart, hrest⟩
    exact ⟨rest, (List.mem_tails _ _).mpr hrest, List.isPrefixOf_iff_prefix.mpr hstart⟩

theorem StrContains_empty (haystack : String) : StrContains haystack "" = true := by
  rw [StrContains_iff]
  exact List.nil_infix

theorem StrSplit_empty : StrSplit (AsciiStrToLower "") ' ' = [""] := by decide

theorem filterMap_ite_eq_map_filter {α β : Type} (p : α → Bool) (f : α → β) (l : List α) :
    l.filterMap (fun x => if p x = true then some (f x) else none) = (l.filter p).map f := by
  induction l with
  | nil => rfl
  | cons head rest ih =>
    by_cases hp : p head = true
    · rw [List.filterMap_cons_some (by rw [if_pos hp]), List.filter_cons_of_pos hp, List.map_cons,
        ih]
    · rw [List.filterMap_cons_none (by rw [if_neg hp]), List.filter_cons_of_neg hp, ih]

theorem find_eq_some_iff_of_nodup {ν : Type} (m : List (Nat × ν)) (key : Nat) (value : ν)
    (hkeys : (m.map Prod.fst).Nodup) : find m key = some value ↔ (key, value) ∈ m := by
  induction m with
  | nil => simp [find]
  | cons head rest ih =>
    obtain ⟨k, v⟩ := head
    rw [List.map_cons, List.nodup_cons] at hkeys
    obtain ⟨hhead, hrest⟩ := hkeys
    unfold find
    by_cases hk : k = key
    · subst hk
      rw [if_pos rfl]
      constructor
      · intro h
        cases h
        exact List.mem_cons_self _ _
      · intro h
        rcases List.mem_cons.mp h with h | h
        · cases h
          rfl
        · exact absurd (List.mem_map_of_mem Prod.fst h) hhead
    · rw [if_neg hk, ih hrest]
      constructor
      · exact fun h => List.mem_cons_of_mem _ h
      · intro h
        rcases List.mem_cons.mp h with h | h
        · cases h
          exact absurd rfl hk
        · exact h

/-- The rows that `DoFilter` leaves: the keys of the entries that match. -/
theorem DoFilter_indices (FormattedAddressRange : ModuleInMemory → String)
    (view : ModulesDataView) :
    (DoFilter FormattedAddressRange view).indices_ =
      (view.start_address_to_module_in_memory_.filter (fun entry =>
        (StrSplit (AsciiStrToLower view.filter_) ' ').all (fun filter_token =>
          StrContains
            (FormattedAddressRange entry.2 ++ " " ++ AsciiStrToLower entry.2.file_path)
            filter_token))).map Prod.fst := by
  unfold DoFilter
  exact filterMap_ite_eq_map_filter _ _ _


/-! ## Claim about the filter -/

/-- C24: after `DoFilter`, in a view whose map of modules in memory has one entry
per start address, the visible rows are exactly the start addresses of the
modules `m` of the map such that every token of the lower-cased filter, split
at single spaces, is a substring of `FormattedAddressRange(m)`, a space and the
lower-cased file path of `m`; each such row is there once. All tokens have to
match; the filter and the file path are compared in lower case, so two filters
with the same lower-case form leave the same rows; the empty filter keeps every
module. The two maps are not changed. -/
theorem C24_do_filter (FormattedAddressRange : ModuleInMemory → String)
    (view : ModulesDataView)
    (hkeys : (view.start_address_to_module_in_memory_.map Prod.fst).Nodup) :
    (DoFilter FormattedAddressRange view).indices_.Nodup ∧
    (∀ start_address, start_address ∈ (DoFilter FormattedAddressRange view).indices_ ↔
      ∃ memory_space,
        find view.start_address_to_module_in_memory_ start_address = some memory_space ∧
        ∀ filter_token ∈ StrSplit (AsciiStrToLower view.filter_) ' ',
          List.IsInfix filter_token.data
            (FormattedAddressRange memory_space ++ " " ++
              AsciiStrToLower memory_space.file_path).data) ∧
    (view.filter_ = "" → (DoFilter FormattedAddressRange view).indices_ =
      view.start_address_to_module_in_memory_.map Prod.fst) ∧
    (∀ other : ModulesDataView,
      other.start_address_to_module_in_memory_ = view.start_address_to_module_in_memory_ →
      AsciiStrToLower other.filter_ = AsciiStrToLower view.filter_ →
      (DoFilter FormattedAddressRange other).indices_ =
        (DoFilter FormattedAddressRange view).indices_) ∧
    (DoFilter FormattedAddressRange view).start_address_to_module_in_memory_ =
      view.start_address_to_module_in_memory_ ∧
    (DoFilter FormattedAddressRange view).start_address_to_module_ =
      view.start_address_to_module_ := by
  refine ⟨?_, ?_, ?_, ?_, rfl, rfl⟩
  · rw [DoFilter_indices]
    exact ((List.filter_sublist _).map Prod.fst).nodup hkeys
  · intro start_address
    rw [DoFilter_indices, List.mem_map]
    constructor
    · rintro ⟨entry, hentry, rfl⟩
      rw [List.mem_filter, List.all_eq_true] at hentry
      refine ⟨entry.2, (find_eq_some_iff_of_nodup _ _ _ hkeys).mpr hentry.1, ?_⟩
      intro filter_token htoken
      exact (StrContains_iff _ _).mp (hentry.2 filter_token htoken)
    · rintro ⟨memory_space, hfind, htokens⟩
      refine ⟨(start_address, memory_space), ?_, rfl⟩
      rw [List.mem_filter, List.all_eq_true]
      refine ⟨(find_eq_some_iff_of_nodup _ _ _ hkeys).mp hfind, ?_⟩
      intro filter_token htoken
      exact (StrContains_iff _ _).mpr (htokens filter_token htoken)
  · intro hfilter
    rw [DoFilter_indices, hfilter, StrSplit_empty]
    congr 1
    rw [List.filter_eq_self]
    intro entry _
    rw [List.all_cons, List.all_nil, Bool.and_true]
    exact StrContains_empty _
  · intro other hmap hfilter
    rw [DoFilter_indices, DoFilter_indices, hmap, hfilter]

/-- C24 at the view of the test with the filter `ABC usr`: the rows are those of
the modules whose string contains both `abc` and `usr`, here the one row 0x1000;
the module at 0x2000 has `abc` but not `usr`, the one at 0x3000 `usr` but not
`abc`. -/
theorem C24_do_filter_witness :
    (testView.start_address_to_module_in_memory_.map Prod.fst).Nodup ∧
    (DoFilter sampleFormattedAddressRange { testView with filter_ := "ABC usr" }).indices_ =
      [0x1000] ∧
    (DoFilter sampleFormattedAddressRange { testView with filter_ := "ABC usr" }).indices_.Nodup ∧
    (DoFilter sampleFormattedAddressRange { testView with filter_ := "ABC usr" }).indices_ =
      (DoFilter sampleFormattedAddressRange { testView with filter_ := "abc usr" }).indices_ :=
  ⟨by decide, by decide,
    (C24_do_filter sampleFormattedAddressRange { testView with filter_ := "ABC usr" }
      (by decide)).1,
    ((C24_do_filter sampleFormattedAddressRange { testView with filter_ := "abc usr" }
      (by decide)).2.2.2.1 { testView with filter_ := "ABC usr" } rfl (by decide))⟩


/-! ## Lemmas about the sort -/

theorem CompareAscendingOrDescending_ne_true_iff {α : Type} [LinearOrder α] (a b : α)
    (ascending : Bool) :
    some (CompareAscendingOrDescending b a ascending) ≠ some true ↔
      if ascending = true then a ≤ b else b ≤ a := by
  unfold CompareAscendingOrDescending
  cases ascending <;> simp

/-- What `stable_sort` does when the comparison is `CompareAscendingOrDescending`
on a key of the elements: it ends, the result is a permutation, in the order of
the key, and two elements with equal keys keep their order. -/
theorem stable_sort_spec {α : Type} [LinearOrder α] (comp : Nat → Nat → Option Bool)
    (key : Nat → α) (ascending : Bool) (range : List Nat)
    (hcomp : ∀ a ∈ range, ∀ b ∈ range,
      comp a b = some (CompareAscendingOrDescending (key a) (key b) ascending)) :
    ∃ sorted, stable_sort comp range = some sorted ∧ sorted.Perm range ∧
      sorted.Pairwise (fun a b => if ascending = true then key a ≤ key b else key b ≤ key a) ∧
      ∀ a b, key a = key b → List.Sublist [a, b] range → List.Sublist [a, b] sorted := by
  classical
  have hall : range.all (fun a => range.all (fun b => (comp a b).isSome)) = true := by
    rw [List.all_eq_true]
    intro a ha
    rw [List.all_eq_true]
    intro b hb
    rw [hcomp a ha b hb]
    rfl
  refine ⟨range.insertionSort (fun a b => comp b a ≠ some true), ?_, ?_, ?_, ?_⟩
  · unfold stable_sort
    rw [if_pos hall]
  · exact List.perm_insertionSort _ range
  · have htotal : IsTotal Nat
        (fun a b => if ascending = true then key a ≤ key b else key b ≤ key a) :=
      ⟨fun a b => by
        cases ascending
        · simpa using le_total (key b) (key a)
        · simpa using le_total (key a) (key b)⟩
    have htrans : IsTrans Nat
        (fun a b => if ascending = true then key a ≤ key b else key b ≤ key a) :=
      ⟨fun a b c => by
        cases ascending
        · simpa using fun h1 h2 => le_trans h2 h1
        · simpa using fun h1 h2 => le_trans h1 h2⟩
    have heq := List.map_insertionSort (fun a b => comp b a ≠ some true)
      (fun a b => if ascending = true then key a ≤ key b else key b ≤ key a) id range (by
        intro a ha b hb
        show comp b a ≠ some true ↔
          (if ascending = true then key a ≤ key b else key b ≤ key a)
        rw [hcomp b hb a ha]
        exact CompareAscendingOrDescending_ne_true_iff (key a) (key b) ascending)
    rw [List.map_id, List.map_id] at heq
    rw [heq]
    exact List.sorted_insertionSort _ range
  · intro a b hkey hsub
    have ha : a ∈ range := hsub.subset (List.mem_cons_self _ _)
    have hb : b ∈ range := hsub.subset (List.mem_cons_of_mem _ (List.mem_cons_self _ _))
    refine List.pair_sublist_insertionSort ?_ hsub
    show comp b a ≠ some true
    rw [hcomp b hb a ha, CompareAscendingOrDescending_ne_true_iff, hkey]
    cases ascending <;> simp


/-- The sort by a member of the entries of a map, every row having an entry. -/
theorem stable_sort_by_member {α ν : Type} [LinearOrder α] (m : List (Nat × ν))
    (Member : ν → α) (fallback : α) (ascending : Bool) (comp : Nat → Nat → Option Bool)
    (rows : List Nat) (hpresent : ∀ a ∈ rows, (find m a).isSome = true)
    (hcomp : ∀ a b x y, find m a = some x → find m b = some y →
      comp a b = some (CompareAscendingOrDescending (Member x) (Member y) ascending)) :
    ∃ sorted, stable_sort comp rows = some sorted ∧ sorted.Perm rows ∧
      OrderedBy m Member ascending sorted ∧ StableBy m Member rows sorted := by
  have hkey : ∀ a x, find m a = some x → ((find m a).map Member).getD fallback = Member x := by
    intro a x hfind
    rw [hfind]
    rfl
  obtain ⟨sorted, hsort, hperm, hordered, hstable⟩ := stable_sort_spec comp
    (fun a => ((find m a).map Member).getD fallback) ascending rows (by
      intro a ha b hb
      obtain ⟨x, hx⟩ := Option.isSome_iff_exists.mp (hpresent a ha)
      obtain ⟨y, hy⟩ := Option.isSome_iff_exists.mp (hpresent b hb)
      show comp a b = some (CompareAscendingOrDescending
        (((find m a).map Member).getD fallback) (((find m b).map Member).getD fallback) ascending)
      rw [hkey a x hx, hkey b y hy]
      exact hcomp a b x y hx hy)
  refine ⟨sorted, hsort, hperm, ?_, ?_⟩
  · unfold OrderedBy
    refine hordered.imp ?_
    intro a b hab x y hx hy
    have hab' : if ascending = true then
        ((find m a).map Member).getD fallback ≤ ((find m b).map Member).getD fallback
        else ((find m b).map Member).getD fallback ≤ ((find m a).map Member).getD fallback := hab
    rw [hkey a x hx, hkey b y hy] at hab'
    exact hab'
  · intro a b x y hx hy hmember hsub
    refine hstable a b ?_ hsub
    show ((find m a).map Member).getD fallback = ((find m b).map Member).getD fallback
    rw [hkey a x hx, hkey b y hy, hmember]

theorem ORBIT_PROC_SORT_eq {α : Type} [LinearOrder α] (view : ModulesDataView)
    (Member : ModuleData → α) (ascending : Bool) (a b : Nat) (x y : ModuleData)
    (hx : find view.start_address_to_module_ a = some x)
    (hy : find view.start_address_to_module_ b = some y) :
    ORBIT_PROC_SORT view Member ascending a b =
      some (CompareAscendingOrDescending (Member x) (Member y) ascending) := by
  unfold ORBIT_PROC_SORT
  rw [hx, hy]

theorem ORBIT_MODULE_SPACE_SORT_eq {α : Type} [LinearOrder α] (view : ModulesDataView)
    (Member : ModuleInMemory → α) (ascending : Bool) (a b : Nat) (x y : ModuleInMemory)
    (hx : find view.start_address_to_module_in_memory_ a = some x)
    (hy : find view.start_address_to_module_in_memory_ b = some y) :
    ORBIT_MODULE_SPACE_SORT view Member ascending a b =
      some (CompareAscendingOrDescending (Member x) (Member y) ascending) := by
  unfold ORBIT_MODULE_SPACE_SORT
  rw [hx, hy]

theorem sorter_of_kColumnName (view : ModulesDataView) (ascending : Bool)
    (h : view.sorting_column_ = kColumnName) :
    sorter view ascending = some (ORBIT_PROC_SORT view ModuleData.name ascending) := by
  unfold sorter
  rw [if_pos h]

theorem sorter_of_kColumnPath (view : ModulesDataView) (ascending : Bool)
    (h : view.sorting_column_ = kColumnPath) :
    sorter view ascending = some (ORBIT_PROC_SORT view ModuleData.file_path ascending) := by
  unfold sorter
  rw [h, if_neg (by decide), if_pos rfl]

theorem sorter_of_kColumnAddressRange (view : ModulesDataView) (ascending : Bool)
    (h : view.sorting_column_ = kColumnAddressRange) :
    sorter view ascending =
      some (ORBIT_MODULE_SPACE_SORT view ModuleInMemory.start ascending) := by
  unfold sorter
  rw [h, if_neg (by decide), if_neg (by decide), if_pos rfl]

theorem sorter_of_kColumnFileSize (view : ModulesDataView) (ascending : Bool)
    (h : view.sorting_column_ = kColumnFileSize) :
    sorter view ascending = some (ORBIT_PROC_SORT view ModuleData.file_size ascending) := by
  unfold sorter
  rw [h, if_neg (by decide), if_neg (by decide), if_neg (by decide), if_pos rfl]

theorem sorter_of_kColumnLoaded (view : ModulesDataView) (ascending : Bool)
    (h : view.sorting_column_ = kColumnLoaded) :
    sorter view ascending = some (ORBIT_PROC_SORT view ModuleData.is_loaded ascending) := by
  unfold sorter
  rw [h, if_neg (by decide), if_neg (by decide), if_neg (by decide), if_neg (by decide),
    if_pos rfl]

theorem sorter_of_other (view : ModulesDataView) (ascending : Bool)
    (h0 : view.sorting_column_ ≠ kColumnName) (h1 : view.sorting_column_ ≠ kColumnPath)
    (h2 : view.sorting_column_ ≠ kColumnAddressRange)
    (h3 : view.sorting_column_ ≠ kColumnFileSize) (h4 : view.sorting_column_ ≠ kColumnLoaded) :
    sorter view ascending = none := by
  unfold sorter
  rw [if_neg h0, if_neg h1, if_neg h2, if_neg h3, if_neg h4]

theorem DoSort_of_sorter (view : ModulesDataView) (order : SortingOrder)
    (comp : Nat → Nat → Option Bool) (sorted : List Nat)
    (horder : sortingOrder view = some order)
    (hsorter : sorter view (decide (order = SortingOrder.kAscending)) = some comp)
    (hsort : stable_sort comp view.indices_ = some sorted) :
    DoSort view = some { view with indices_ := sorted } := by
  unfold DoSort
  rw [horder]
  dsimp only
  rw [hsorter]
  dsimp only
  rw [hsort]
  rfl


/-! ## Claim about the sort -/

/-- C25: `DoSort`, in a view whose sorting order can be read and whose rows all
have an entry in the two maps, ends and leaves the visible rows a permutation of
what they were, everything else unchanged. The rows are then in the order of the
key of the sorting column: the name, the file path, the start address of the
module in memory for the address-range column, the file size as a number, the
loaded flag; non-decreasing when the order is ascending, non-increasing when it
is descending. The sort is stable: two rows with equal keys keep their order. A
sorting column that is none of the five leaves the rows as they are. -/
theorem C25_do_sort (view : ModulesDataView) (order : SortingOrder)
    (horder : sortingOrder view = some order)
    (hmodules : ∀ a ∈ view.indices_, (find view.start_address_to_module_ a).isSome = true)
    (hspaces : ∀ a ∈ view.indices_,
      (find view.start_address_to_module_in_memory_ a).isSome = true) :
    ∃ sorted, DoSort view = some { view with indices_ := sorted } ∧
      sorted.Perm view.indices_ ∧
      (view.sorting_column_ = kColumnName →
        OrderedBy view.start_address_to_module_ ModuleData.name
          (decide (order = SortingOrder.kAscending)) sorted ∧
        StableBy view.start_address_to_module_ ModuleData.name view.indices_ sorted) ∧
      (view.sorting_column_ = kColumnPath →
        OrderedBy view.start_address_to_module_ ModuleData.file_path
          (decide (order = SortingOrder.kAscending)) sorted ∧
        StableBy view.start_address_to_module_ ModuleData.file_path view.indices_ sorted) ∧
      (view.sorting_column_ = kColumnAddressRange →
        OrderedBy view.start_address_to_module_in_memory_ ModuleInMemory.start
          (decide (order = SortingOrder.kAscending)) sorted ∧
        StableBy view.start_address_to_module_in_memory_ ModuleInMemory.start view.indices_
          sorted) ∧
      (view.sorting_column_ = kColumnFileSize →
        OrderedBy view.start_address_to_module_ ModuleData.file_size
          (decide (order = SortingOrder.kAscending)) sorted ∧
        StableBy view.start_address_to_module_ ModuleData.file_size view.indices_ sorted) ∧
      (view.sorting_column_ = kColumnLoaded →
        OrderedBy view.start_address_to_module_ ModuleData.is_loaded
          (decide (order = SortingOrder.kAscending)) sorted ∧
        StableBy view.start_address_to_module_ ModuleData.is_loaded view.indices_ sorted) ∧
      (view.sorting_column_ ≠ kColumnName → view.sorting_column_ ≠ kColumnPath →
        view.sorting_column_ ≠ kColumnAddressRange → view.sorting_column_ ≠ kColumnFileSize →
        view.sorting_column_ ≠ kColumnLoaded → sorted = view.indices_) := by
  by_cases h0 : view.sorting_column_ = kColumnName
  · obtain ⟨sorted, hsort, hperm, hordered, hstable⟩ :=
      stable_sort_by_member view.start_address_to_module_ ModuleData.name "" _ _ view.indices_
        hmodules (ORBIT_PROC_SORT_eq view ModuleData.name
          (decide (order = SortingOrder.kAscending)))
    refine ⟨sorted, DoSort_of_sorter view order _ sorted horder
      (sorter_of_kColumnName view _ h0) hsort, hperm, fun _ => ⟨hordered, hstable⟩, ?_, ?_, ?_,
      ?_, fun h => absurd h0 h⟩ <;>
    · intro h
      exact absurd (h0.symm.trans h) (by decide)
  by_cases h1 : view.sorting_column_ = kColumnPath
  · obtain ⟨sorted, hsort, hperm, hordered, hstable⟩ :=
      stable_sort_by_member view.start_address_to_module_ ModuleData.file_path "" _ _
        view.indices_ hmodules (ORBIT_PROC_SORT_eq view ModuleData.file_path
          (decide (order = SortingOrder.kAscending)))
    refine ⟨sorted, DoSort_of_sorter view order _ sorted horder
      (sorter_of_kColumnPath view _ h1) hsort, hperm, fun h => absurd h h0,
      fun _ => ⟨hordered, hstable⟩, ?_, ?_, ?_, fun _ h => absurd h1 h⟩ <;>
    · intro h
      exact absurd (h1.symm.trans h) (by decide)
  by_cases h2 : view.sorting_column_ = kColumnAddressRange
  · obtain ⟨sorted, hsort, hperm, hordered, hstable⟩ :=
      stable_sort_by_member view.start_address_to_module_in_memory_ ModuleInMemory.start 0 _ _
        view.indices_ hspaces (ORBIT_MODULE_SPACE_SORT_eq view ModuleInMemory.start
          (decide (order = SortingOrder.kAscending)))
    refine ⟨sorted, DoSort_of_sorter view order _ sorted horder
      (sorter_of_kColumnAddressRange view _ h2) hsort, hperm, fun h => absurd h h0,
      fun h => absurd h h1, fun _ => ⟨hordered, hstable⟩, ?_, ?_, fun _ _ h => absurd h2 h⟩ <;>
    · intro h
      exact absurd (h2.symm.trans h) (by decide)
  by_cases h3 : view.sorting_column_ = kColumnFileSize
  · obtain ⟨sorted, hsort, hperm, hordered, hstable⟩ :=
      stable_sort_by_member view.start_address_to_module_ ModuleData.file_size 0 _ _
        view.indices_ hmodules (ORBIT_PROC_SORT_eq view ModuleData.file_size
          (decide (order = SortingOrder.kAscending)))
    refine ⟨sorted, DoSort_of_sorter view order _ sorted horder
      (sorter_of_kColumnFileSize view _ h3) hsort, hperm, fun h => absurd h h0,
      fun h => absurd h h1, fun h => absurd h h2, fun _ => ⟨hordered, hstable⟩, ?_,
      fun _ _ _ h => absurd h3 h⟩
    intro h
    exact absurd (h3.symm.trans h) (by decide)
  by_cases h4 : view.sorting_column_ = kColumnLoaded
  · obtain ⟨sorted, hsort, hperm, hordered, hstable⟩ :=
      stable_sort_by_member view.start_address_to_module_ ModuleData.is_loaded false _ _
        view.indices_ hmodules (ORBIT_PROC_SORT_eq view ModuleData.is_loaded
          (decide (order = SortingOrder.kAscending)))
    exact ⟨sorted, DoSort_of_sorter view order _ sorted horder
      (sorter_of_kColumnLoaded view _ h4) hsort, hperm, fun h => absurd h h0,
      fun h => absurd h h1, fun h => absurd h h2, fun h => absurd h h3,
      fun _ => ⟨hordered, hstable⟩, fun _ _ _ _ h => absurd h4 h⟩
  · refine ⟨view.indices_, ?_, List.Perm.refl _, fun h => absurd h h0, fun h => absurd h h1,
      fun h => absurd h h2, fun h => absurd h h3, fun h => absurd h h4, fun _ _ _ _ _ => rfl⟩
    unfold DoSort
    rw [horder]
    dsimp only
    rw [sorter_of_other view _ h0 h1 h2 h3 h4]

/-- C25 at the view of the test, sorted by file size in descending order: the
rows come in the order of the sizes 300, 200, 100. -/
theorem C25_do_sort_witness :
    sortingOrder testView = some SortingOrder.kDescending ∧
    (DoSort testView).map (fun view => view.indices_) = some [0x1000, 0x3000, 0x2000] ∧
    ∃ sorted, DoSort testView = some { testView with indices_ := sorted } ∧
      sorted.Perm testView.indices_ ∧
      OrderedBy testView.start_address_to_module_ ModuleData.file_size false sorted :=
  ⟨by decide, by decide,
    let ⟨sorted, hsort, hperm, _, _, _, hsize, _⟩ :=
      C25_do_sort testView SortingOrder.kDescending (by decide) (by decide) (by decide)
    ⟨sorted, hsort, hperm, (hsize rfl).1⟩⟩


end orbit_data_views
